import Mathlib

/-!
# COLLADAMax geometry importer

A shallow embedding of `COLLADAMaxGeometryImporter.cpp`: the conversion of a
COLLADAFW mesh into a 3ds Max triangle mesh or polygon mesh, and the assignment
of UV / colour streams to map channels.

Conventions of the embedding.
* C++ arrays that the importer only reads are lists; `rd a i` is the element
  `a[i]`, and `0` when `i` is past the end of the list.
* C++ arrays that the importer writes (vertices, faces, the used-channel
  bitmap) are functions from the index to the cell content, next to the size
  the code allocated; a write never changes the size.
* A dereference of a null primitive pointer and a failing `assert` end the run:
  the functions that can reach one return `Option`, and `none` is that outcome.
* Sizes and indices are natural numbers; the casts of a size to `int` are left out, they
  change nothing below `2 ^ 31`. The casts that the channel keys go through are kept.
* `F` is the type of single-precision values, `D` the type of double-precision
  values, and `narrow : D → F` the conversion `(float)`.
-/

namespace COLLADAMax

/-! ## Loops -/

/-- The loop `for (i = start; ...; ++i) s = body i s` run for `n` iterations. A loop with
the guard `i < stop` runs `stop - start` iterations. -/
def forRange {σ : Type} (body : Nat → σ → σ) : Nat → Nat → σ → σ
  | 0, _, s => s
  | n + 1, i, s => forRange body n (i + 1) (body i s)

/-- The loop `for (i = start; i < stop; i += step) s = body i s`, with a bound on the number
of iterations; `stop` iterations always suffice when `step` is positive. -/
def forStep {σ : Type} (step stop : Nat) (body : Nat → σ → σ) : Nat → Nat → σ → σ
  | 0, _, s => s
  | fuel + 1, i, s => if i < stop then forStep step stop body fuel (i + step) (body i s) else s

/-- Element `i` of a read-only array of unsigned integers. -/
def rd (a : List Nat) (i : Nat) : Nat := a.getD i 0

/-! ## The model of `std::map` -/

/-- The order of `size_t` keys in a `std::map`. -/
def natLt (a b : Nat) : Bool := decide (a < b)

/-- The lookup `m.find(k)` in a `std::map`, kept as a list of entries in key order. -/
def mapFind {K V : Type} [DecidableEq K] (k : K) : List (K × V) → Option V
  | [] => none
  | e :: rest => if e.1 = k then some e.2 else mapFind k rest

/-- The place of a new entry in key order. -/
def mapPlace {K V : Type} (lt : K → K → Bool) (k : K) (v : V) : List (K × V) → List (K × V)
  | [] => [(k, v)]
  | e :: rest => if lt k e.1 then (k, v) :: e :: rest else e :: mapPlace lt k v rest

/-- The call `m.insert(std::make_pair(k, v))`: nothing happens when the key is present. -/
def mapInsert {K V : Type} [DecidableEq K] (lt : K → K → Bool) (k : K) (v : V)
    (m : List (K × V)) : List (K × V) :=
  if (mapFind k m).isSome then m else mapPlace lt k v m

/-- The expression `m[k]` on a `std::map`: the value of the key, and the map, which gets the
key with the value `0` when the key is absent. -/
def mapIndex {K V : Type} [DecidableEq K] [Zero V] (lt : K → K → Bool) (k : K)
    (m : List (K × V)) : V × List (K × V) :=
  match mapFind k m with
  | some v => (v, m)
  | none => (0, mapPlace lt k 0 m)

/-! ## The source mesh (COLLADAFW) -/

/-- The primitive types of `COLLADAFW::MeshPrimitive`. -/
inductive PrimitiveType
  | LINES | LINE_STRIPS | POLYGONS | POLYLIST | TRIANGLES | TRIANGLE_FANS | TRIANGLE_STRIPS
  | POINTS | UNDEFINED_PRIMITIVE_TYPE
  deriving DecidableEq, Repr

/-- A `COLLADAFW::IndexList`: the per-corner indices of one UV or colour set of a primitive. -/
structure IndexList where
  setIndex : Nat
  initialIndex : Nat
  indices : List Nat
  deriving DecidableEq, Repr

/-- A `COLLADAFW::MeshPrimitive`. `groupedVerticesVertexCountArray` is the unsigned run-length
array of `Tristrips` and `Trifans`; `polygonsVertexCountArray` is the signed one of
`Polygons`; `faceCount` is what `getFaceCount()` returns. -/
structure MeshPrimitive where
  primitiveType : PrimitiveType
  materialId : Nat
  positionIndices : List Nat
  normalIndices : List Nat
  uvCoordIndicesArray : List IndexList
  colorIndicesArray : List IndexList
  groupedVerticesVertexCountArray : List Nat
  polygonsVertexCountArray : List Int
  faceCount : Nat
  deriving DecidableEq, Repr

/-- The values of a `COLLADAFW::MeshVertexData`: single or double precision. -/
inductive FloatOrDoubleArray (F D : Type)
  | floatValues (a : List F)
  | doubleValues (a : List D)

/-- The number of values, `getValuesCount()`. -/
def FloatOrDoubleArray.getValuesCount {F D : Type} : FloatOrDoubleArray F D → Nat
  | .floatValues a => a.length
  | .doubleValues a => a.length

/-- One entry of `MeshVertexData::InputInfosArray`. -/
structure InputInfos where
  mLength : Nat
  mStride : Nat
  deriving DecidableEq, Repr

/-- The part of `COLLADAFW::Mesh` the importer reads. A primitive pointer may be null
(`none`); `hasNormals` is what `hasNormals()` returns; `uvCoords` holds the values of
`getUVCoords()`, whose input infos are `uvInputInfos`; the four counts are what
`getTrianglesTriangleCount()`, `getTristripsTriangleCount()`, `getTrifansTriangleCount()` and
`getPolygonsPolygonCount()` return. -/
structure FWMesh (F D : Type) where
  positions : FloatOrDoubleArray F D
  uvInputInfos : List InputInfos
  colorInputInfos : List InputInfos
  meshPrimitives : List (Option MeshPrimitive)
  hasNormals : Bool
  normals : FloatOrDoubleArray F D
  uvCoords : FloatOrDoubleArray F D := .floatValues []
  trianglesTriangleCount : Nat := 0
  tristripsTriangleCount : Nat := 0
  trifansTriangleCount : Nat := 0
  polygonsPolygonCount : Nat := 0

/-! ## The target triangle mesh (3ds Max `Mesh`) -/

/-- A vertex position. -/
structure Point3 (F : Type) where
  x : F
  y : F
  z : F
  deriving DecidableEq, Repr

/-- A triangle of the target mesh: corner vertex indices, material id, edge visibility. -/
structure Face where
  v : Nat × Nat × Nat
  matID : Nat
  edgeVis : Bool × Bool × Bool
  deriving DecidableEq, Repr

/-- The call `face.setMatID(m)`. -/
def Face.setMatID (f : Face) (m : Nat) : Face := { f with matID := m }

/-- The call `face.setEdgeVisFlags(1, 1, 1)`. -/
def Face.setEdgeVisFlags (f : Face) (a b c : Bool) : Face := { f with edgeVis := (a, b, c) }

/-- The call `face.setVerts(a, b, c)`. -/
def Face.setVerts (f : Face) (a b c : Nat) : Face := { f with v := (a, b, c) }

/-- The vertex and face arrays of the target triangle mesh. A vertex that was never written
since the array was allocated is `none`. `newFaces` is the face array that a call of
`setNumFaces` hands out: what the allocation and the constructor `Face()` of the 3ds Max SDK
leave in each face. -/
structure MaxMesh (F : Type) where
  numVerts : Nat
  verts : Nat → Option (Point3 F)
  numFaces : Nat
  faces : Nat → Face
  newFaces : Nat → Face

/-- The call `setNumVerts(n)`: a fresh vertex array of `n` vertices. -/
def MaxMesh.setNumVerts {F : Type} (m : MaxMesh F) (n : Nat) : MaxMesh F :=
  { m with numVerts := n, verts := fun _ => none }

/-- The call `setVert(i, x, y, z)`. -/
def MaxMesh.setVert {F : Type} (m : MaxMesh F) (i : Nat) (x y z : F) : MaxMesh F :=
  { m with verts := Function.update m.verts i (some ⟨x, y, z⟩) }

/-- The call `setNumFaces(n)`, with the default `keep = FALSE`: a new face array of `n`
faces; the faces the mesh had are gone. -/
def MaxMesh.setNumFaces {F : Type} (m : MaxMesh F) (n : Nat) : MaxMesh F :=
  { m with numFaces := n, faces := m.newFaces }

/-- The cast `(MtlID)`: `MtlID` is an unsigned 16-bit integer. -/
def toMtlID (n : Nat) : Nat := n % 65536

/-! ## createFWMaterialIdMaxMtlIdMap -/

/-- The loop of `createFWMaterialIdMaxMtlIdMap`, with `nextMaxMaterialId` as state: a material
id that is not in the map (`count(id) == 0`) gets `nextMaxMaterialId++`. The primitive pointer
is dereferenced without a null check. -/
def createFWMaterialIdMaxMtlIdMapLoop :
    List (Option MeshPrimitive) → Nat → List (Nat × Nat) → Option (List (Nat × Nat))
  | [], _, materialMap => some materialMap
  | none :: _, _, _ => none
  | some primitive :: rest, nextMaxMaterialId, materialMap =>
    if (mapFind primitive.materialId materialMap).isNone then
      createFWMaterialIdMaxMtlIdMapLoop rest (toMtlID (nextMaxMaterialId + 1))
        (mapPlace natLt primitive.materialId nextMaxMaterialId materialMap)
    else
      createFWMaterialIdMaxMtlIdMapLoop rest nextMaxMaterialId materialMap

/-- The function `createFWMaterialIdMaxMtlIdMap`. -/
def createFWMaterialIdMaxMtlIdMap (primitiveArray : List (Option MeshPrimitive))
    (materialMap : List (Nat × Nat)) : Option (List (Nat × Nat)) :=
  createFWMaterialIdMaxMtlIdMapLoop primitiveArray 1 materialMap

/-! ## importTriangleMeshPositions -/

/-- A running index into an array that is being written, and the array. -/
abbrev Cursor (α : Type) := Nat × (Nat → α)

/-- The state of the face loops: the running `faceIndex` and the face array. -/
abbrev FaceState := Cursor Face

/-- The body of the `TRIANGLES` loop of the position pass at index `j`. -/
def trianglesBody (maxMaterialId : Nat) (positionIndices : List Nat) (j : Nat)
    (s : FaceState) : FaceState :=
  let face := s.2 s.1
  let face := if maxMaterialId ≠ 0 then face.setMatID maxMaterialId else face
  let face := face.setEdgeVisFlags true true true
  let face := face.setVerts (rd positionIndices j) (rd positionIndices (j + 1))
    (rd positionIndices (j + 2))
  (s.1 + 1, Function.update s.2 s.1 face)

/-- The body of the inner `TRIANGLE_STRIPS` loop at index `j`; the state carries
`switchOrientation`. -/
def tristripBody (maxMaterialId : Nat) (positionIndices : List Nat) (j : Nat)
    (s : Bool × FaceState) : Bool × FaceState :=
  let face := s.2.2 s.2.1
  let face := if maxMaterialId ≠ 0 then face.setMatID maxMaterialId else face
  if s.1 then
    (false, s.2.1 + 1, Function.update s.2.2 s.2.1
      (face.setVerts (rd positionIndices (j - 1)) (rd positionIndices (j - 2))
        (rd positionIndices j)))
  else
    (true, s.2.1 + 1, Function.update s.2.2 s.2.1
      (face.setVerts (rd positionIndices (j - 2)) (rd positionIndices (j - 1))
        (rd positionIndices j)))

/-- One iteration of the outer `TRIANGLE_STRIPS` loop: the run of `faceVertexCount` indices
starting at `nextTristripStartIndex`. -/
def tristripRun (maxMaterialId : Nat) (positionIndices : List Nat)
    (s : Nat × FaceState) (faceVertexCount : Nat) : Nat × FaceState :=
  let nextTristripStartIndex := s.1
  let lastVertex := nextTristripStartIndex + faceVertexCount
  let r := forRange (tristripBody maxMaterialId positionIndices)
    (lastVertex - (nextTristripStartIndex + 2)) (nextTristripStartIndex + 2) (false, s.2)
  (nextTristripStartIndex + faceVertexCount, r.2)

/-- The body of the inner `TRIANGLE_FANS` loop at index `j`. -/
def trifanBody (maxMaterialId : Nat) (positionIndices : List Nat) (commonVertexIndex : Nat)
    (j : Nat) (s : FaceState) : FaceState :=
  let face := s.2 s.1
  let face := if maxMaterialId ≠ 0 then face.setMatID maxMaterialId else face
  let face := face.setEdgeVisFlags true true true
  let face := face.setVerts commonVertexIndex (rd positionIndices (j - 1)) (rd positionIndices j)
  (s.1 + 1, Function.update s.2 s.1 face)

/-- One iteration of the outer `TRIANGLE_FANS` loop. -/
def trifanRun (maxMaterialId : Nat) (positionIndices : List Nat)
    (s : Nat × FaceState) (faceVertexCount : Nat) : Nat × FaceState :=
  let nextTrifanStartIndex := s.1
  let commonVertexIndex := rd positionIndices nextTrifanStartIndex
  let lastVertex := nextTrifanStartIndex + faceVertexCount
  let r := forRange (trifanBody maxMaterialId positionIndices commonVertexIndex)
    (lastVertex - (nextTrifanStartIndex + 2)) (nextTrifanStartIndex + 2) s.2
  (nextTrifanStartIndex + faceVertexCount, r)

/-- The body of the primitive loop of the position pass: the `switch` on the primitive type. -/
def positionsPrimitive (s : FaceState) (meshPrimitive : Option MeshPrimitive) : FaceState :=
  match meshPrimitive with
  | none => s
  | some p =>
    let maxMaterialId := toMtlID p.materialId
    match p.primitiveType with
    | .TRIANGLES =>
      forStep 3 p.positionIndices.length (trianglesBody maxMaterialId p.positionIndices)
        p.positionIndices.length 0 s
    | .TRIANGLE_STRIPS =>
      (p.groupedVerticesVertexCountArray.foldl
        (tristripRun maxMaterialId p.positionIndices) (0, s)).2
    | .TRIANGLE_FANS =>
      (p.groupedVerticesVertexCountArray.foldl
        (trifanRun maxMaterialId p.positionIndices) (0, s)).2
    | _ => s

/-- The vertex loop of the double-precision branch. -/
def setVertsDouble {F D : Type} (narrow : D → F) [Inhabited D] (positionsArray : List D)
    (positionsCount : Nat) (m : MaxMesh F) : MaxMesh F :=
  forRange (fun i m => m.setVert i (narrow (positionsArray.getD (3 * i) default))
    (narrow (positionsArray.getD (3 * i + 1) default))
    (narrow (positionsArray.getD (3 * i + 2) default))) positionsCount 0 m

/-- The vertex loop of the single-precision branch: `for (i = 0; i < positionsCount; i += 3)`
with `setVert(i, a[i], a[i + 1], a[i + 2])`. -/
def setVertsFloat {F : Type} [Inhabited F] (positionsArray : List F)
    (positionsCount : Nat) (m : MaxMesh F) : MaxMesh F :=
  forStep 3 positionsCount (fun i m => m.setVert i (positionsArray.getD i default)
    (positionsArray.getD (i + 1) default) (positionsArray.getD (i + 2) default))
    positionsCount 0 m

/-- The function `importTriangleMeshPositions`. The result is the returned flag, the target mesh
and the material map of the geometry. -/
def importTriangleMeshPositions {F D : Type} [Inhabited F] [Inhabited D] (narrow : D → F)
    (mesh : FWMesh F D) (mTotalTrianglesCount : Nat) (materialMap : List (Nat × Nat))
    (triangleMesh : MaxMesh F) : Option (Bool × MaxMesh F × List (Nat × Nat)) :=
  let positionsCount := mesh.positions.getValuesCount / 3
  let triangleMesh := triangleMesh.setNumVerts positionsCount
  let triangleMesh :=
    match mesh.positions with
    | .doubleValues positionsArray => setVertsDouble narrow positionsArray positionsCount triangleMesh
    | .floatValues positionsArray => setVertsFloat positionsArray positionsCount triangleMesh
  let triangleMesh := triangleMesh.setNumFaces mTotalTrianglesCount
  match createFWMaterialIdMaxMtlIdMap mesh.meshPrimitives materialMap with
  | none => none
  | some materialMap =>
    let r := mesh.meshPrimitives.foldl positionsPrimitive (0, triangleMesh.faces)
    some (true, { triangleMesh with faces := r.2 }, materialMap)

/-- The orientation flag after `t` more iterations of a strip run. -/
def flagAt (sw : Bool) (t : Nat) : Bool := if t % 2 = 0 then sw else !sw

/-- The face a strip iteration at index `j` with flag `sw` makes out of the face `old`. -/
def tristripFace (maxMaterialId : Nat) (positionIndices : List Nat) (sw : Bool) (j : Nat)
    (old : Face) : Face :=
  let face := if maxMaterialId ≠ 0 then old.setMatID maxMaterialId else old
  if sw then
    face.setVerts (rd positionIndices (j - 1)) (rd positionIndices (j - 2)) (rd positionIndices j)
  else
    face.setVerts (rd positionIndices (j - 2)) (rd positionIndices (j - 1)) (rd positionIndices j)

/-- The face a fan iteration at index `j` makes out of the face `old`. -/
def trifanFace (maxMaterialId : Nat) (positionIndices : List Nat) (commonVertexIndex : Nat)
    (j : Nat) (old : Face) : Face :=
  let face := if maxMaterialId ≠ 0 then old.setMatID maxMaterialId else old
  let face := face.setEdgeVisFlags true true true
  face.setVerts commonVertexIndex (rd positionIndices (j - 1)) (rd positionIndices j)

/-- The state `r` extends `s`: the face index did not go back and the faces below the face
index of `s` are the ones of `s`. -/
def Cursor.Extends {α : Type} (s r : Cursor α) : Prop :=
  s.1 ≤ r.1 ∧ ∀ i, i < s.1 → r.2 i = s.2 i

/-- The vertex part of the position pass: allocation and the vertex loop. -/
def positionsVertexPart {F D : Type} [Inhabited F] [Inhabited D] (narrow : D → F)
    (mesh : FWMesh F D) (triangleMesh : MaxMesh F) : MaxMesh F :=
  match mesh.positions with
  | .doubleValues positionsArray =>
    setVertsDouble narrow positionsArray (mesh.positions.getValuesCount / 3)
      (triangleMesh.setNumVerts (mesh.positions.getValuesCount / 3))
  | .floatValues positionsArray =>
    setVertsFloat positionsArray (mesh.positions.getValuesCount / 3)
      (triangleMesh.setNumVerts (mesh.positions.getValuesCount / 3))

/-! ## The target polygon mesh (3ds Max `MNMesh`) and importPolygonMeshPositions -/

/-- A polygon of the target mesh: its degree and its corner vertex indices. -/
structure MNFace where
  deg : Nat
  vtx : List Nat
  deriving DecidableEq, Repr

/-- The call `face->MakePoly(fdeg, vv)`. -/
def MNFace.MakePoly (_f : MNFace) (fdeg : Nat) (vv : List Nat) : MNFace :=
  { deg := fdeg, vtx := vv }

/-- The `n` values behind the pointer `&a[start]`. -/
def readFrom (a : List Nat) (start n : Nat) : List Nat :=
  (List.range n).map (fun k => rd a (start + k))

/-- The vertex and face arrays of the target polygon mesh. -/
structure MNMesh (F : Type) where
  numVerts : Nat
  verts : Nat → Option (Point3 F)
  numFaces : Nat
  faces : Nat → MNFace

/-- The call `setNumVerts(n)`: a fresh vertex array of `n` vertices. -/
def MNMesh.setNumVerts {F : Type} (m : MNMesh F) (n : Nat) : MNMesh F :=
  { m with numVerts := n, verts := fun _ => none }

/-- The assignment `V(i)->p = Point3(x, y, z)`. -/
def MNMesh.setP {F : Type} (m : MNMesh F) (i : Nat) (x y z : F) : MNMesh F :=
  { m with verts := Function.update m.verts i (some ⟨x, y, z⟩) }

/-- The call `setNumFaces(n)`. -/
def MNMesh.setNumFaces {F : Type} (m : MNMesh F) (n : Nat) : MNMesh F :=
  { m with numFaces := n }

/-- The body of the `TRIANGLES` loop of the polygon position pass. -/
def polyTrianglesBody (positionIndices : List Nat) (j : Nat) (s : Cursor MNFace) :
    Cursor MNFace :=
  (s.1 + 1, Function.update s.2 s.1 ((s.2 s.1).MakePoly 3 (readFrom positionIndices j 3)))

/-- The body of the inner `TRIANGLE_STRIPS` loop of the polygon position pass. -/
def polyTristripBody (positionIndices : List Nat) (j : Nat) (s : Bool × Cursor MNFace) :
    Bool × Cursor MNFace :=
  if s.1 then
    (false, s.2.1 + 1, Function.update s.2.2 s.2.1 ((s.2.2 s.2.1).MakePoly 3
      [rd positionIndices (j - 1), rd positionIndices (j - 2), rd positionIndices j]))
  else
    (true, s.2.1 + 1, Function.update s.2.2 s.2.1 ((s.2.2 s.2.1).MakePoly 3
      (readFrom positionIndices (j - 2) 3)))

/-- One iteration of the outer `TRIANGLE_STRIPS` loop of the polygon position pass. -/
def polyTristripRun (positionIndices : List Nat) (s : Nat × Cursor MNFace)
    (faceVertexCount : Nat) : Nat × Cursor MNFace :=
  let nextTristripStartIndex := s.1
  let lastVertex := nextTristripStartIndex + faceVertexCount
  let r := forRange (polyTristripBody positionIndices)
    (lastVertex - (nextTristripStartIndex + 2)) (nextTristripStartIndex + 2) (false, s.2)
  (nextTristripStartIndex + faceVertexCount, r.2)

/-- The body of the inner `TRIANGLE_FANS` loop of the polygon position pass. -/
def polyTrifanBody (positionIndices : List Nat) (first : Nat) (j : Nat) (s : Cursor MNFace) :
    Cursor MNFace :=
  (s.1 + 1, Function.update s.2 s.1 ((s.2 s.1).MakePoly 3
    [first, rd positionIndices (j - 1), rd positionIndices j]))

/-- One iteration of the outer `TRIANGLE_FANS` loop of the polygon position pass. -/
def polyTrifanRun (positionIndices : List Nat) (s : Nat × Cursor MNFace)
    (faceVertexCount : Nat) : Nat × Cursor MNFace :=
  let nextTrifanStartIndex := s.1
  let first := rd positionIndices nextTrifanStartIndex
  let lastVertex := nextTrifanStartIndex + faceVertexCount
  let r := forRange (polyTrifanBody positionIndices first)
    (lastVertex - (nextTrifanStartIndex + 2)) (nextTrifanStartIndex + 2) s.2
  (nextTrifanStartIndex + faceVertexCount, r)

/-- One iteration of the `POLYGONS` loop: the state is `currentIndex` and the face cursor. A run
with `faceVertexCount <= 0` is skipped by `continue`. -/
def polygonsBody (positionIndices : List Nat) (s : Nat × Cursor MNFace)
    (faceVertexCount : Int) : Nat × Cursor MNFace :=
  if faceVertexCount ≤ 0 then s
  else
    let currentIndex := s.1
    let faceIndex := s.2.1
    (currentIndex + faceVertexCount.toNat, faceIndex + 1,
      Function.update s.2.2 faceIndex
        ((s.2.2 faceIndex).MakePoly faceVertexCount.toNat
          (readFrom positionIndices currentIndex faceVertexCount.toNat)))

/-- The body of the primitive loop of the polygon position pass. -/
def polyPositionsPrimitive (s : Cursor MNFace) (meshPrimitive : Option MeshPrimitive) :
    Cursor MNFace :=
  match meshPrimitive with
  | none => s
  | some p =>
    match p.primitiveType with
    | .TRIANGLES =>
      forStep 3 p.positionIndices.length (polyTrianglesBody p.positionIndices)
        p.positionIndices.length 0 s
    | .TRIANGLE_STRIPS =>
      (p.groupedVerticesVertexCountArray.foldl (polyTristripRun p.positionIndices) (0, s)).2
    | .TRIANGLE_FANS =>
      (p.groupedVerticesVertexCountArray.foldl (polyTrifanRun p.positionIndices) (0, s)).2
    | .POLYGONS =>
      (p.polygonsVertexCountArray.foldl (polygonsBody p.positionIndices) (0, s)).2
    | _ => s

/-- The vertex loop of the double-precision branch of the polygon position pass. -/
def polySetVertsDouble {F D : Type} (narrow : D → F) [Inhabited D] (positionsArray : List D)
    (positionsCount : Nat) (m : MNMesh F) : MNMesh F :=
  forRange (fun i m => m.setP i (narrow (positionsArray.getD (3 * i) default))
    (narrow (positionsArray.getD (3 * i + 1) default))
    (narrow (positionsArray.getD (3 * i + 2) default))) positionsCount 0 m

/-- The vertex loop of the single-precision branch of the polygon position pass:
`for (i = 0; i < positionsCount; i += 3)` writing vertex `i` from `a[i], a[i + 1], a[i + 2]`. -/
def polySetVertsFloat {F : Type} [Inhabited F] (positionsArray : List F)
    (positionsCount : Nat) (m : MNMesh F) : MNMesh F :=
  forStep 3 positionsCount (fun i m => m.setP i (positionsArray.getD i default)
    (positionsArray.getD (i + 1) default) (positionsArray.getD (i + 2) default))
    positionsCount 0 m

/-- The function `importPolygonMeshPositions`; `polygonsPolygonCount` is
`mesh->getPolygonsPolygonCount()`. -/
def importPolygonMeshPositions {F D : Type} [Inhabited F] [Inhabited D] (narrow : D → F)
    (mesh : FWMesh F D) (mTotalTrianglesCount polygonsPolygonCount : Nat)
    (polgonMesh : MNMesh F) : Bool × MNMesh F :=
  let positionsCount := mesh.positions.getValuesCount / 3
  let polgonMesh := polgonMesh.setNumVerts positionsCount
  let polgonMesh :=
    match mesh.positions with
    | .doubleValues positionsArray =>
      polySetVertsDouble narrow positionsArray positionsCount polgonMesh
    | .floatValues positionsArray => polySetVertsFloat positionsArray positionsCount polgonMesh
  let polygonsCount := mTotalTrianglesCount + polygonsPolygonCount
  let polgonMesh := polgonMesh.setNumFaces polygonsCount
  let r := mesh.meshPrimitives.foldl polyPositionsPrimitive (0, polgonMesh.faces)
  (true, { polgonMesh with faces := r.2 })

/-! ## The channel assignment engine -/

/-- The constants `MAX_MESHMAPS` and `NUM_HIDDENMAPS` of the 3ds Max SDK, which the importer
takes from a header outside this repository. -/
structure MapLimits where
  MAX_MESHMAPS : Nat
  NUM_HIDDENMAPS : Nat
  deriving DecidableEq, Repr

/-- The values the 3ds Max SDK gives the two constants. -/
def MapLimits.sdk : MapLimits := { MAX_MESHMAPS := 100, NUM_HIDDENMAPS := 2 }

/-- The cast `(long)` of a `size_t` value, `long` being 32 bits wide on the platform of the
plug-in. -/
def toLong (n : Nat) : Int := Int.bmod (n : Int) (2 ^ 32)

/-- The cast `(int)` of a `size_t` value. -/
def toInt (n : Nat) : Int := Int.bmod (n : Int) (2 ^ 32)

/-- The `size_t` subtraction `setIndex - 1`, which wraps around at zero. -/
def sizeSubOne (n : Nat) : Nat := (n + 2 ^ 64 - 1) % 2 ^ 64

/-- The key type `SetSourcePair`: a `long` and a source index. -/
abbrev SetSourcePair := Int × Nat

/-- The order of `SetSourcePair` keys in a `std::map`: lexicographic. -/
def pairLt (a b : SetSourcePair) : Bool :=
  decide (a.1 < b.1) || (decide (a.1 = b.1) && decide (a.2 < b.2))

/-- The members of `GeometryImporter` that the channel engine and the UV pass use. -/
structure Importer where
  mTotalTrianglesCount : Nat
  mMapChannelCount : Int
  mSetSourcePairMapChannelMap : List (SetSourcePair × Int)
  mColorInitialIndexSourceIndexMap : List (Nat × Nat)
  mColorSourceIndexInitialIndexMap : List (Nat × Nat)
  mUVInitialIndexSourceIndexMap : List (Nat × Nat)
  mUVSourceIndexInitialIndexMap : List (Nat × Nat)
  deriving DecidableEq, Repr

/-- The importer as its constructor leaves it, with the triangle count `importMesh` computes. -/
def Importer.fresh (mTotalTrianglesCount : Nat) : Importer :=
  { mTotalTrianglesCount := mTotalTrianglesCount, mMapChannelCount := 0,
    mSetSourcePairMapChannelMap := [], mColorInitialIndexSourceIndexMap := [],
    mColorSourceIndexInitialIndexMap := [], mUVInitialIndexSourceIndexMap := [],
    mUVSourceIndexInitialIndexMap := [] }

/-- The importer together with the local array `usedMapChannels`, indexed by
`channel + NUM_HIDDENMAPS`. -/
abbrev ChannelState := Importer × (Int → Bool)

/-- The negation of a `long`, which stays in the 32 bits of a `long`: the negation of
`-2^31` is `-2^31`. -/
def negLong (x : Int) : Int := Int.bmod (-x) (2 ^ 32)

/-- The key `setSourcePair` of an index list:
`isColorChannel ? -(long)(setIndex-1) : (long)setIndex`, and the source index. -/
def channelKey (isColorChannel : Bool) (setIndex sourceIndex : Nat) : SetSourcePair :=
  (if isColorChannel then negLong (toLong (sizeSubOne setIndex)) else toLong setIndex,
    sourceIndex)

/-- The value `favoredMapChannel` of an index list. -/
def favoredMapChannel (isColorChannel : Bool) (setIndex : Nat) : Int :=
  if isColorChannel then (if setIndex = 1 then 0 else toInt setIndex)
  else (if setIndex = 0 then 1 else toInt setIndex)

/-- The three statements that record an assignment: insert into the map, raise
`mMapChannelCount`, mark the channel used. -/
def recordChannel (lim : MapLimits) (s : ChannelState) (setSourcePair : SetSourcePair)
    (mapChannel : Int) : ChannelState :=
  ({ s.1 with
      mSetSourcePairMapChannelMap :=
        mapInsert pairLt setSourcePair mapChannel s.1.mSetSourcePairMapChannelMap,
      mMapChannelCount :=
        if mapChannel > s.1.mMapChannelCount then mapChannel else s.1.mMapChannelCount },
    Function.update s.2 (mapChannel + lim.NUM_HIDDENMAPS) true)

/-- The `while (true)` scan of the second try from `mapChannelIndex`, with `n` the number of
channels from `mapChannelIndex` to `MAX_MESHMAPS`: `none` is `return false`. -/
def nextUnused (lim : MapLimits) (usedMapChannels : Int → Bool) : Nat → Int → Option Int
  | 0, _ => none
  | n + 1, mapChannelIndex =>
    if !usedMapChannels (mapChannelIndex + lim.NUM_HIDDENMAPS) then some mapChannelIndex
    else nextUnused lim usedMapChannels n (mapChannelIndex + 1)

/-- The function `assignMapChannels<isColorChannel, isFirstTry>`. The result `none` is the
failing `assert`; otherwise the returned flag and the state. An index list whose key is in
the map ends the loop (`break`). -/
def assignMapChannels (lim : MapLimits) (isColorChannel isFirstTry : Bool)
    (initialIndexSourceIndexMap : List (Nat × Nat)) :
    List IndexList → ChannelState → Option (Bool × ChannelState)
  | [], s => some (true, s)
  | indexList :: rest, s =>
    match mapFind indexList.initialIndex initialIndexSourceIndexMap with
    | none => none
    | some sourceIndex =>
      let setSourcePair := channelKey isColorChannel indexList.setIndex sourceIndex
      if (mapFind setSourcePair s.1.mSetSourcePairMapChannelMap).isSome then some (true, s)
      else
        let favored := favoredMapChannel isColorChannel indexList.setIndex
        if isFirstTry then
          if favored ≤ lim.MAX_MESHMAPS then
            if !s.2 (favored + lim.NUM_HIDDENMAPS) then
              assignMapChannels lim isColorChannel isFirstTry initialIndexSourceIndexMap rest
                (recordChannel lim s setSourcePair favored)
            else
              assignMapChannels lim isColorChannel isFirstTry initialIndexSourceIndexMap rest s
          else
            assignMapChannels lim isColorChannel isFirstTry initialIndexSourceIndexMap rest s
        else
          match nextUnused lim s.2 lim.MAX_MESHMAPS 1 with
          | none => some (false, s)
          | some mapChannelIndex =>
            assignMapChannels lim isColorChannel isFirstTry initialIndexSourceIndexMap rest
              (recordChannel lim s setSourcePair mapChannelIndex)

/-- The state of a translation-table loop: the running initial index, the table from initial
index to source index and the table from source index to initial index. -/
abbrev TableState := Nat × List (Nat × Nat) × List (Nat × Nat)

/-- The loop that fills the two translation tables of a stream family, from source index `i`
on. A stride of zero is a division by zero (`none`). -/
def initialIndexLoop : List InputInfos → Nat → TableState → Option TableState
  | [], _, s => some s
  | inputInfo :: rest, i, s =>
    if inputInfo.mStride = 0 then none
    else
      initialIndexLoop rest (i + 1)
        (s.1 + inputInfo.mLength / inputInfo.mStride,
          mapInsert natLt s.1 i s.2.1,
          mapInsert natLt i s.1 s.2.2)

/-- The first try: for every primitive the colour lists, then the UV lists, with the favoured
channel; the flag `assignMapChannels` returns is ignored. The primitive pointer is dereferenced
without a null check. -/
def firstTry (lim : MapLimits) : List (Option MeshPrimitive) → ChannelState → Option ChannelState
  | [], s => some s
  | none :: _, _ => none
  | some meshPrimitive :: rest, s =>
    match assignMapChannels lim true true s.1.mColorInitialIndexSourceIndexMap
        meshPrimitive.colorIndicesArray s with
    | none => none
    | some r1 =>
      match assignMapChannels lim false true r1.2.1.mUVInitialIndexSourceIndexMap
          meshPrimitive.uvCoordIndicesArray r1.2 with
      | none => none
      | some r2 => firstTry lim rest r2.2

/-- The second try: for every primitive the colour lists, then the UV lists, with the next
unused channel; the loop ends (`break`) as soon as a call returns `false`. -/
def secondTry (lim : MapLimits) : List (Option MeshPrimitive) → ChannelState → Option ChannelState
  | [], s => some s
  | none :: _, _ => none
  | some meshPrimitive :: rest, s =>
    match assignMapChannels lim true false s.1.mColorInitialIndexSourceIndexMap
        meshPrimitive.colorIndicesArray s with
    | none => none
    | some (false, s1) => some s1
    | some (true, s1) =>
      match assignMapChannels lim false false s1.1.mUVInitialIndexSourceIndexMap
          meshPrimitive.uvCoordIndicesArray s1 with
      | none => none
      | some (false, s2) => some s2
      | some (true, s2) => secondTry lim rest s2

/-- The function `createSetSourcePairMapChannelMap` on a mesh geometry. The variable
`uVInitialIndex` is declared without an initial value: the value it holds is the parameter
`uVInitialIndex`. The array `usedMapChannels` starts all `false`. -/
def createSetSourcePairMapChannelMap {F D : Type} (lim : MapLimits) (uVInitialIndex : Nat)
    (mesh : FWMesh F D) (imp : Importer) : Option Importer :=
  match initialIndexLoop mesh.colorInputInfos 0
      (0, imp.mColorInitialIndexSourceIndexMap, imp.mColorSourceIndexInitialIndexMap) with
  | none => none
  | some colorTables =>
    match initialIndexLoop mesh.uvInputInfos 0
        (uVInitialIndex, imp.mUVInitialIndexSourceIndexMap, imp.mUVSourceIndexInitialIndexMap) with
    | none => none
    | some uvTables =>
      let imp := { imp with
        mColorInitialIndexSourceIndexMap := colorTables.2.1,
        mColorSourceIndexInitialIndexMap := colorTables.2.2,
        mUVInitialIndexSourceIndexMap := uvTables.2.1,
        mUVSourceIndexInitialIndexMap := uvTables.2.2 }
      match firstTry lim mesh.meshPrimitives (imp, fun _ => false) with
      | none => none
      | some s1 =>
        match secondTry lim mesh.meshPrimitives s1 with
        | none => none
        | some s2 => some s2.1

/-! ## The per-corner index loop of importTriangleMeshUVCoords -/

/-- The texture vertex indices of the three corners of a face (`TVFace`). -/
abbrev TVFace := Nat × Nat × Nat

/-- The arrays `tf` of the map channels of the target mesh, by channel: a cell that was not
written since the array was allocated is `none`. -/
abbrev MapFaces := Int → Nat → Option TVFace

/-- The body of the `TRIANGLES` loop of the UV pass. -/
def uvTrianglesBody (uvIndices : List Nat) (j : Nat) (s : Cursor (Option TVFace)) :
    Cursor (Option TVFace) :=
  (s.1 + 1, Function.update s.2 s.1
    (some (rd uvIndices j, rd uvIndices (j + 1), rd uvIndices (j + 2))))

/-- The body of the inner `TRIANGLE_STRIPS` loop of the UV pass. -/
def uvTristripBody (uvIndices : List Nat) (j : Nat) (s : Bool × Cursor (Option TVFace)) :
    Bool × Cursor (Option TVFace) :=
  if s.1 then
    (false, s.2.1 + 1, Function.update s.2.2 s.2.1
      (some (rd uvIndices (j - 1), rd uvIndices (j - 2), rd uvIndices j)))
  else
    (true, s.2.1 + 1, Function.update s.2.2 s.2.1
      (some (rd uvIndices (j - 2), rd uvIndices (j - 1), rd uvIndices j)))

/-- One iteration of the outer `TRIANGLE_STRIPS` loop of the UV pass. -/
def uvTristripRun (uvIndices : List Nat) (s : Nat × Cursor (Option TVFace))
    (faceVertexCount : Nat) : Nat × Cursor (Option TVFace) :=
  let nextTristripStartIndex := s.1
  let lastVertex := nextTristripStartIndex + faceVertexCount
  let r := forRange (uvTristripBody uvIndices)
    (lastVertex - (nextTristripStartIndex + 2)) (nextTristripStartIndex + 2) (false, s.2)
  (nextTristripStartIndex + faceVertexCount, r.2)

/-- The body of the inner `TRIANGLE_FANS` loop of the UV pass. -/
def uvTrifanBody (uvIndices : List Nat) (commonVertexIndex : Nat) (j : Nat)
    (s : Cursor (Option TVFace)) : Cursor (Option TVFace) :=
  (s.1 + 1, Function.update s.2 s.1
    (some (commonVertexIndex, rd uvIndices (j - 1), rd uvIndices j)))

/-- One iteration of the outer `TRIANGLE_FANS` loop of the UV pass. -/
def uvTrifanRun (uvIndices : List Nat) (s : Nat × Cursor (Option TVFace))
    (faceVertexCount : Nat) : Nat × Cursor (Option TVFace) :=
  let nextTrifanStartIndex := s.1
  let commonVertexIndex := rd uvIndices nextTrifanStartIndex
  let lastVertex := nextTrifanStartIndex + faceVertexCount
  let r := forRange (uvTrifanBody uvIndices commonVertexIndex)
    (lastVertex - (nextTrifanStartIndex + 2)) (nextTrifanStartIndex + 2) s.2
  (nextTrifanStartIndex + faceVertexCount, r)

/-- The state of the UV index loops: `currentFaceIndex` (or `faceIndex`), the importer and the
`tf` arrays of the channels. -/
abbrev UVState := Nat × Importer × MapFaces

/-- The body of the loop over the UV index lists of one primitive; `faceIndex` is the face
index at which the primitive starts. Both map lookups are `operator[]`. -/
def uvIndexListStep (meshPrimitive : MeshPrimitive) (faceIndex : Nat) (s : UVState)
    (uvIndexList : IndexList) : UVState :=
  let src := mapIndex natLt uvIndexList.initialIndex s.2.1.mUVInitialIndexSourceIndexMap
  let sourceIndex := src.1
  let setSourcePair : SetSourcePair := (toLong uvIndexList.setIndex, sourceIndex)
  let ch := mapIndex pairLt setSourcePair s.2.1.mSetSourcePairMapChannelMap
  let mapChannel := ch.1
  let imp := { s.2.1 with
    mUVInitialIndexSourceIndexMap := src.2, mSetSourcePairMapChannelMap := ch.2 }
  let uvIndices := uvIndexList.indices
  let start : Cursor (Option TVFace) := (faceIndex, s.2.2 mapChannel)
  match meshPrimitive.primitiveType with
  | .TRIANGLES =>
    let r := forStep 3 uvIndices.length (uvTrianglesBody uvIndices) uvIndices.length 0 start
    (r.1, imp, Function.update s.2.2 mapChannel r.2)
  | .TRIANGLE_STRIPS =>
    let r := (meshPrimitive.groupedVerticesVertexCountArray.foldl
      (uvTristripRun uvIndices) (0, start)).2
    (r.1, imp, Function.update s.2.2 mapChannel r.2)
  | .TRIANGLE_FANS =>
    let r := (meshPrimitive.groupedVerticesVertexCountArray.foldl
      (uvTrifanRun uvIndices) (0, start)).2
    (r.1, imp, Function.update s.2.2 mapChannel r.2)
  | _ => (faceIndex, imp, s.2.2)

/-- The body of the primitive loop of the UV pass: `currentFaceIndex` starts as `faceIndex`, is
set by every UV index list, and becomes the new `faceIndex`. -/
def uvPrimitive (s : UVState) (meshPrimitive : Option MeshPrimitive) : UVState :=
  match meshPrimitive with
  | none => s
  | some p => p.uvCoordIndicesArray.foldl (uvIndexListStep p s.1) s

/-- The part of `importTriangleMeshUVCoords` that assigns the per-corner indices: the call of
`createSetSourcePairMapChannelMap` and the primitive loop at the end of the function.
`mapFaces` holds the `tf` arrays as the statements in between allocate them. -/
def importTriangleMeshUVCoordsFaces {F D : Type} (lim : MapLimits) (uVInitialIndex : Nat)
    (mesh : FWMesh F D) (imp : Importer) (mapFaces : MapFaces) : Option UVState :=
  match createSetSourcePairMapChannelMap lim uVInitialIndex mesh imp with
  | none => none
  | some imp => some (mesh.meshPrimitives.foldl uvPrimitive (0, imp, mapFaces))

/-! ## Predicates on the channel state -/

/-- No two distinct keys of the map have the same channel. -/
def MapInjective (m : List (SetSourcePair × Int)) : Prop :=
  ∀ k1 v1 k2 v2, (k1, v1) ∈ m → (k2, v2) ∈ m → v1 = v2 → k1 = k2

/-- The invariant of the engine: every channel in the map is marked used, and the map is
injective. -/
def ChannelInv (lim : MapLimits) (s : ChannelState) : Prop :=
  (∀ k v, (k, v) ∈ s.1.mSetSourcePairMapChannelMap → s.2 (v + lim.NUM_HIDDENMAPS) = true) ∧
  MapInjective s.1.mSetSourcePairMapChannelMap

/-! ## The start position of a UV source in importTriangleMeshUVCoords -/

/-- The loop that computes `startPosition` for the source `sourceIndex`:
`for (i = 0; i < sourceIndex; ++i) startPosition += inputInfos[sourceIndex]->mLength`, the
inner `inputInfo` being read at `sourceIndex`. -/
def uvStartPosition (inputInfos : List InputInfos) (sourceIndex : Nat) : Nat :=
  forRange (fun _ startPosition =>
    startPosition + (inputInfos.getD sourceIndex ⟨0, 0⟩).mLength) sourceIndex 0 0

/-! ## Material tags in first-encounter order -/

/-- The values of a list that are not in `seen`, added to `seen` in the order in which they
first occur. `firstSeen [] l` is the list of the distinct values of `l` in first-encounter
order. -/
def firstSeen : List Nat → List Nat → List Nat
  | seen, [] => seen
  | seen, t :: rest => if t ∈ seen then firstSeen seen rest else firstSeen (seen ++ [t]) rest

/-- The map `m` sends the `k`-th value of `seen` (counted from 0) to `k + 1` and has no other
key. -/
def NumbersInOrder (seen : List Nat) (m : List (Nat × Nat)) : Prop :=
  ∀ tag v, mapFind tag m = some v ↔ ∃ k, seen[k]? = some tag ∧ v = k + 1

/-! ## Concrete inputs used to exercise the definitions -/

/-- A face as the `Face()` constructor leaves it in this model: no material, no visible edge. -/
def Face.blank : Face := { v := (0, 0, 0), matID := 0, edgeVis := (false, false, false) }

/-- A target triangle mesh before the import, whose new faces are blank. -/
def MaxMesh.blank (F : Type) : MaxMesh F :=
  { numVerts := 0, verts := fun _ => none, numFaces := 0, faces := fun _ => Face.blank,
    newFaces := fun _ => Face.blank }

/-- A primitive of the given type with position indices and run lengths only. -/
def MeshPrimitive.simple (t : PrimitiveType) (positionIndices : List Nat)
    (counts : List Nat) : MeshPrimitive :=
  { primitiveType := t, materialId := 0, positionIndices := positionIndices, normalIndices := [],
    uvCoordIndicesArray := [], colorIndicesArray := [],
    groupedVerticesVertexCountArray := counts, polygonsVertexCountArray := [],
    faceCount := positionIndices.length / 3 }

/-- A mesh with the given primitives and an empty position stream. -/
def FWMesh.ofPrimitives (prims : List (Option MeshPrimitive)) : FWMesh Nat Nat :=
  { positions := .floatValues [], uvInputInfos := [], colorInputInfos := [],
    meshPrimitives := prims, hasNormals := false, normals := .floatValues [] }

/-- A polygon face before the import. -/
def MNFace.blank : MNFace := { deg := 0, vtx := [] }

/-- A target polygon mesh before the import. -/
def MNMesh.blank (F : Type) : MNMesh F :=
  { numVerts := 0, verts := fun _ => none, numFaces := 0, faces := fun _ => MNFace.blank }

/-- A `POLYGONS` primitive with position indices and signed run lengths only. -/
def MeshPrimitive.polygons (positionIndices : List Nat) (counts : List Int) : MeshPrimitive :=
  { primitiveType := PrimitiveType.POLYGONS, materialId := 0, positionIndices := positionIndices,
    normalIndices := [], uvCoordIndicesArray := [], colorIndicesArray := [],
    groupedVerticesVertexCountArray := [], polygonsVertexCountArray := counts,
    faceCount := counts.length }

/-- A mesh with a single-precision position stream and no primitive. -/
def FWMesh.ofFloats (a : List Nat) : FWMesh Nat Nat :=
  { positions := .floatValues a, uvInputInfos := [], colorInputInfos := [], meshPrimitives := [],
    hasNormals := false, normals := .floatValues [] }

/-- A `TRIANGLES` primitive with position indices, UV index lists and colour index lists. -/
def MeshPrimitive.withLists (positionIndices : List Nat) (uv color : List IndexList) :
    MeshPrimitive :=
  { primitiveType := PrimitiveType.TRIANGLES, materialId := 0,
    positionIndices := positionIndices, normalIndices := [], uvCoordIndicesArray := uv,
    colorIndicesArray := color, groupedVerticesVertexCountArray := [],
    polygonsVertexCountArray := [], faceCount := positionIndices.length / 3 }

/-- A mesh with the given UV and colour sources and primitives, and no positions. -/
def FWMesh.ofSources (uv color : List InputInfos) (prims : List (Option MeshPrimitive)) :
    FWMesh Nat Nat :=
  { positions := .floatValues [], uvInputInfos := uv, colorInputInfos := color,
    meshPrimitives := prims, hasNormals := false, normals := .floatValues [] }

/-! ## The decomposition of a primitive, as lists of corner triples -/

/-- The state `r` comes from `s` by writes in the cells from the index of `s` up to, not
including, the index of `r`: every other cell is as it was. -/
def Cursor.Within {α : Type} (s r : Cursor α) : Prop :=
  s.1 ≤ r.1 ∧ ∀ i, (i < s.1 ∨ r.1 ≤ i) → r.2 i = s.2 i

/-- The triangles of a triangle list: the indices three at a time. -/
def listTriangles (idx : List Nat) : List (Nat × Nat × Nat) :=
  (List.range ((idx.length + 2) / 3)).map
    (fun t => (rd idx (3 * t), rd idx (3 * t + 1), rd idx (3 * t + 2)))

/-- The triangles of one strip run of length `L` starting at `start`: triangle `t` is
`(s+t, s+t+1, s+t+2)` for even `t` and `(s+t+1, s+t, s+t+2)` for odd `t`. -/
def stripRunTriangles (idx : List Nat) (start L : Nat) : List (Nat × Nat × Nat) :=
  (List.range (L - 2)).map
    (fun t =>
      if t % 2 = 0 then (rd idx (start + t), rd idx (start + t + 1), rd idx (start + t + 2))
      else (rd idx (start + t + 1), rd idx (start + t), rd idx (start + t + 2)))

/-- The triangles of one fan run of length `L` starting at `start`: triangle `t` is
`(s, s+t+1, s+t+2)`. -/
def fanRunTriangles (idx : List Nat) (start L : Nat) : List (Nat × Nat × Nat) :=
  (List.range (L - 2)).map
    (fun t => (rd idx start, rd idx (start + t + 1), rd idx (start + t + 2)))

/-- The triangles of consecutive runs with the lengths `counts`, the first run starting at
`start`, each run decomposed by `one`. -/
def runsTriangles {τ : Type} (one : Nat → Nat → List τ) : Nat → List Nat → List τ
  | _, [] => []
  | start, L :: rest => one start L ++ runsTriangles one (start + L) rest

/-- The triangles of the strip runs with the lengths `counts`. -/
def stripTriangles (idx : List Nat) (start : Nat) (counts : List Nat) :
    List (Nat × Nat × Nat) :=
  runsTriangles (stripRunTriangles idx) start counts

/-- The triangles of the fan runs with the lengths `counts`. -/
def fanTriangles (idx : List Nat) (start : Nat) (counts : List Nat) :
    List (Nat × Nat × Nat) :=
  runsTriangles (fanRunTriangles idx) start counts

/-- The triangles a primitive decomposes into, over its position indices. -/
def primitiveTriangles (p : MeshPrimitive) : List (Nat × Nat × Nat) :=
  match p.primitiveType with
  | .TRIANGLES => listTriangles p.positionIndices
  | .TRIANGLE_STRIPS => stripTriangles p.positionIndices 0 p.groupedVerticesVertexCountArray
  | .TRIANGLE_FANS => fanTriangles p.positionIndices 0 p.groupedVerticesVertexCountArray
  | _ => []

/-- The decomposed-triangle count of a primitive: a third of the index count for a list, the
sum of `L - 2` over the runs for strips and fans. -/
def decomposedTriangleCount (p : MeshPrimitive) : Nat :=
  match p.primitiveType with
  | .TRIANGLES => p.positionIndices.length / 3
  | .TRIANGLE_STRIPS => (p.groupedVerticesVertexCountArray.map (· - 2)).sum
  | .TRIANGLE_FANS => (p.groupedVerticesVertexCountArray.map (· - 2)).sum
  | _ => 0

/-- The sum of the decomposed-triangle counts of the non-null primitives of a list. -/
def triangleCountSum (prims : List (Option MeshPrimitive)) : Nat :=
  (prims.map (fun q => match q with
    | none => 0
    | some p => decomposedTriangleCount p)).sum

/-- The face made of the face `old` for the triangle `tri`: the material id `m` when it is
not 0, all edges visible when `edges` is set, the corners. -/
def madeFace (m : Nat) (edges : Bool) (tri : Nat × Nat × Nat) (old : Face) : Face :=
  let face := if m ≠ 0 then old.setMatID m else old
  let face := if edges then face.setEdgeVisFlags true true true else face
  face.setVerts tri.1 tri.2.1 tri.2.2

/-- The face the position pass makes of the face `old` for the triangle `tri` of the
primitive `p`: the material id when it is not 0, all edges visible except in strips, the
corners. -/
def writtenFace (p : MeshPrimitive) (tri : Nat × Nat × Nat) (old : Face) : Face :=
  madeFace (toMtlID p.materialId)
    (if p.primitiveType = PrimitiveType.TRIANGLE_STRIPS then false else true) tri old

/-- The number of triangles of a primitive of the array, none for a null primitive. -/
def primitiveFaceCount (q : Option MeshPrimitive) : Nat :=
  match q with
  | none => 0
  | some p => (primitiveTriangles p).length

/-! ## importTriangleMeshNormals and importTriangleMesh -/

/-- A `MeshNormalFace`: whether the corners are specified, and the normal index of each
corner, `none` while it is not set. -/
structure MeshNormalFace where
  specified : Bool
  normalID : Option Nat × Option Nat × Option Nat
  deriving DecidableEq, Repr

/-- The call `normalFace.SpecifyAll()`. -/
def MeshNormalFace.SpecifyAll (f : MeshNormalFace) : MeshNormalFace :=
  { f with specified := true }

/-- The call `normalFace.SetNormalID(corner, id)` for the corners 0, 1 and 2. -/
def MeshNormalFace.SetNormalID (f : MeshNormalFace) (corner id : Nat) : MeshNormalFace :=
  match corner with
  | 0 => { f with normalID := (some id, f.normalID.2.1, f.normalID.2.2) }
  | 1 => { f with normalID := (f.normalID.1, some id, f.normalID.2.2) }
  | _ => { f with normalID := (f.normalID.1, f.normalID.2.1, some id) }

/-- The `MeshNormalSpec` of the target mesh: the normal pool and the per-face normal
indices. -/
structure MeshNormalSpec (F : Type) where
  numFaces : Nat
  numNormals : Nat
  normal : Nat → Option (Point3 F)
  normalExplicit : Nat → Bool
  face : Nat → MeshNormalFace

/-- The calls `ClearNormals()`, `SetNumFaces(numFaces)` and `SetNumNormals(normalCount)`: empty
arrays of the two sizes. -/
def MeshNormalSpec.cleared (F : Type) (numFaces normalCount : Nat) : MeshNormalSpec F :=
  { numFaces := numFaces, numNormals := normalCount, normal := fun _ => none,
    normalExplicit := fun _ => false,
    face := fun _ => { specified := false, normalID := (none, none, none) } }

/-- The body of the two loops that fill the normal pool: `Normal(i) = normal.Normalize()` and
`SetNormalExplicit(i, true)`. -/
def setNormal {F : Type} (normalize : Point3 F → Point3 F) (x y z : F) (i : Nat)
    (spec : MeshNormalSpec F) : MeshNormalSpec F :=
  { spec with
    normal := Function.update spec.normal i (some (normalize ⟨x, y, z⟩)),
    normalExplicit := Function.update spec.normalExplicit i true }

/-- The body of the `TRIANGLES` loop of the normal pass at triangle `j`. -/
def normalsTrianglesBody (normalIndices : List Nat) (j : Nat) (s : Cursor MeshNormalFace) :
    Cursor MeshNormalFace :=
  (s.1 + 1, Function.update s.2 s.1
    ((((s.2 s.1).SpecifyAll.SetNormalID 0 (rd normalIndices (3 * j))).SetNormalID 1
      (rd normalIndices (3 * j + 1))).SetNormalID 2 (rd normalIndices (3 * j + 2))))

/-- The body of the inner `TRIANGLE_STRIPS` loop of the normal pass. -/
def normalsTristripBody (normalIndices : List Nat) (j : Nat)
    (s : Bool × Cursor MeshNormalFace) : Bool × Cursor MeshNormalFace :=
  if s.1 then
    (false, s.2.1 + 1, Function.update s.2.2 s.2.1
      ((((s.2.2 s.2.1).SpecifyAll.SetNormalID 0 (rd normalIndices (j - 1))).SetNormalID 1
        (rd normalIndices (j - 2))).SetNormalID 2 (rd normalIndices j)))
  else
    (true, s.2.1 + 1, Function.update s.2.2 s.2.1
      ((((s.2.2 s.2.1).SpecifyAll.SetNormalID 0 (rd normalIndices (j - 2))).SetNormalID 1
        (rd normalIndices (j - 1))).SetNormalID 2 (rd normalIndices j)))

/-- One iteration of the outer `TRIANGLE_STRIPS` loop of the normal pass. -/
def normalsTristripRun (normalIndices : List Nat) (s : Nat × Cursor MeshNormalFace)
    (faceVertexCount : Nat) : Nat × Cursor MeshNormalFace :=
  let nextTristripStartIndex := s.1
  let lastVertex := nextTristripStartIndex + faceVertexCount
  let r := forRange (normalsTristripBody normalIndices)
    (lastVertex - (nextTristripStartIndex + 2)) (nextTristripStartIndex + 2) (false, s.2)
  (nextTristripStartIndex + faceVertexCount, r.2)

/-- The body of the inner `TRIANGLE_FANS` loop of the normal pass. -/
def normalsTrifanBody (normalIndices : List Nat) (commonVertexIndex : Nat) (j : Nat)
    (s : Cursor MeshNormalFace) : Cursor MeshNormalFace :=
  (s.1 + 1, Function.update s.2 s.1
    ((((s.2 s.1).SpecifyAll.SetNormalID 0 commonVertexIndex).SetNormalID 1
      (rd normalIndices (j - 1))).SetNormalID 2 (rd normalIndices j)))

/-- One iteration of the outer `TRIANGLE_FANS` loop of the normal pass. -/
def normalsTrifanRun (normalIndices : List Nat) (s : Nat × Cursor MeshNormalFace)
    (faceVertexCount : Nat) : Nat × Cursor MeshNormalFace :=
  let nextTrifanStartIndex := s.1
  let commonVertexIndex := rd normalIndices nextTrifanStartIndex
  let lastVertex := nextTrifanStartIndex + faceVertexCount
  let r := forRange (normalsTrifanBody normalIndices commonVertexIndex)
    (lastVertex - (nextTrifanStartIndex + 2)) (nextTrifanStartIndex + 2) s.2
  (nextTrifanStartIndex + faceVertexCount, r)

/-- The primitive loop of the normal pass. The primitive pointer is dereferenced without a null
check. -/
def normalsPrimitives :
    List (Option MeshPrimitive) → Cursor MeshNormalFace → Option (Cursor MeshNormalFace)
  | [], s => some s
  | none :: _, _ => none
  | some meshPrimitive :: rest, s =>
    let trianglesCount := meshPrimitive.faceCount
    let normalIndices := meshPrimitive.normalIndices
    match meshPrimitive.primitiveType with
    | .TRIANGLES =>
      normalsPrimitives rest (forRange (normalsTrianglesBody normalIndices) trianglesCount 0 s)
    | .TRIANGLE_STRIPS =>
      normalsPrimitives rest
        (meshPrimitive.groupedVerticesVertexCountArray.foldl
          (normalsTristripRun normalIndices) (0, s)).2
    | .TRIANGLE_FANS =>
      normalsPrimitives rest
        (meshPrimitive.groupedVerticesVertexCountArray.foldl
          (normalsTrifanRun normalIndices) (0, s)).2
    | _ => normalsPrimitives rest s

/-- The function `importTriangleMeshNormals`: the returned flag and the normal specification of
the target mesh, which is `none` as long as `SpecifyNormals()` was not called. `normalize` is
`Point3::Normalize` and `checkNormals` is `MeshNormalSpec::CheckNormals`, both of the 3ds Max
SDK. -/
def importTriangleMeshNormals {F D : Type} [Inhabited F] [Inhabited D] (narrow : D → F)
    (normalize : Point3 F → Point3 F) (checkNormals : MeshNormalSpec F → MeshNormalSpec F)
    (mesh : FWMesh F D) (triangleMesh : MaxMesh F) (normalsSpecifier : Option (MeshNormalSpec F)) :
    Option (Bool × Option (MeshNormalSpec F)) :=
  if !mesh.hasNormals then some (true, normalsSpecifier)
  else
    let normalCount := mesh.normals.getValuesCount / 3
    let spec := MeshNormalSpec.cleared F triangleMesh.numFaces normalCount
    let spec :=
      match mesh.normals with
      | .doubleValues normalsArray =>
        forRange (fun i spec => setNormal normalize (narrow (normalsArray.getD (i * 3) default))
          (narrow (normalsArray.getD (i * 3 + 1) default))
          (narrow (normalsArray.getD (i * 3 + 2) default)) i spec) normalCount 0 spec
      | .floatValues normalsArray =>
        forRange (fun i spec => setNormal normalize (normalsArray.getD (i * 3) default)
          (normalsArray.getD (i * 3 + 1) default)
          (normalsArray.getD (i * 3 + 2) default) i spec) normalCount 0 spec
    match normalsPrimitives mesh.meshPrimitives (0, spec.face) with
    | none => none
    | some r => some (true, some (checkNormals { spec with face := r.2 }))

/-- A `TriObject`: its mesh, the normal specification of the mesh and the `tf` arrays of the
map channels of the mesh. -/
structure TriObject (F : Type) where
  mesh : MaxMesh F
  normals : Option (MeshNormalSpec F)
  mapFaces : MapFaces

/-- The function `importTriangleMesh`: the position pass and the normal pass on the object
`CreateNewTriObject()` returns. The cache invalidation and `handleObjectReferences`, which
hands the object to the scene, are not part of the model. -/
def importTriangleMesh {F D : Type} [Inhabited F] [Inhabited D] (narrow : D → F)
    (normalize : Point3 F → Point3 F) (checkNormals : MeshNormalSpec F → MeshNormalSpec F)
    (mesh : FWMesh F D) (mTotalTrianglesCount : Nat) (materialMap : List (Nat × Nat))
    (triangleObject : TriObject F) : Option (Bool × TriObject F × List (Nat × Nat)) :=
  match importTriangleMeshPositions narrow mesh mTotalTrianglesCount materialMap
      triangleObject.mesh with
  | none => none
  | some (false, triangleMesh, materialMap) =>
    some (false, { triangleObject with mesh := triangleMesh }, materialMap)
  | some (true, triangleMesh, materialMap) =>
    match importTriangleMeshNormals narrow normalize checkNormals mesh triangleMesh
        triangleObject.normals with
    | none => none
    | some (false, normalsSpecifier) =>
      some (false, { triangleObject with mesh := triangleMesh, normals := normalsSpecifier },
        materialMap)
    | some (true, normalsSpecifier) =>
      some (true, { triangleObject with mesh := triangleMesh, normals := normalsSpecifier },
        materialMap)

/-! ## Sequences of calls of assignMapChannels -/

/-- One call of `assignMapChannels`: the template arguments `isColorChannel` and `isFirstTry`,
the translation table and the index lists it is given. -/
structure AssignCall where
  isColorChannel : Bool
  isFirstTry : Bool
  initialIndexSourceIndexMap : List (Nat × Nat)
  indices : List IndexList

/-- A sequence of calls of `assignMapChannels` on one importer and one array
`usedMapChannels`, each call starting from the state the one before left; the returned flags
are not looked at. The result `none` is a failing `assert` in one of the calls. -/
def assignCalls (lim : MapLimits) : List AssignCall → ChannelState → Option ChannelState
  | [], s => some s
  | c :: rest, s =>
    match assignMapChannels lim c.isColorChannel c.isFirstTry c.initialIndexSourceIndexMap
        c.indices s with
    | none => none
    | some r => assignCalls lim rest r.2

/-- The count `mMapChannelCount` is zero or the channel of some key, is not negative, and no
key has a higher channel. -/
def MarkInv (imp : Importer) : Prop :=
  0 ≤ imp.mMapChannelCount ∧
  (∀ k v, (k, v) ∈ imp.mSetSourcePairMapChannelMap → v ≤ imp.mMapChannelCount) ∧
  (imp.mMapChannelCount = 0 ∨ ∃ k, (k, imp.mMapChannelCount) ∈ imp.mSetSourcePairMapChannelMap)

/-- The number of cells of the local array `usedMapChannels`, as declared:
`bool usedMapChannels[MAX_MESHMAPS + NUM_HIDDENMAPS]`. -/
def usedMapChannelsSize (lim : MapLimits) : Nat := lim.MAX_MESHMAPS + lim.NUM_HIDDENMAPS

/-! ## setUVVertices and the whole of importTriangleMeshUVCoords -/

/-- A texture vertex `UVVert`. A component that was not written since the array `tv` was
allocated is `none`. -/
structure UVVert (F : Type) where
  x : Option F
  y : Option F
  z : Option F

/-- The call `textureVertex.Set(x, y, z)`. -/
def UVVert.Set {F : Type} (_ : UVVert F) (x y z : F) : UVVert F :=
  { x := some x, y := some y, z := some z }

/-- The state of a loop of `setUVVertices`: `uvIndex` and the array `meshMap.tv`. -/
abbrev UVVertState (F : Type) := Nat × (Nat → UVVert F)

/-- The body of the loop of `case 1`: `textureVertex.x = (float)uvArray[uvIndex++]`. -/
def setUVVerticesBody1 {E F : Type} [Inhabited E] (conv : E → F) (uvArray : List E) (i : Nat)
    (s : UVVertState F) : UVVertState F :=
  let textureVertex := s.2 i
  let textureVertex := { textureVertex with x := some (conv (uvArray.getD s.1 default)) }
  (s.1 + 1, Function.update s.2 i textureVertex)

/-- The body of the loop of `case 2`: the components `x` and `y`, one statement each. -/
def setUVVerticesBody2 {E F : Type} [Inhabited E] (conv : E → F) (uvArray : List E) (i : Nat)
    (s : UVVertState F) : UVVertState F :=
  let textureVertex := s.2 i
  let textureVertex := { textureVertex with x := some (conv (uvArray.getD s.1 default)) }
  let textureVertex := { textureVertex with y := some (conv (uvArray.getD (s.1 + 1) default)) }
  (s.1 + 2, Function.update s.2 i textureVertex)

/-- The order in which the compiled code evaluates the three arguments `uvArray[uvIndex++]` of
a call `textureVertex.Set(...)`, which C++ leaves to the compiler: `x`, `y` and `z` are the
numbers of increments of `uvIndex` that were done before the first, the second and the third
argument was evaluated. -/
structure ArgOrder where
  x : Nat
  y : Nat
  z : Nat
  deriving DecidableEq, Repr

/-- The arguments are evaluated in the order in which they are written. -/
def ArgOrder.leftToRight : ArgOrder := { x := 0, y := 1, z := 2 }

/-- The last argument is evaluated first. -/
def ArgOrder.rightToLeft : ArgOrder := { x := 2, y := 1, z := 0 }

/-- The body of the loop of `case 3`: one call `Set` with three arguments `uvArray[uvIndex++]`,
each of which reads the array at `uvIndex` plus the number of increments done before it. -/
def setUVVerticesBody3 {E F : Type} [Inhabited E] (order : ArgOrder) (conv : E → F)
    (uvArray : List E) (i : Nat) (s : UVVertState F) : UVVertState F :=
  let textureVertex := s.2 i
  let textureVertex := textureVertex.Set (conv (uvArray.getD (s.1 + order.x) default))
    (conv (uvArray.getD (s.1 + order.y) default)) (conv (uvArray.getD (s.1 + order.z) default))
  (s.1 + 3, Function.update s.2 i textureVertex)

/-- The body of the loop of `case 4`: the call `Set` of `case 3`, then `uvIndex++`. -/
def setUVVerticesBody4 {E F : Type} [Inhabited E] (order : ArgOrder) (conv : E → F)
    (uvArray : List E) (i : Nat) (s : UVVertState F) : UVVertState F :=
  let textureVertex := s.2 i
  let textureVertex := textureVertex.Set (conv (uvArray.getD (s.1 + order.x) default))
    (conv (uvArray.getD (s.1 + order.y) default)) (conv (uvArray.getD (s.1 + order.z) default))
  (s.1 + 3 + 1, Function.update s.2 i textureVertex)

/-- The function template `setUVVertices`; `conv` is the cast `(float)` on the element type of
the array and `order` the order in which the arguments of `Set` are evaluated. The result is
the array `meshMap.tv`; `none` is the `assert(false)` of the `default` case. -/
def setUVVertices {E F : Type} [Inhabited E] (order : ArgOrder) (conv : E → F)
    (uvArray : List E) (tv : Nat → UVVert F) (stride startPosition vertsCount : Nat) :
    Option (Nat → UVVert F) :=
  match stride with
  | 1 => some (forRange (setUVVerticesBody1 conv uvArray) vertsCount 0 (startPosition, tv)).2
  | 2 => some (forRange (setUVVerticesBody2 conv uvArray) vertsCount 0 (startPosition, tv)).2
  | 3 =>
    some (forRange (setUVVerticesBody3 order conv uvArray) vertsCount 0 (startPosition, tv)).2
  | 4 =>
    some (forRange (setUVVerticesBody4 order conv uvArray) vertsCount 0 (startPosition, tv)).2
  | _ => none

/-- A map channel `MeshMap` of the target mesh without its array `tf`, which `MapFaces`
holds. -/
structure MeshMap (F : Type) where
  numFaces : Int
  numVerts : Int
  tv : Nat → UVVert F

/-- A map channel that was not set up. -/
def MeshMap.fresh (F : Type) : MeshMap F :=
  { numFaces := 0, numVerts := 0, tv := fun _ => ⟨none, none, none⟩ }

/-- The map channels of the target mesh: the number given to `setNumMaps`, the channels by
number, and their arrays `tf`. The channels are cells by number, whatever `numMaps` is. -/
structure MeshMaps (F : Type) where
  numMaps : Int
  maps : Int → MeshMap F
  mapFaces : MapFaces

/-- The call `triangleMesh.setNumMaps(n)`: `n` channels, none of them set up. -/
def MeshMaps.setNumMaps {F : Type} (_ : MeshMaps F) (n : Int) : MeshMaps F :=
  { numMaps := n, maps := fun _ => MeshMap.fresh F, mapFaces := fun _ _ => none }

/-- The body of the loop `for (i = 0; i < mMapChannelCount; ++i)`:
`meshMap.setNumFaces(facesCount)`, which allocates `tf`, and the `memset` that zeroes
`facesCount` cells of `tv`. -/
def resetMap {F : Type} (zero : F) (facesCount : Int) (i : Nat) (t : MeshMaps F) : MeshMaps F :=
  let meshMap := t.maps i
  let meshMap := { meshMap with numFaces := facesCount }
  let meshMap := { meshMap with
    tv := fun k => if (k : Int) < facesCount then ⟨some zero, some zero, some zero⟩
      else meshMap.tv k }
  { t with maps := Function.update t.maps i meshMap,
           mapFaces := Function.update t.mapFaces i (fun _ => none) }

/-- The body of the loop over `mSetSourcePairMapChannelMap`: a colour key is skipped; for a UV
key the channel gets `vertsCount` texture vertices read from `startPosition` on. The result
`none` is a source index outside `inputInfos`, a stride of zero, or the `assert(false)` of
`setUVVertices`. -/
def uvSourceStep {F D : Type} [Inhabited F] [Inhabited D] (order : ArgOrder) (narrow : D → F)
    (mesh : FWMesh F D) (t : MeshMaps F) (entry : SetSourcePair × Int) : Option (MeshMaps F) :=
  let setSourcePair := entry.1
  let sourceIndex := setSourcePair.2
  if setSourcePair.1 < 0 then some t
  else
    let mapChannel := entry.2
    match mesh.uvInputInfos.get? sourceIndex with
    | none => none
    | some inputInfo =>
      let stride := inputInfo.mStride
      if stride = 0 then none
      else
        let vertsCount := inputInfo.mLength / stride
        let startPosition := uvStartPosition mesh.uvInputInfos sourceIndex
        let meshMap := t.maps mapChannel
        let meshMap := { meshMap with
          numVerts := toInt vertsCount, tv := fun _ => ⟨none, none, none⟩ }
        let tv :=
          match mesh.uvCoords with
          | .doubleValues uvArray =>
            setUVVertices order narrow uvArray meshMap.tv stride startPosition vertsCount
          | .floatValues uvArray =>
            setUVVertices order id uvArray meshMap.tv stride startPosition vertsCount
        match tv with
        | none => none
        | some tv =>
          some { t with maps := Function.update t.maps mapChannel { meshMap with tv := tv } }

/-- The loop over the entries of `mSetSourcePairMapChannelMap`, in key order. -/
def uvSourcesLoop {F D : Type} [Inhabited F] [Inhabited D] (order : ArgOrder) (narrow : D → F)
    (mesh : FWMesh F D) : List (SetSourcePair × Int) → MeshMaps F → Option (MeshMaps F)
  | [], t => some t
  | entry :: rest, t =>
    match uvSourceStep order narrow mesh t entry with
    | none => none
    | some t => uvSourcesLoop order narrow mesh rest t

/-- The function `importTriangleMeshUVCoords`: the returned flag, the importer and the map
channels of the target mesh. `zero` is the value whose bytes are all zero and `order` the order
in which the arguments of `Set` are evaluated. -/
def importTriangleMeshUVCoords {F D : Type} [Inhabited F] [Inhabited D] (order : ArgOrder)
    (narrow : D → F) (zero : F) (lim : MapLimits) (uVInitialIndex : Nat) (mesh : FWMesh F D)
    (imp : Importer) (t : MeshMaps F) : Option (Bool × Importer × MeshMaps F) :=
  match createSetSourcePairMapChannelMap lim uVInitialIndex mesh imp with
  | none => none
  | some imp =>
    let t := t.setNumMaps imp.mMapChannelCount
    let facesCount := toInt imp.mTotalTrianglesCount
    let t := forRange (resetMap zero facesCount) imp.mMapChannelCount.toNat 0 t
    match uvSourcesLoop order narrow mesh imp.mSetSourcePairMapChannelMap t with
    | none => none
    | some t =>
      let r := mesh.meshPrimitives.foldl uvPrimitive (0, imp, t.mapFaces)
      some (true, r.2.1, { t with mapFaces := r.2.2 })

/-! ## importPolygonMeshNormals, importPolygonMesh, importMesh and import -/

/-- An `MNNormalFace`: its degree, whether the corners are specified, and the normal index of
each corner, `none` while it is not set. -/
structure MNNormalFace where
  deg : Nat
  specified : Bool
  normalID : Nat → Option Nat

/-- The call `normalFace.SetDegree(degree)`: arrays for `degree` corners, none of them set. -/
def MNNormalFace.SetDegree (_ : MNNormalFace) (degree : Nat) : MNNormalFace :=
  { deg := degree, specified := false, normalID := fun _ => none }

/-- The call `normalFace.SpecifyAll()`. -/
def MNNormalFace.SpecifyAll (f : MNNormalFace) : MNNormalFace :=
  { f with specified := true }

/-- The call `normalFace.SetNormalID(corner, id)`. -/
def MNNormalFace.SetNormalID (f : MNNormalFace) (corner id : Nat) : MNNormalFace :=
  { f with normalID := Function.update f.normalID corner (some id) }

/-- The `MNNormalSpec` of the target polygon mesh: the normal pool and the per-face normal
indices. -/
structure MNNormalSpec (F : Type) where
  numFaces : Nat
  numNormals : Nat
  normal : Nat → Option (Point3 F)
  normalExplicit : Nat → Bool
  face : Nat → MNNormalFace

/-- The calls `ClearNormals()`, `SetNumFaces(numFaces)` and `SetNumNormals(normalCount)`: empty
arrays of the two sizes. -/
def MNNormalSpec.cleared (F : Type) (numFaces normalCount : Nat) : MNNormalSpec F :=
  { numFaces := numFaces, numNormals := normalCount, normal := fun _ => none,
    normalExplicit := fun _ => false,
    face := fun _ => { deg := 0, specified := false, normalID := fun _ => none } }

/-- The body of the two loops that fill the normal pool of the polygon mesh. -/
def polySetNormal {F : Type} (normalize : Point3 F → Point3 F) (x y z : F) (i : Nat)
    (spec : MNNormalSpec F) : MNNormalSpec F :=
  { spec with
    normal := Function.update spec.normal i (some (normalize ⟨x, y, z⟩)),
    normalExplicit := Function.update spec.normalExplicit i true }

/-- The body of the `TRIANGLES` loop of the polygon normal pass at triangle `j`. -/
def polyNormalsTrianglesBody (normalIndices : List Nat) (j : Nat) (s : Cursor MNNormalFace) :
    Cursor MNNormalFace :=
  (s.1 + 1, Function.update s.2 s.1
    (((((s.2 s.1).SetDegree 3).SpecifyAll.SetNormalID 0 (rd normalIndices (3 * j))).SetNormalID 1
      (rd normalIndices (3 * j + 1))).SetNormalID 2 (rd normalIndices (3 * j + 2))))

/-- The body of the inner `TRIANGLE_STRIPS` loop of the polygon normal pass. -/
def polyNormalsTristripBody (normalIndices : List Nat) (j : Nat)
    (s : Bool × Cursor MNNormalFace) : Bool × Cursor MNNormalFace :=
  if s.1 then
    (false, s.2.1 + 1, Function.update s.2.2 s.2.1
      (((((s.2.2 s.2.1).SetDegree 3).SpecifyAll.SetNormalID 0
        (rd normalIndices (j - 1))).SetNormalID 1
        (rd normalIndices (j - 2))).SetNormalID 2 (rd normalIndices j)))
  else
    (true, s.2.1 + 1, Function.update s.2.2 s.2.1
      (((((s.2.2 s.2.1).SetDegree 3).SpecifyAll.SetNormalID 0
        (rd normalIndices (j - 2))).SetNormalID 1
        (rd normalIndices (j - 1))).SetNormalID 2 (rd normalIndices j)))

/-- One iteration of the outer `TRIANGLE_STRIPS` loop of the polygon normal pass. -/
def polyNormalsTristripRun (normalIndices : List Nat) (s : Nat × Cursor MNNormalFace)
    (faceVertexCount : Nat) : Nat × Cursor MNNormalFace :=
  let nextTristripStartIndex := s.1
  let lastVertex := nextTristripStartIndex + faceVertexCount
  let r := forRange (polyNormalsTristripBody normalIndices)
    (lastVertex - (nextTristripStartIndex + 2)) (nextTristripStartIndex + 2) (false, s.2)
  (nextTristripStartIndex + faceVertexCount, r.2)

/-- The body of the inner `TRIANGLE_FANS` loop of the polygon normal pass. -/
def polyNormalsTrifanBody (normalIndices : List Nat) (commonVertexIndex : Nat) (j : Nat)
    (s : Cursor MNNormalFace) : Cursor MNNormalFace :=
  (s.1 + 1, Function.update s.2 s.1
    (((((s.2 s.1).SetDegree 3).SpecifyAll.SetNormalID 0 commonVertexIndex).SetNormalID 1
      (rd normalIndices (j - 1))).SetNormalID 2 (rd normalIndices j)))

/-- One iteration of the outer `TRIANGLE_FANS` loop of the polygon normal pass. -/
def polyNormalsTrifanRun (normalIndices : List Nat) (s : Nat × Cursor MNNormalFace)
    (faceVertexCount : Nat) : Nat × Cursor MNNormalFace :=
  let nextTrifanStartIndex := s.1
  let commonVertexIndex := rd normalIndices nextTrifanStartIndex
  let lastVertex := nextTrifanStartIndex + faceVertexCount
  let r := forRange (polyNormalsTrifanBody normalIndices commonVertexIndex)
    (lastVertex - (nextTrifanStartIndex + 2)) (nextTrifanStartIndex + 2) s.2
  (nextTrifanStartIndex + faceVertexCount, r)

/-- One iteration of the `POLYGONS` loop of the polygon normal pass: the state is
`currentIndex` and the face cursor. A run with `faceVertexCount <= 0` is skipped by
`continue`. -/
def polyNormalsPolygonsBody (normalIndices : List Nat) (s : Nat × Cursor MNNormalFace)
    (faceVertexCount : Int) : Nat × Cursor MNNormalFace :=
  if faceVertexCount ≤ 0 then s
  else
    let currentIndex := s.1
    let faceIndex := s.2.1
    let normalFace := ((s.2.2 faceIndex).SetDegree faceVertexCount.toNat).SpecifyAll
    let normalFace := forRange
      (fun k (normalFace : MNNormalFace) =>
        normalFace.SetNormalID k (rd normalIndices (currentIndex + k)))
      faceVertexCount.toNat 0 normalFace
    (currentIndex + faceVertexCount.toNat, faceIndex + 1,
      Function.update s.2.2 faceIndex normalFace)

/-- The primitive loop of the polygon normal pass. The primitive pointer is dereferenced
without a null check. -/
def polyNormalsPrimitives :
    List (Option MeshPrimitive) → Cursor MNNormalFace → Option (Cursor MNNormalFace)
  | [], s => some s
  | none :: _, _ => none
  | some meshPrimitive :: rest, s =>
    let normalIndices := meshPrimitive.normalIndices
    match meshPrimitive.primitiveType with
    | .TRIANGLES =>
      polyNormalsPrimitives rest
        (forRange (polyNormalsTrianglesBody normalIndices) meshPrimitive.faceCount 0 s)
    | .TRIANGLE_STRIPS =>
      polyNormalsPrimitives rest
        (meshPrimitive.groupedVerticesVertexCountArray.foldl
          (polyNormalsTristripRun normalIndices) (0, s)).2
    | .TRIANGLE_FANS =>
      polyNormalsPrimitives rest
        (meshPrimitive.groupedVerticesVertexCountArray.foldl
          (polyNormalsTrifanRun normalIndices) (0, s)).2
    | .POLYGONS =>
      polyNormalsPrimitives rest
        (meshPrimitive.polygonsVertexCountArray.foldl
          (polyNormalsPolygonsBody normalIndices) (0, s)).2
    | _ => polyNormalsPrimitives rest s

/-- The function `importPolygonMeshNormals`: the returned flag and the normal specification of
the target mesh, which is `none` as long as `SpecifyNormals()` was not called. `normalize` is
`Point3::Normalize` and `checkNormals` is `MNNormalSpec::CheckNormals`, both of the 3ds Max
SDK. -/
def importPolygonMeshNormals {F D : Type} [Inhabited F] [Inhabited D] (narrow : D → F)
    (normalize : Point3 F → Point3 F) (checkNormals : MNNormalSpec F → MNNormalSpec F)
    (mesh : FWMesh F D) (polygonMesh : MNMesh F) (normalsSpecifier : Option (MNNormalSpec F)) :
    Option (Bool × Option (MNNormalSpec F)) :=
  if !mesh.hasNormals then some (true, normalsSpecifier)
  else
    let normalCount := mesh.normals.getValuesCount / 3
    let spec := MNNormalSpec.cleared F polygonMesh.numFaces normalCount
    let spec :=
      match mesh.normals with
      | .doubleValues normalsArray =>
        forRange (fun i spec =>
          polySetNormal normalize (narrow (normalsArray.getD (i * 3) default))
            (narrow (normalsArray.getD (i * 3 + 1) default))
            (narrow (normalsArray.getD (i * 3 + 2) default)) i spec) normalCount 0 spec
      | .floatValues normalsArray =>
        forRange (fun i spec => polySetNormal normalize (normalsArray.getD (i * 3) default)
          (normalsArray.getD (i * 3 + 1) default)
          (normalsArray.getD (i * 3 + 2) default) i spec) normalCount 0 spec
    match polyNormalsPrimitives mesh.meshPrimitives (0, spec.face) with
    | none => none
    | some r => some (true, some (checkNormals { spec with face := r.2 }))

/-- A `PolyObject`: its mesh and the normal specification of the mesh. -/
structure PolyObject (F : Type) where
  mesh : MNMesh F
  normals : Option (MNNormalSpec F)

/-- The function `importPolygonMesh`: the position pass and the normal pass on the object
`CreateEditablePolyObject()` returns. The call of `handleObjectReferences`, which hands the
object to the scene, is not part of the model. -/
def importPolygonMesh {F D : Type} [Inhabited F] [Inhabited D] (narrow : D → F)
    (normalize : Point3 F → Point3 F) (checkNormals : MNNormalSpec F → MNNormalSpec F)
    (mesh : FWMesh F D) (mTotalTrianglesCount : Nat) (polygonObject : PolyObject F) :
    Option (Bool × PolyObject F) :=
  match importPolygonMeshPositions narrow mesh mTotalTrianglesCount mesh.polygonsPolygonCount
      polygonObject.mesh with
  | (false, polygonMesh) => some (false, { polygonObject with mesh := polygonMesh })
  | (true, polygonMesh) =>
    match importPolygonMeshNormals narrow normalize checkNormals mesh polygonMesh
        polygonObject.normals with
    | none => none
    | some (false, normalsSpecifier) =>
      some (false, { mesh := polygonMesh, normals := normalsSpecifier })
    | some (true, normalsSpecifier) =>
      some (true, { mesh := polygonMesh, normals := normalsSpecifier })

/-- The functions of the 3ds Max SDK that the importer calls on a normal specification and to
get a new object: `Point3::Normalize`, `MeshNormalSpec::CheckNormals`,
`MNNormalSpec::CheckNormals`, `CreateNewTriObject()` and `CreateEditablePolyObject()`. -/
structure MaxSDK (F : Type) where
  Normalize : Point3 F → Point3 F
  CheckNormals : MeshNormalSpec F → MeshNormalSpec F
  CheckNormalsMN : MNNormalSpec F → MNNormalSpec F
  CreateNewTriObject : TriObject F
  CreateEditablePolyObject : PolyObject F

/-- What `importMesh` made: nothing, a triangle object with the material map of the geometry,
or a polygon object. -/
inductive ImportedObject (F : Type)
  | noObject
  | triObject (triangleObject : TriObject F) (materialMap : List (Nat × Nat))
  | polyObject (polygonObject : PolyObject F)

/-- The function `importMesh`: the returned flag `success`, the member `mTotalTrianglesCount`
and the object made. -/
def importMesh {F D : Type} [Inhabited F] [Inhabited D] (narrow : D → F) (sdk : MaxSDK F)
    (mesh : FWMesh F D) (materialMap : List (Nat × Nat)) :
    Option (Bool × Nat × ImportedObject F) :=
  let success := true
  let mTotalTrianglesCount :=
    mesh.trianglesTriangleCount + mesh.tristripsTriangleCount + mesh.trifansTriangleCount
  if mesh.polygonsPolygonCount > 0 then
    match importPolygonMesh narrow sdk.Normalize sdk.CheckNormalsMN mesh mTotalTrianglesCount
        sdk.CreateEditablePolyObject with
    | none => none
    | some r => some (r.1, mTotalTrianglesCount, .polyObject r.2)
  else if mTotalTrianglesCount > 0 then
    match importTriangleMesh narrow sdk.Normalize sdk.CheckNormals mesh mTotalTrianglesCount
        materialMap sdk.CreateNewTriObject with
    | none => none
    | some r => some (r.1, mTotalTrianglesCount, .triObject r.2.1 r.2.2)
  else some (success, mTotalTrianglesCount, .noObject)

/-- A `COLLADAFW::Geometry`: a mesh (`GEO_TYPE_MESH`) or a geometry of another type. -/
inductive Geometry (F D : Type)
  | mesh (m : FWMesh F D)
  | other

/-- The function `import()`: the returned flag, and what `importMesh` returned when it was
called. -/
def importGeometry {F D : Type} [Inhabited F] [Inhabited D] (narrow : D → F) (sdk : MaxSDK F)
    (mGeometry : Geometry F D) (materialMap : List (Nat × Nat)) :
    Option (Bool × Option (Bool × Nat × ImportedObject F)) :=
  match mGeometry with
  | .mesh mesh =>
    match importMesh narrow sdk mesh materialMap with
    | none => none
    | some r => some (true, some r)
  | .other => some (true, none)

/-! ## The decomposition shared by the passes -/

/-- The corner triples an index array decomposes into for a primitive type and run lengths:
three at a time for a triangle list, run by run for strips and fans. -/
def decomposition (t : PrimitiveType) (idx : List Nat) (counts : List Nat) :
    List (Nat × Nat × Nat) :=
  match t with
  | .TRIANGLES => listTriangles idx
  | .TRIANGLE_STRIPS => stripTriangles idx 0 counts
  | .TRIANGLE_FANS => fanTriangles idx 0 counts
  | _ => []

/-- The state `r` comes from `s` by writing one cell per triple of `T`, in order, from the
index of `s` on: cell `t` of them is `mk` of the triple `t` and of the cell that was there, and
every other cell is as it was. -/
def Decomposes {α : Type} (mk : Nat × Nat × Nat → α → α) (T : List (Nat × Nat × Nat))
    (s r : Cursor α) : Prop :=
  r.1 = s.1 + T.length ∧ Cursor.Within s r ∧
  ∀ t x, T[t]? = some x → r.2 (s.1 + t) = mk x (s.2 (s.1 + t))

/-- The normal face the triangle normal pass makes of `old` for a triple. -/
def normalFaceOf (tri : Nat × Nat × Nat) (old : MeshNormalFace) : MeshNormalFace :=
  ((old.SpecifyAll.SetNormalID 0 tri.1).SetNormalID 1 tri.2.1).SetNormalID 2 tri.2.2

/-- The normal face the polygon normal pass makes of `old` for a triple. -/
def polyNormalFaceOf (tri : Nat × Nat × Nat) (old : MNNormalFace) : MNNormalFace :=
  ((((old.SetDegree 3).SpecifyAll).SetNormalID 0 tri.1).SetNormalID 1 tri.2.1).SetNormalID 2
    tri.2.2

/-- The polygon the polygon position pass makes of `old` for a triple. -/
def polyFaceOf (tri : Nat × Nat × Nat) (old : MNFace) : MNFace :=
  old.MakePoly 3 [tri.1, tri.2.1, tri.2.2]

/-! ## The index-array positions the strip and fan loops read -/

/-- The positions of the index array that the body of the inner `TRIANGLE_STRIPS` loop reads
at index `j`, added to the log in the order in which the reads are written; the state carries
`switchOrientation`. -/
def tristripReadsBody (j : Nat) (s : Bool × List Nat) : Bool × List Nat :=
  if s.1 then (false, s.2 ++ [j - 1, j - 2, j])
  else (true, s.2 ++ [j - 2, j - 1, j])

/-- The reads of one iteration of the outer `TRIANGLE_STRIPS` loop. -/
def tristripReadsRun (s : Nat × List Nat) (faceVertexCount : Nat) : Nat × List Nat :=
  let nextTristripStartIndex := s.1
  let lastVertex := nextTristripStartIndex + faceVertexCount
  let r := forRange tristripReadsBody
    (lastVertex - (nextTristripStartIndex + 2)) (nextTristripStartIndex + 2) (false, s.2)
  (nextTristripStartIndex + faceVertexCount, r.2)

/-- The positions that the body of the inner `TRIANGLE_FANS` loop reads at index `j`. -/
def trifanReadsBody (j : Nat) (log : List Nat) : List Nat :=
  log ++ [j - 1, j]

/-- The reads of one iteration of the outer `TRIANGLE_FANS` loop: the common vertex at the
start of the run, then the reads of the inner loop. -/
def trifanReadsRun (s : Nat × List Nat) (faceVertexCount : Nat) : Nat × List Nat :=
  let nextTrifanStartIndex := s.1
  let log := s.2 ++ [nextTrifanStartIndex]
  let lastVertex := nextTrifanStartIndex + faceVertexCount
  let r := forRange trifanReadsBody
    (lastVertex - (nextTrifanStartIndex + 2)) (nextTrifanStartIndex + 2) log
  (nextTrifanStartIndex + faceVertexCount, r)

/-- The positions of its index array that the decomposition of a strip or fan primitive
reads, in order. -/
def stripFanReads (p : MeshPrimitive) : List Nat :=
  match p.primitiveType with
  | .TRIANGLE_STRIPS => (p.groupedVerticesVertexCountArray.foldl tristripReadsRun (0, [])).2
  | .TRIANGLE_FANS => (p.groupedVerticesVertexCountArray.foldl trifanReadsRun (0, [])).2
  | _ => []

/-! ## More concrete inputs -/

/-- A new `TriObject`: a blank mesh, no normal specification, no map face written. -/
def TriObject.blank (F : Type) : TriObject F :=
  { mesh := MaxMesh.blank F, normals := none, mapFaces := fun _ _ => none }

/-- The map channels of a target mesh before the UV pass. -/
def MeshMaps.blank (F : Type) : MeshMaps F :=
  { numMaps := 0, maps := fun _ => MeshMap.fresh F, mapFaces := fun _ _ => none }

/-- A mesh with one UV source of three pairs and one triangle whose only UV list has set
index 0. -/
def FWMesh.oneUVTriangle : FWMesh Nat Nat :=
  { FWMesh.ofSources [⟨6, 2⟩] []
      [some (MeshPrimitive.withLists [0, 1, 2] [⟨0, 0, [0, 1, 2]⟩] [])] with
    uvCoords := .floatValues [10, 11, 12, 13, 14, 15] }

/-- SDK functions that leave normals as they are and hand out blank objects. -/
def MaxSDK.plain : MaxSDK Nat :=
  { Normalize := fun n => n, CheckNormals := fun s => s, CheckNormalsMN := fun s => s,
    CreateNewTriObject := TriObject.blank Nat,
    CreateEditablePolyObject := { mesh := MNMesh.blank Nat, normals := none } }

/-- A mesh with one triangle `(0, 1, 2)` over three positions, with normals. -/
def FWMesh.oneTriangle : FWMesh Nat Nat :=
  { positions := .floatValues [0, 0, 0, 1, 0, 0, 0, 1, 0], uvInputInfos := [],
    colorInputInfos := [],
    meshPrimitives := [some { MeshPrimitive.simple PrimitiveType.TRIANGLES [0, 1, 2] [] with
      normalIndices := [0, 0, 0] }],
    hasNormals := true, normals := .floatValues [0, 0, 1], trianglesTriangleCount := 1 }

/-! # Theorems -/

/-! ## Facts about the face loops of the position pass -/

theorem Cursor.Extends.refl {α : Type} (s : Cursor α) : Cursor.Extends s s :=
  ⟨le_refl _, fun _ _ => rfl⟩

theorem Cursor.Extends.trans {α : Type} {a b c : Cursor α} (h1 : Cursor.Extends a b)
    (h2 : Cursor.Extends b c) : Cursor.Extends a c :=
  ⟨le_trans h1.1 h2.1, fun i hi => by rw [h2.2 i (lt_of_lt_of_le hi h1.1), h1.2 i hi]⟩

theorem flagAt_succ (sw : Bool) (t : Nat) : flagAt (!sw) t = flagAt sw (t + 1) := by
  unfold flagAt
  rcases Nat.mod_two_eq_zero_or_one t with h | h
  · have h2 : (t + 1) % 2 = 1 := by omega
    simp [h, h2]
  · have h2 : (t + 1) % 2 = 0 := by omega
    simp [h, h2]

theorem tristripBody_eq (m : Nat) (idx : List Nat) (j : Nat) (s : Bool × FaceState) :
    tristripBody m idx j s
      = (!s.1, s.2.1 + 1, Function.update s.2.2 s.2.1 (tristripFace m idx s.1 j (s.2.2 s.2.1))) := by
  unfold tristripBody tristripFace
  cases h : s.1 <;> simp

/-- The inner strip loop: `n` iterations from index `j` write the `n` faces from the face index
on, one per iteration, and leave the faces below it alone. -/
theorem forRange_tristripBody (m : Nat) (idx : List Nat) :
    ∀ (n j : Nat) (sw : Bool) (fi : Nat) (faces : Nat → Face),
      (forRange (tristripBody m idx) n j (sw, fi, faces)).2.1 = fi + n ∧
      (∀ i, i < fi → (forRange (tristripBody m idx) n j (sw, fi, faces)).2.2 i = faces i) ∧
      (∀ t, t < n → (forRange (tristripBody m idx) n j (sw, fi, faces)).2.2 (fi + t)
        = tristripFace m idx (flagAt sw t) (j + t) (faces (fi + t))) := by
  intro n
  induction n with
  | zero =>
    intro j sw fi faces
    simp [forRange]
  | succ n ih =>
    intro j sw fi faces
    simp only [forRange, tristripBody_eq]
    obtain ⟨h1, h2, h3⟩ := ih (j + 1) (!sw) (fi + 1)
      (Function.update faces fi (tristripFace m idx sw j (faces fi)))
    refine ⟨by rw [h1]; omega, ?_, ?_⟩
    · intro i hi
      rw [h2 i (by omega), Function.update_noteq (by omega)]
    · intro t ht
      cases t with
      | zero =>
        simp only [Nat.add_zero]
        rw [h2 fi (by omega), Function.update_same]
        simp [flagAt]
      | succ t =>
        have e : fi + (t + 1) = fi + 1 + t := by omega
        rw [e, h3 t (by omega), Function.update_noteq (by omega), flagAt_succ]
        have e2 : j + 1 + t = j + (t + 1) := by omega
        rw [e2]

/-- The inner fan loop: as for the strip, with the common vertex first. -/
theorem forRange_trifanBody (m : Nat) (idx : List Nat) (c : Nat) :
    ∀ (n j fi : Nat) (faces : Nat → Face),
      (forRange (trifanBody m idx c) n j (fi, faces)).1 = fi + n ∧
      (∀ i, i < fi → (forRange (trifanBody m idx c) n j (fi, faces)).2 i = faces i) ∧
      (∀ t, t < n → (forRange (trifanBody m idx c) n j (fi, faces)).2 (fi + t)
        = trifanFace m idx c (j + t) (faces (fi + t))) := by
  intro n
  induction n with
  | zero =>
    intro j fi faces
    simp [forRange]
  | succ n ih =>
    intro j fi faces
    simp only [forRange, trifanBody]
    obtain ⟨h1, h2, h3⟩ := ih (j + 1) (fi + 1)
      (Function.update faces fi (trifanFace m idx c j (faces fi)))
    refine ⟨by simp only [trifanFace] at h1; rw [h1]; omega, ?_, ?_⟩
    · intro i hi
      simp only [trifanFace] at h2
      rw [h2 i (by omega), Function.update_noteq (by omega)]
    · intro t ht
      simp only [trifanFace] at h2 h3 ⊢
      cases t with
      | zero =>
        simp only [Nat.add_zero]
        rw [h2 fi (by omega), Function.update_same]
      | succ t =>
        have e : fi + (t + 1) = fi + 1 + t := by omega
        rw [e, h3 t (by omega), Function.update_noteq (by omega)]
        have e2 : j + 1 + t = j + (t + 1) := by omega
        rw [e2]

theorem forStep_extends {α : Type} (step stop : Nat) (body : Nat → Cursor α → Cursor α)
    (hb : ∀ i s, Cursor.Extends s (body i s)) :
    ∀ (fuel i : Nat) (s : Cursor α), Cursor.Extends s (forStep step stop body fuel i s) := by
  intro fuel
  induction fuel with
  | zero => intro i s; exact Cursor.Extends.refl s
  | succ fuel ih =>
    intro i s
    simp only [forStep]
    split
    · exact Cursor.Extends.trans (hb i s) (ih (i + step) (body i s))
    · exact Cursor.Extends.refl s

theorem trianglesBody_extends (m : Nat) (idx : List Nat) (j : Nat) (s : FaceState) :
    Cursor.Extends s (trianglesBody m idx j s) := by
  refine ⟨by simp [trianglesBody], ?_⟩
  intro i hi
  simp only [trianglesBody]
  rw [Function.update_noteq (by omega)]

/-- One strip run: where it ends, and which faces it writes. -/
theorem tristripRun_spec (m : Nat) (idx : List Nat) (start fi : Nat) (faces : Nat → Face)
    (L : Nat) :
    (tristripRun m idx (start, fi, faces) L).1 = start + L ∧
    (tristripRun m idx (start, fi, faces) L).2.1 = fi + (L - 2) ∧
    (∀ i, i < fi → (tristripRun m idx (start, fi, faces) L).2.2 i = faces i) ∧
    (∀ t, t < L - 2 → (tristripRun m idx (start, fi, faces) L).2.2 (fi + t)
      = tristripFace m idx (flagAt false t) (start + 2 + t) (faces (fi + t))) := by
  have e : start + L - (start + 2) = L - 2 := by omega
  obtain ⟨h1, h2, h3⟩ := forRange_tristripBody m idx (L - 2) (start + 2) false fi faces
  simp only [tristripRun, e]
  exact ⟨trivial, h1, h2, h3⟩

/-- One fan run: where it ends, and which faces it writes. -/
theorem trifanRun_spec (m : Nat) (idx : List Nat) (start fi : Nat) (faces : Nat → Face)
    (L : Nat) :
    (trifanRun m idx (start, fi, faces) L).1 = start + L ∧
    (trifanRun m idx (start, fi, faces) L).2.1 = fi + (L - 2) ∧
    (∀ i, i < fi → (trifanRun m idx (start, fi, faces) L).2.2 i = faces i) ∧
    (∀ t, t < L - 2 → (trifanRun m idx (start, fi, faces) L).2.2 (fi + t)
      = trifanFace m idx (rd idx start) (start + 2 + t) (faces (fi + t))) := by
  have e : start + L - (start + 2) = L - 2 := by omega
  obtain ⟨h1, h2, h3⟩ := forRange_trifanBody m idx (rd idx start) (L - 2) (start + 2) fi faces
  simp only [trifanRun, e]
  exact ⟨trivial, h1, h2, h3⟩

theorem tristripRun_extends (m : Nat) (idx : List Nat) (s : Nat × FaceState) (L : Nat) :
    Cursor.Extends s.2 (tristripRun m idx s L).2 := by
  obtain ⟨start, fi, faces⟩ := s
  obtain ⟨_, h2, h3, _⟩ := tristripRun_spec m idx start fi faces L
  exact ⟨by rw [h2]; show fi ≤ fi + (L - 2); omega, h3⟩

theorem trifanRun_extends (m : Nat) (idx : List Nat) (s : Nat × FaceState) (L : Nat) :
    Cursor.Extends s.2 (trifanRun m idx s L).2 := by
  obtain ⟨start, fi, faces⟩ := s
  obtain ⟨_, h2, h3, _⟩ := trifanRun_spec m idx start fi faces L
  exact ⟨by rw [h2]; show fi ≤ fi + (L - 2); omega, h3⟩

/-- A fold of run steps that each extend the face state extends it, and the start index
advances by the sum of the run lengths when each step advances it by the run length. -/
theorem foldl_run_extends {α : Type} (run : Nat × Cursor α → Nat → Nat × Cursor α)
    (hext : ∀ s L, Cursor.Extends s.2 (run s L).2) (hstart : ∀ s L, (run s L).1 = s.1 + L) :
    ∀ (counts : List Nat) (s : Nat × Cursor α),
      Cursor.Extends s.2 (counts.foldl run s).2 ∧ (counts.foldl run s).1 = s.1 + counts.sum := by
  intro counts
  induction counts with
  | nil => intro s; exact ⟨Cursor.Extends.refl _, by simp⟩
  | cons L rest ih =>
    intro s
    obtain ⟨h1, h2⟩ := ih (run s L)
    refine ⟨Cursor.Extends.trans (hext s L) h1, ?_⟩
    simp only [List.foldl_cons, List.sum_cons]
    rw [h2, hstart]; omega

theorem tristripRun_start (m : Nat) (idx : List Nat) (s : Nat × FaceState) (L : Nat) :
    (tristripRun m idx s L).1 = s.1 + L := rfl

theorem trifanRun_start (m : Nat) (idx : List Nat) (s : Nat × FaceState) (L : Nat) :
    (trifanRun m idx s L).1 = s.1 + L := rfl

/-- The body of the primitive loop never moves the face index back and never touches a face
below it. -/
theorem positionsPrimitive_extends (s : FaceState) (q : Option MeshPrimitive) :
    Cursor.Extends s (positionsPrimitive s q) := by
  cases q with
  | none => exact Cursor.Extends.refl s
  | some p =>
    simp only [positionsPrimitive]
    split
    · exact forStep_extends 3 _ _ (trianglesBody_extends _ _) _ _ _
    · exact (foldl_run_extends _ (tristripRun_extends _ _) (tristripRun_start _ _) _ (0, s)).1
    · exact (foldl_run_extends _ (trifanRun_extends _ _) (trifanRun_start _ _) _ (0, s)).1
    · exact Cursor.Extends.refl s

theorem foldl_positionsPrimitive_extends :
    ∀ (prims : List (Option MeshPrimitive)) (s : FaceState),
      Cursor.Extends s (prims.foldl positionsPrimitive s) := by
  intro prims
  induction prims with
  | nil => intro s; exact Cursor.Extends.refl s
  | cons q rest ih =>
    intro s
    exact Cursor.Extends.trans (positionsPrimitive_extends s q) (ih _)

/-! ## Facts about the position pass as a whole -/

theorem createFWMaterialIdMaxMtlIdMapLoop_isSome :
    ∀ (prims : List (Option MeshPrimitive)) (n : Nat) (mm : List (Nat × Nat)),
      (∀ q ∈ prims, q ≠ none) → ∃ mm', createFWMaterialIdMaxMtlIdMapLoop prims n mm = some mm' := by
  intro prims
  induction prims with
  | nil => intro n mm _; exact ⟨mm, rfl⟩
  | cons q rest ih =>
    intro n mm h
    cases q with
    | none => exact absurd rfl (h none (List.mem_cons_self _ _))
    | some p =>
      have hr : ∀ q ∈ rest, q ≠ none := fun q hq => h q (List.mem_cons_of_mem _ hq)
      simp only [createFWMaterialIdMaxMtlIdMapLoop]
      split
      · exact ih _ _ hr
      · exact ih _ _ hr

theorem setVertsDouble_newFaces {F D : Type} [Inhabited D] (narrow : D → F) (a : List D) :
    ∀ (n i : Nat) (m : MaxMesh F),
      (forRange (fun i m => MaxMesh.setVert m i (narrow (a.getD (3 * i) default))
        (narrow (a.getD (3 * i + 1) default)) (narrow (a.getD (3 * i + 2) default))) n i m).newFaces
        = m.newFaces := by
  intro n
  induction n with
  | zero => intro i m; rfl
  | succ n ih => intro i m; simp only [forRange]; rw [ih]; rfl

theorem setVertsFloat_newFaces {F : Type} [Inhabited F] (a : List F) (stop : Nat) :
    ∀ (fuel i : Nat) (m : MaxMesh F),
      (forStep 3 stop (fun i m => MaxMesh.setVert m i (a.getD i default)
        (a.getD (i + 1) default) (a.getD (i + 2) default)) fuel i m).newFaces = m.newFaces := by
  intro fuel
  induction fuel with
  | zero => intro i m; rfl
  | succ fuel ih =>
    intro i m
    simp only [forStep]
    split
    · rw [ih]; rfl
    · rfl

theorem positionsVertexPart_newFaces {F D : Type} [Inhabited F] [Inhabited D] (narrow : D → F)
    (mesh : FWMesh F D) (triangleMesh : MaxMesh F) :
    (positionsVertexPart narrow mesh triangleMesh).newFaces = triangleMesh.newFaces := by
  unfold positionsVertexPart
  split
  · unfold setVertsDouble; rw [setVertsDouble_newFaces]; rfl
  · unfold setVertsFloat; rw [setVertsFloat_newFaces]; rfl

/-- The position pass on a mesh without null primitives returns, and its result is the vertex
part followed by the face loop over the primitives. -/
theorem importTriangleMeshPositions_eq {F D : Type} [Inhabited F] [Inhabited D] (narrow : D → F)
    (mesh : FWMesh F D) (total : Nat) (materialMap : List (Nat × Nat)) (triangleMesh : MaxMesh F)
    (hnull : ∀ q ∈ mesh.meshPrimitives, q ≠ none) :
    ∃ mm, importTriangleMeshPositions narrow mesh total materialMap triangleMesh
      = some (true,
          { (positionsVertexPart narrow mesh triangleMesh).setNumFaces total with
            faces := (mesh.meshPrimitives.foldl positionsPrimitive (0, triangleMesh.newFaces)).2 },
          mm) := by
  obtain ⟨mm, hmm⟩ := createFWMaterialIdMaxMtlIdMapLoop_isSome mesh.meshPrimitives 1 materialMap hnull
  refine ⟨mm, ?_⟩
  have hf := positionsVertexPart_newFaces narrow mesh triangleMesh
  unfold importTriangleMeshPositions createFWMaterialIdMaxMtlIdMap
  simp only [hmm]
  unfold positionsVertexPart at hf ⊢
  cases hp : mesh.positions <;> simp only [hp] at hf ⊢ <;> simp [MaxMesh.setNumFaces, hf]

/-! ## Strip and fan runs in the position pass -/

/-- The state after a run is extended by the rest of the runs of the primitive. -/
theorem foldl_run_at {α : Type} (run : Nat × Cursor α → Nat → Nat × Cursor α)
    (hext : ∀ s L, Cursor.Extends s.2 (run s L).2) (hstart : ∀ s L, (run s L).1 = s.1 + L)
    (cpre cpost : List Nat) (L : Nat) (s0 : Nat × Cursor α) :
    Cursor.Extends (run (cpre.foldl run s0) L).2 ((cpre ++ L :: cpost).foldl run s0).2 := by
  rw [List.foldl_append, List.foldl_cons]
  exact (foldl_run_extends run hext hstart cpost _).1

/-- The state after a primitive is extended by the rest of the primitive loop. -/
theorem foldl_positionsPrimitive_at (pre post : List (Option MeshPrimitive)) (p : MeshPrimitive)
    (s0 : FaceState) :
    Cursor.Extends (positionsPrimitive (pre.foldl positionsPrimitive s0) (some p))
      ((pre ++ some p :: post).foldl positionsPrimitive s0) := by
  rw [List.foldl_append, List.foldl_cons]
  exact foldl_positionsPrimitive_extends post _

theorem tristripFace_v (m : Nat) (idx : List Nat) (s t : Nat) (old : Face) :
    (tristripFace m idx (flagAt false t) (s + 2 + t) old).v
      = if t % 2 = 0 then (rd idx (s + t), rd idx (s + t + 1), rd idx (s + t + 2))
        else (rd idx (s + t + 1), rd idx (s + t), rd idx (s + t + 2)) := by
  have e1 : s + 2 + t - 1 = s + t + 1 := by omega
  have e2 : s + 2 + t - 2 = s + t := by omega
  have e3 : s + 2 + t = s + t + 2 := by omega
  unfold tristripFace flagAt
  rw [e1, e2, e3]
  by_cases h : t % 2 = 0 <;> simp [h, Face.setVerts]

theorem trifanFace_v (m : Nat) (idx : List Nat) (c s t : Nat) (old : Face) :
    (trifanFace m idx c (s + 2 + t) old).v = (c, rd idx (s + t + 1), rd idx (s + t + 2)) := by
  have e1 : s + 2 + t - 1 = s + t + 1 := by omega
  have e3 : s + 2 + t = s + t + 2 := by omega
  unfold trifanFace
  rw [e1, e3]
  simp [Face.setVerts]

/-- C1. In the triangle-mesh position pass, take any `TRIANGLE_STRIPS` primitive `p` of a mesh
and any run of length `L` of it (`L - 2` is `0` below `L = 2`, so the statement covers
`L ≥ 3` and says that a shorter run makes no face). The run starts at the offset `s` that is the sum of the
lengths of the runs before it, it advances the face index by exactly `L - 2`, and in the
result of the pass the `t`-th face from the face index at which the run started has corners
`(idx[s+t], idx[s+t+1], idx[s+t+2])` for even `t` and `(idx[s+t+1], idx[s+t], idx[s+t+2])`
for odd `t`; so every run starts non-flipped. -/
theorem C1_tristrip_run_faces {F D : Type} [Inhabited F] [Inhabited D] (narrow : D → F)
    (mesh : FWMesh F D) (total : Nat) (materialMap : List (Nat × Nat)) (triangleMesh : MaxMesh F)
    (pre post : List (Option MeshPrimitive)) (p : MeshPrimitive) (cpre cpost : List Nat) (L : Nat)
    (hnull : ∀ q ∈ mesh.meshPrimitives, q ≠ none)
    (hprims : mesh.meshPrimitives = pre ++ some p :: post)
    (htype : p.primitiveType = PrimitiveType.TRIANGLE_STRIPS)
    (hruns : p.groupedVerticesVertexCountArray = cpre ++ L :: cpost) :
    ∃ r, importTriangleMeshPositions narrow mesh total materialMap triangleMesh = some r ∧
      (cpre.foldl (tristripRun (toMtlID p.materialId) p.positionIndices)
        (0, pre.foldl positionsPrimitive (0, triangleMesh.newFaces))).1 = cpre.sum ∧
      (tristripRun (toMtlID p.materialId) p.positionIndices
        (cpre.foldl (tristripRun (toMtlID p.materialId) p.positionIndices)
          (0, pre.foldl positionsPrimitive (0, triangleMesh.newFaces))) L).2.1
        = (cpre.foldl (tristripRun (toMtlID p.materialId) p.positionIndices)
          (0, pre.foldl positionsPrimitive (0, triangleMesh.newFaces))).2.1 + (L - 2) ∧
      ∀ t, t < L - 2 →
        (r.2.1.faces ((cpre.foldl (tristripRun (toMtlID p.materialId) p.positionIndices)
          (0, pre.foldl positionsPrimitive (0, triangleMesh.newFaces))).2.1 + t)).v
          = if t % 2 = 0 then
              (rd p.positionIndices (cpre.sum + t), rd p.positionIndices (cpre.sum + t + 1),
                rd p.positionIndices (cpre.sum + t + 2))
            else
              (rd p.positionIndices (cpre.sum + t + 1), rd p.positionIndices (cpre.sum + t),
                rd p.positionIndices (cpre.sum + t + 2)) := by
  obtain ⟨mm, hmm⟩ := importTriangleMeshPositions_eq narrow mesh total materialMap triangleMesh hnull
  refine ⟨_, hmm, ?_⟩
  generalize hsP : pre.foldl positionsPrimitive (0, triangleMesh.newFaces) = sP
  generalize hat : cpre.foldl (tristripRun (toMtlID p.materialId) p.positionIndices) (0, sP) = atRun
  have hstart : atRun.1 = cpre.sum := by
    have := (foldl_run_extends _ (tristripRun_extends (toMtlID p.materialId) p.positionIndices)
      (tristripRun_start _ _) cpre (0, sP)).2
    rw [hat] at this
    simpa using this
  obtain ⟨_, s2, _, s4⟩ := tristripRun_spec (toMtlID p.materialId) p.positionIndices
    atRun.1 atRun.2.1 atRun.2.2 L
  refine ⟨hstart, s2, ?_⟩
  intro t ht
  have hprim : positionsPrimitive sP (some p)
      = ((cpre ++ L :: cpost).foldl (tristripRun (toMtlID p.materialId) p.positionIndices)
          (0, sP)).2 := by
    simp only [positionsPrimitive, htype, hruns]
  have hA := foldl_run_at _ (tristripRun_extends (toMtlID p.materialId) p.positionIndices)
    (tristripRun_start _ _) cpre cpost L (0, sP)
  rw [hat, ← hprim] at hA
  have hB := foldl_positionsPrimitive_at pre post p (0, triangleMesh.newFaces)
  rw [hsP, ← hprims] at hB
  have hlt : atRun.2.1 + t < (tristripRun (toMtlID p.materialId) p.positionIndices atRun L).2.1 := by
    have : (tristripRun (toMtlID p.materialId) p.positionIndices atRun L).2.1
        = atRun.2.1 + (L - 2) := s2
    omega
  show ((mesh.meshPrimitives.foldl positionsPrimitive (0, triangleMesh.newFaces)).2
    (atRun.2.1 + t)).v = _
  rw [hB.2 _ (lt_of_lt_of_le hlt hA.1), hA.2 _ hlt]
  have := s4 t ht
  rw [show tristripRun (toMtlID p.materialId) p.positionIndices (atRun.1, atRun.2.1, atRun.2.2) L
    = tristripRun (toMtlID p.materialId) p.positionIndices atRun L from rfl] at this
  rw [this, hstart, tristripFace_v]

/-- C2. In the triangle-mesh position pass, take any `TRIANGLE_FANS` primitive `p` of a mesh
and any run of length `L` of it (`L - 2` is `0` below `L = 2`, so the statement covers
`L ≥ 3`). The run starts at the offset `s` that is the sum of the lengths of the runs before
it, it advances the face index by exactly `L - 2`, and in the result of the pass the `t`-th
face from the face index at which the run started has corners
`(idx[s], idx[s+t+1], idx[s+t+2])`: the first index of the run is the apex of every face of the
run and the orientation never alternates. -/
theorem C2_trifan_run_faces {F D : Type} [Inhabited F] [Inhabited D] (narrow : D → F)
    (mesh : FWMesh F D) (total : Nat) (materialMap : List (Nat × Nat)) (triangleMesh : MaxMesh F)
    (pre post : List (Option MeshPrimitive)) (p : MeshPrimitive) (cpre cpost : List Nat) (L : Nat)
    (hnull : ∀ q ∈ mesh.meshPrimitives, q ≠ none)
    (hprims : mesh.meshPrimitives = pre ++ some p :: post)
    (htype : p.primitiveType = PrimitiveType.TRIANGLE_FANS)
    (hruns : p.groupedVerticesVertexCountArray = cpre ++ L :: cpost) :
    ∃ r, importTriangleMeshPositions narrow mesh total materialMap triangleMesh = some r ∧
      (cpre.foldl (trifanRun (toMtlID p.materialId) p.positionIndices)
        (0, pre.foldl positionsPrimitive (0, triangleMesh.newFaces))).1 = cpre.sum ∧
      (trifanRun (toMtlID p.materialId) p.positionIndices
        (cpre.foldl (trifanRun (toMtlID p.materialId) p.positionIndices)
          (0, pre.foldl positionsPrimitive (0, triangleMesh.newFaces))) L).2.1
        = (cpre.foldl (trifanRun (toMtlID p.materialId) p.positionIndices)
          (0, pre.foldl positionsPrimitive (0, triangleMesh.newFaces))).2.1 + (L - 2) ∧
      ∀ t, t < L - 2 →
        (r.2.1.faces ((cpre.foldl (trifanRun (toMtlID p.materialId) p.positionIndices)
          (0, pre.foldl positionsPrimitive (0, triangleMesh.newFaces))).2.1 + t)).v
          = (rd p.positionIndices cpre.sum, rd p.positionIndices (cpre.sum + t + 1),
              rd p.positionIndices (cpre.sum + t + 2)) := by
  obtain ⟨mm, hmm⟩ := importTriangleMeshPositions_eq narrow mesh total materialMap triangleMesh hnull
  refine ⟨_, hmm, ?_⟩
  generalize hsP : pre.foldl positionsPrimitive (0, triangleMesh.newFaces) = sP
  generalize hat : cpre.foldl (trifanRun (toMtlID p.materialId) p.positionIndices) (0, sP) = atRun
  have hstart : atRun.1 = cpre.sum := by
    have := (foldl_run_extends _ (trifanRun_extends (toMtlID p.materialId) p.positionIndices)
      (trifanRun_start _ _) cpre (0, sP)).2
    rw [hat] at this
    simpa using this
  obtain ⟨_, s2, _, s4⟩ := trifanRun_spec (toMtlID p.materialId) p.positionIndices
    atRun.1 atRun.2.1 atRun.2.2 L
  refine ⟨hstart, s2, ?_⟩
  intro t ht
  have hprim : positionsPrimitive sP (some p)
      = ((cpre ++ L :: cpost).foldl (trifanRun (toMtlID p.materialId) p.positionIndices)
          (0, sP)).2 := by
    simp only [positionsPrimitive, htype, hruns]
  have hA := foldl_run_at _ (trifanRun_extends (toMtlID p.materialId) p.positionIndices)
    (trifanRun_start _ _) cpre cpost L (0, sP)
  rw [hat, ← hprim] at hA
  have hB := foldl_positionsPrimitive_at pre post p (0, triangleMesh.newFaces)
  rw [hsP, ← hprims] at hB
  have hlt : atRun.2.1 + t < (trifanRun (toMtlID p.materialId) p.positionIndices atRun L).2.1 := by
    have : (trifanRun (toMtlID p.materialId) p.positionIndices atRun L).2.1
        = atRun.2.1 + (L - 2) := s2
    omega
  show ((mesh.meshPrimitives.foldl positionsPrimitive (0, triangleMesh.newFaces)).2
    (atRun.2.1 + t)).v = _
  rw [hB.2 _ (lt_of_lt_of_le hlt hA.1), hA.2 _ hlt]
  have := s4 t ht
  rw [show trifanRun (toMtlID p.materialId) p.positionIndices (atRun.1, atRun.2.1, atRun.2.2) L
    = trifanRun (toMtlID p.materialId) p.positionIndices atRun L from rfl] at this
  rw [this, hstart, trifanFace_v]

/-- The scenario of C1: the single strip run `[0,1,2,3,4]` gives the faces `(0,1,2)`, `(2,1,3)`,
`(2,3,4)`. -/
theorem C1_tristrip_run_faces_witness :
    (importTriangleMeshPositions (fun d : Nat => d)
        (FWMesh.ofPrimitives [some (MeshPrimitive.simple PrimitiveType.TRIANGLE_STRIPS
          [0, 1, 2, 3, 4] [5])]) 3 [] (MaxMesh.blank Nat)).map
      (fun r => ((r.2.1.faces 0).v, (r.2.1.faces 1).v, (r.2.1.faces 2).v))
      = some ((0, 1, 2), (2, 1, 3), (2, 3, 4)) := by
  obtain ⟨r, hr, _, _, h⟩ := C1_tristrip_run_faces (fun d : Nat => d)
    (FWMesh.ofPrimitives [some (MeshPrimitive.simple PrimitiveType.TRIANGLE_STRIPS
      [0, 1, 2, 3, 4] [5])]) 3 [] (MaxMesh.blank Nat) [] []
    (MeshPrimitive.simple PrimitiveType.TRIANGLE_STRIPS [0, 1, 2, 3, 4] [5]) [] [] 5
    (by simp [FWMesh.ofPrimitives]) rfl rfl rfl
  have h0 := h 0 (by decide)
  have h1 := h 1 (by decide)
  have h2 := h 2 (by decide)
  simp [MeshPrimitive.simple, rd] at h0 h1 h2
  rw [hr]
  simp [h0, h1, h2]

/-- The scenario of C2: the single fan run `[0,1,2,3,4]` gives the faces `(0,1,2)`, `(0,2,3)`,
`(0,3,4)`. -/
theorem C2_trifan_run_faces_witness :
    (importTriangleMeshPositions (fun d : Nat => d)
        (FWMesh.ofPrimitives [some (MeshPrimitive.simple PrimitiveType.TRIANGLE_FANS
          [0, 1, 2, 3, 4] [5])]) 3 [] (MaxMesh.blank Nat)).map
      (fun r => ((r.2.1.faces 0).v, (r.2.1.faces 1).v, (r.2.1.faces 2).v))
      = some ((0, 1, 2), (0, 2, 3), (0, 3, 4)) := by
  obtain ⟨r, hr, _, _, h⟩ := C2_trifan_run_faces (fun d : Nat => d)
    (FWMesh.ofPrimitives [some (MeshPrimitive.simple PrimitiveType.TRIANGLE_FANS
      [0, 1, 2, 3, 4] [5])]) 3 [] (MaxMesh.blank Nat) [] []
    (MeshPrimitive.simple PrimitiveType.TRIANGLE_FANS [0, 1, 2, 3, 4] [5]) [] [] 5
    (by simp [FWMesh.ofPrimitives]) rfl rfl rfl
  have h0 := h 0 (by decide)
  have h1 := h 1 (by decide)
  have h2 := h 2 (by decide)
  simp [MeshPrimitive.simple, rd] at h0 h1 h2
  rw [hr]
  simp [h0, h1, h2]

/-! ## The vertex loops -/

/-- C3. The single-precision vertex loop steps `i` by 3 and writes vertex `i` from
`a[i], a[i+1], a[i+2]`. On the stream `100 .. 111` (four vertices) the triangle pass and the
polygon pass both allocate 4 vertices, write vertex 0, never write vertices 1 and 2, and write
vertex 3 with the values `a[3], a[4], a[5]` instead of `a[9], a[10], a[11]`. -/
theorem C3_float_positions_eval :
    (importTriangleMeshPositions (fun d : Nat => d)
        (FWMesh.ofFloats [100, 101, 102, 103, 104, 105, 106, 107, 108, 109, 110, 111]) 0 []
        (MaxMesh.blank Nat)).map
      (fun r => (r.2.1.numVerts, r.2.1.verts 0, r.2.1.verts 1, r.2.1.verts 2, r.2.1.verts 3))
      = some (4, some ⟨100, 101, 102⟩, none, none, some ⟨103, 104, 105⟩) ∧
    (fun r : Bool × MNMesh Nat =>
        (r.2.numVerts, r.2.verts 0, r.2.verts 1, r.2.verts 2, r.2.verts 3))
      (importPolygonMeshPositions (fun d : Nat => d)
        (FWMesh.ofFloats [100, 101, 102, 103, 104, 105, 106, 107, 108, 109, 110, 111]) 0 0
        (MNMesh.blank Nat))
      = (4, some ⟨100, 101, 102⟩, none, none, some ⟨103, 104, 105⟩) := by
  constructor <;> rfl

theorem getElem?_eq_some_getD {α : Type} (a : List α) (d : α) (i : Nat) (h : i < a.length) :
    a[i]? = some (a.getD i d) := by
  rw [List.getD_eq_getElem _ _ h, List.getElem?_eq_getElem h]

/-- The double-precision vertex loop writes the vertices `i0 .. i0 + n - 1` and no other. -/
theorem forRange_setVert_double {F D : Type} [Inhabited D] (narrow : D → F) (a : List D) :
    ∀ (n i0 : Nat) (m : MaxMesh F),
      (forRange (fun i m => MaxMesh.setVert m i (narrow (a.getD (3 * i) default))
        (narrow (a.getD (3 * i + 1) default)) (narrow (a.getD (3 * i + 2) default))) n i0 m).numVerts
        = m.numVerts ∧
      ∀ k, (forRange (fun i m => MaxMesh.setVert m i (narrow (a.getD (3 * i) default))
        (narrow (a.getD (3 * i + 1) default)) (narrow (a.getD (3 * i + 2) default))) n i0 m).verts k
        = if i0 ≤ k ∧ k < i0 + n then
            some ⟨narrow (a.getD (3 * k) default), narrow (a.getD (3 * k + 1) default),
              narrow (a.getD (3 * k + 2) default)⟩
          else m.verts k := by
  intro n
  induction n with
  | zero =>
    intro i0 m
    refine ⟨rfl, fun k => ?_⟩
    have c : ¬ (i0 ≤ k ∧ k < i0 + 0) := by omega
    simp only [forRange, c, if_false]
  | succ n ih =>
    intro i0 m
    simp only [forRange]
    obtain ⟨h1, h2⟩ := ih (i0 + 1) (MaxMesh.setVert m i0 (narrow (a.getD (3 * i0) default))
      (narrow (a.getD (3 * i0 + 1) default)) (narrow (a.getD (3 * i0 + 2) default)))
    refine ⟨by rw [h1]; rfl, fun k => ?_⟩
    rw [h2 k]
    by_cases hk : k = i0
    · subst hk
      have c1 : ¬ (k + 1 ≤ k ∧ k < k + 1 + n) := by omega
      have c2 : k ≤ k ∧ k < k + (n + 1) := by omega
      simp only [c1, c2, if_true, if_false, and_self, MaxMesh.setVert, Function.update_same]
    · by_cases hr : i0 + 1 ≤ k ∧ k < i0 + 1 + n
      · have c2 : i0 ≤ k ∧ k < i0 + (n + 1) := by omega
        simp only [hr, c2, if_true, and_self]
      · have c2 : ¬ (i0 ≤ k ∧ k < i0 + (n + 1)) := by omega
        simp only [hr, c2, if_false, MaxMesh.setVert, Function.update_noteq hk]

/-- C4. For a double-precision position stream of `3 * N` values (on a mesh without null
primitive, which the pass dereferences), the triangle-mesh position pass returns, the target has
`N = length / 3` vertices, vertex `i < N` is
`(narrow stream[3i], narrow stream[3i+1], narrow stream[3i+2])`, and no vertex `i ≥ N` is
written. -/
theorem C4_double_positions {F D : Type} [Inhabited F] [Inhabited D] (narrow : D → F)
    (mesh : FWMesh F D) (total : Nat) (materialMap : List (Nat × Nat)) (triangleMesh : MaxMesh F)
    (a : List D) (N : Nat)
    (hnull : ∀ q ∈ mesh.meshPrimitives, q ≠ none)
    (hpos : mesh.positions = FloatOrDoubleArray.doubleValues a)
    (hlen : a.length = 3 * N) :
    ∃ r, importTriangleMeshPositions narrow mesh total materialMap triangleMesh = some r ∧
      r.2.1.numVerts = N ∧ N = a.length / 3 ∧
      (∀ i, i < N → ∃ x y z, a[3 * i]? = some x ∧ a[3 * i + 1]? = some y ∧
        a[3 * i + 2]? = some z ∧ r.2.1.verts i = some ⟨narrow x, narrow y, narrow z⟩) ∧
      (∀ i, N ≤ i → r.2.1.verts i = none) := by
  obtain ⟨mm, hmm⟩ := importTriangleMeshPositions_eq narrow mesh total materialMap triangleMesh hnull
  have hN : a.length / 3 = N := by omega
  have hv : positionsVertexPart narrow mesh triangleMesh
      = setVertsDouble narrow a N (triangleMesh.setNumVerts N) := by
    unfold positionsVertexPart
    simp only [hpos, FloatOrDoubleArray.getValuesCount, hN]
  obtain ⟨h1, h2⟩ := forRange_setVert_double narrow a N 0 (triangleMesh.setNumVerts N)
  refine ⟨_, hmm, ?_, hN.symm, ?_, ?_⟩
  · show (positionsVertexPart narrow mesh triangleMesh).numVerts = N
    rw [hv]; unfold setVertsDouble; rw [h1]; rfl
  · intro i hi
    refine ⟨a.getD (3 * i) default, a.getD (3 * i + 1) default, a.getD (3 * i + 2) default,
      getElem?_eq_some_getD a default _ (by omega), getElem?_eq_some_getD a default _ (by omega),
      getElem?_eq_some_getD a default _ (by omega), ?_⟩
    show (positionsVertexPart narrow mesh triangleMesh).verts i = _
    rw [hv]; unfold setVertsDouble; rw [h2 i]
    have c : 0 ≤ i ∧ i < 0 + N := by omega
    simp only [c, and_self, if_true]
  · intro i hi
    show (positionsVertexPart narrow mesh triangleMesh).verts i = none
    rw [hv]; unfold setVertsDouble; rw [h2 i]
    have c : ¬ (0 ≤ i ∧ i < 0 + N) := by omega
    simp only [c, if_false]
    rfl

/-- An instance of C4: the stream `1 .. 6` narrowed by doubling gives the two vertices
`(2, 4, 6)` and `(8, 10, 12)`, and vertex 2 is not written. -/
theorem C4_double_positions_witness :
    (importTriangleMeshPositions (fun d : Nat => 2 * d)
        ({ positions := FloatOrDoubleArray.doubleValues [1, 2, 3, 4, 5, 6], uvInputInfos := [],
           colorInputInfos := [], meshPrimitives := [], hasNormals := false,
           normals := FloatOrDoubleArray.floatValues [] } : FWMesh Nat Nat) 0 []
        (MaxMesh.blank Nat)).map
      (fun r => (r.2.1.numVerts, r.2.1.verts 0, r.2.1.verts 1, r.2.1.verts 2))
      = some (2, some ⟨2, 4, 6⟩, some ⟨8, 10, 12⟩, none) := by
  obtain ⟨r, hr, h1, _, h2, h3⟩ := C4_double_positions (fun d : Nat => 2 * d)
    ({ positions := FloatOrDoubleArray.doubleValues [1, 2, 3, 4, 5, 6], uvInputInfos := [],
       colorInputInfos := [], meshPrimitives := [], hasNormals := false,
           normals := FloatOrDoubleArray.floatValues [] } : FWMesh Nat Nat) 0 [] (MaxMesh.blank Nat)
    [1, 2, 3, 4, 5, 6] 2 (by simp) rfl rfl
  obtain ⟨x0, y0, z0, a0, b0, c0, v0⟩ := h2 0 (by decide)
  obtain ⟨x1, y1, z1, a1, b1, c1, v1⟩ := h2 1 (by decide)
  have v2 := h3 2 (by decide)
  simp at a0 b0 c0 a1 b1 c1
  subst a0 b0 c0 a1 b1 c1
  rw [hr]
  simp [h1, v0, v1, v2]

/-! ## The polygon position pass -/

theorem forRange_extends_proj {σ α : Type} (proj : σ → Cursor α) (body : Nat → σ → σ)
    (hb : ∀ i s, Cursor.Extends (proj s) (proj (body i s))) :
    ∀ (n i : Nat) (s : σ), Cursor.Extends (proj s) (proj (forRange body n i s)) := by
  intro n
  induction n with
  | zero => intro i s; exact Cursor.Extends.refl _
  | succ n ih =>
    intro i s
    simp only [forRange]
    exact Cursor.Extends.trans (hb i s) (ih (i + 1) (body i s))

theorem update_extends {α : Type} (s : Cursor α) (x : α) :
    Cursor.Extends s (s.1 + 1, Function.update s.2 s.1 x) := by
  refine ⟨Nat.le_succ _, fun i hi => ?_⟩
  show Function.update s.2 s.1 x i = s.2 i
  rw [Function.update_noteq (by omega)]

theorem polyTristripRun_extends (idx : List Nat) (s : Nat × Cursor MNFace) (L : Nat) :
    Cursor.Extends s.2 (polyTristripRun idx s L).2 := by
  unfold polyTristripRun
  refine forRange_extends_proj (fun x : Bool × Cursor MNFace => x.2) _ ?_ _ _ (false, s.2)
  intro i x
  unfold polyTristripBody
  split <;> exact update_extends _ _

theorem polyTrifanRun_extends (idx : List Nat) (s : Nat × Cursor MNFace) (L : Nat) :
    Cursor.Extends s.2 (polyTrifanRun idx s L).2 := by
  unfold polyTrifanRun
  refine forRange_extends_proj (fun x : Cursor MNFace => x) _ ?_ _ _ s.2
  intro i x
  exact update_extends _ _

/-- The `POLYGONS` loop: one face per run with a positive vertex count, in run order, read from
the offset that the positive vertex counts before it add up to. -/
theorem foldl_polygonsBody (idx : List Nat) :
    ∀ (counts : List Int) (s : Nat × Cursor MNFace),
      (counts.foldl (polygonsBody idx) s).2.1 = s.2.1 + (counts.filter (0 < ·)).length ∧
      (∀ i, i < s.2.1 → (counts.foldl (polygonsBody idx) s).2.2 i = s.2.2 i) ∧
      (∀ i, s.2.1 + (counts.filter (0 < ·)).length ≤ i →
        (counts.foldl (polygonsBody idx) s).2.2 i = s.2.2 i) ∧
      (∀ k c, (counts.filter (0 < ·))[k]? = some c →
        (counts.foldl (polygonsBody idx) s).2.2 (s.2.1 + k)
          = { deg := c.toNat,
              vtx := readFrom idx
                (s.1 + (((counts.filter (0 < ·)).take k).map Int.toNat).sum) c.toNat }) := by
  intro counts
  induction counts with
  | nil => intro s; simp
  | cons c rest ih =>
    intro s
    by_cases hc : c ≤ 0
    · have hf : (c :: rest).filter (0 < ·) = rest.filter (0 < ·) := by
        simp [List.filter_cons, not_lt.mpr hc]
      have hb : polygonsBody idx s c = s := by simp [polygonsBody, hc]
      rw [hf, List.foldl_cons, hb]
      exact ih s
    · have hpos : 0 < c := not_le.mp hc
      have hf : (c :: rest).filter (0 < ·) = c :: rest.filter (0 < ·) := by
        simp [List.filter_cons, hpos]
      have hb : polygonsBody idx s c
          = (s.1 + c.toNat, s.2.1 + 1, Function.update s.2.2 s.2.1
              ({ deg := c.toNat, vtx := readFrom idx s.1 c.toNat } : MNFace)) := by
        simp [polygonsBody, hc, MNFace.MakePoly]
      rw [hf, List.foldl_cons, hb]
      obtain ⟨h1, h2, h3, h4⟩ := ih (s.1 + c.toNat, s.2.1 + 1, Function.update s.2.2 s.2.1
        ({ deg := c.toNat, vtx := readFrom idx s.1 c.toNat } : MNFace))
      simp only [List.length_cons] at h1 h2 h3 h4 ⊢
      refine ⟨by rw [h1]; omega, ?_, ?_, ?_⟩
      · intro i hi
        rw [h2 i (by omega), Function.update_noteq (by omega)]
      · intro i hi
        rw [h3 i (by omega), Function.update_noteq (by omega)]
      · intro k c' hk
        cases k with
        | zero =>
          simp only [List.getElem?_cons_zero, Option.some.injEq] at hk
          subst hk
          simp only [Nat.add_zero]
          rw [h2 s.2.1 (by omega), Function.update_same]
          simp
        | succ k =>
          simp only [List.getElem?_cons_succ] at hk
          have e : s.2.1 + (k + 1) = s.2.1 + 1 + k := by omega
          rw [e, h4 k c' hk]
          simp only [List.take_succ_cons, List.map_cons, List.sum_cons, Nat.add_assoc]

theorem polygonsBody_extends_fold (idx : List Nat) (counts : List Int)
    (s : Nat × Cursor MNFace) : Cursor.Extends s.2 (counts.foldl (polygonsBody idx) s).2 := by
  obtain ⟨h1, h2, _, _⟩ := foldl_polygonsBody idx counts s
  exact ⟨by rw [h1]; omega, h2⟩

theorem polyPositionsPrimitive_extends (s : Cursor MNFace) (q : Option MeshPrimitive) :
    Cursor.Extends s (polyPositionsPrimitive s q) := by
  cases q with
  | none => exact Cursor.Extends.refl s
  | some p =>
    simp only [polyPositionsPrimitive]
    split
    · exact forStep_extends 3 _ _ (fun i x => update_extends _ _) _ _ _
    · exact (foldl_run_extends _ (polyTristripRun_extends _) (fun _ _ => rfl) _ (0, s)).1
    · exact (foldl_run_extends _ (polyTrifanRun_extends _) (fun _ _ => rfl) _ (0, s)).1
    · exact polygonsBody_extends_fold _ _ (0, s)
    · exact Cursor.Extends.refl s

theorem foldl_polyPositionsPrimitive_extends :
    ∀ (prims : List (Option MeshPrimitive)) (s : Cursor MNFace),
      Cursor.Extends s (prims.foldl polyPositionsPrimitive s) := by
  intro prims
  induction prims with
  | nil => intro s; exact Cursor.Extends.refl s
  | cons q rest ih =>
    intro s
    exact Cursor.Extends.trans (polyPositionsPrimitive_extends s q) (ih _)

theorem importPolygonMeshPositions_faces {F D : Type} [Inhabited F] [Inhabited D]
    (narrow : D → F) (mesh : FWMesh F D) (total polys : Nat) (polgonMesh : MNMesh F) :
    (importPolygonMeshPositions narrow mesh total polys polgonMesh).2.faces
      = (mesh.meshPrimitives.foldl polyPositionsPrimitive (0, polgonMesh.faces)).2 := by
  have hd : ∀ (a : List D) (n i : Nat) (m : MNMesh F),
      (forRange (fun i m => MNMesh.setP m i (narrow (a.getD (3 * i) default))
        (narrow (a.getD (3 * i + 1) default)) (narrow (a.getD (3 * i + 2) default))) n i m).faces
        = m.faces := by
    intro a n
    induction n with
    | zero => intro i m; rfl
    | succ n ih => intro i m; simp only [forRange]; rw [ih]; rfl
  have hf : ∀ (a : List F) (stop fuel i : Nat) (m : MNMesh F),
      (forStep 3 stop (fun i m => MNMesh.setP m i (a.getD i default)
        (a.getD (i + 1) default) (a.getD (i + 2) default)) fuel i m).faces = m.faces := by
    intro a stop fuel
    induction fuel with
    | zero => intro i m; rfl
    | succ fuel ih =>
      intro i m
      simp only [forStep]
      split
      · rw [ih]; rfl
      · rfl
  unfold importPolygonMeshPositions
  cases hp : mesh.positions with
  | floatValues a =>
    simp only [polySetVertsFloat, MNMesh.setNumFaces, hf]
    rfl
  | doubleValues a =>
    simp only [polySetVertsDouble, MNMesh.setNumFaces, hd]
    rfl

/-- C6. In the polygon-mesh position pass, a `POLYGONS` primitive `p` of the mesh advances the
face index by the number of its runs with a positive vertex count, and writes no face at or
beyond the face index it ends with; in the result of the pass the `k`-th face from the face
index at which `p` started has the arity of the `k`-th positive vertex count `c` and the `c`
indices read from the offset that the positive counts before it add up to. Runs with a vertex
count `≤ 0` are the ones the filter drops: they make no face and advance nothing. -/
theorem C6_polygon_runs {F D : Type} [Inhabited F] [Inhabited D] (narrow : D → F)
    (mesh : FWMesh F D) (total polys : Nat) (polgonMesh : MNMesh F)
    (pre post : List (Option MeshPrimitive)) (p : MeshPrimitive)
    (hprims : mesh.meshPrimitives = pre ++ some p :: post)
    (htype : p.primitiveType = PrimitiveType.POLYGONS) :
    (polyPositionsPrimitive (pre.foldl polyPositionsPrimitive (0, polgonMesh.faces)) (some p)).1
      = (pre.foldl polyPositionsPrimitive (0, polgonMesh.faces)).1
        + (p.polygonsVertexCountArray.filter (0 < ·)).length ∧
    (∀ i, (pre.foldl polyPositionsPrimitive (0, polgonMesh.faces)).1
        + (p.polygonsVertexCountArray.filter (0 < ·)).length ≤ i →
      (polyPositionsPrimitive (pre.foldl polyPositionsPrimitive (0, polgonMesh.faces)) (some p)).2 i
        = (pre.foldl polyPositionsPrimitive (0, polgonMesh.faces)).2 i) ∧
    (∀ k c, (p.polygonsVertexCountArray.filter (0 < ·))[k]? = some c →
      (importPolygonMeshPositions narrow mesh total polys polgonMesh).2.faces
          ((pre.foldl polyPositionsPrimitive (0, polgonMesh.faces)).1 + k)
        = { deg := c.toNat,
            vtx := readFrom p.positionIndices
              ((((p.polygonsVertexCountArray.filter (0 < ·)).take k).map Int.toNat).sum)
              c.toNat }) := by
  generalize hsP : pre.foldl polyPositionsPrimitive (0, polgonMesh.faces) = sP
  obtain ⟨h1, _, h3, h4⟩ := foldl_polygonsBody p.positionIndices p.polygonsVertexCountArray (0, sP)
  have hprim : polyPositionsPrimitive sP (some p)
      = (p.polygonsVertexCountArray.foldl (polygonsBody p.positionIndices) (0, sP)).2 := by
    simp only [polyPositionsPrimitive, htype]
  refine ⟨by rw [hprim]; exact h1, by rw [hprim]; exact h3, ?_⟩
  intro k c hk
  have hB : Cursor.Extends (polyPositionsPrimitive sP (some p))
      (mesh.meshPrimitives.foldl polyPositionsPrimitive (0, polgonMesh.faces)) := by
    rw [hprims, List.foldl_append, List.foldl_cons, hsP]
    exact foldl_polyPositionsPrimitive_extends post _
  have hlt : k < (p.polygonsVertexCountArray.filter (0 < ·)).length := by
    by_contra hge
    rw [List.getElem?_eq_none (not_lt.mp hge)] at hk
    exact absurd hk (by simp)
  rw [importPolygonMeshPositions_faces, hB.2 _ (by rw [hprim]; show sP.1 + k < _; rw [h1]; simp only []; omega),
    hprim]
  have := h4 k c hk
  simpa using this

/-- The scenario of C6: the vertex counts `[-1, 4]` over the indices `[0, 1, 2, 3]` advance the
face index from 0 to 1, write the single face `(0, 1, 2, 3)` of arity 4 at face 0 and leave
face 1 alone. -/
theorem C6_polygon_runs_witness :
    (polyPositionsPrimitive (0, (MNMesh.blank Nat).faces)
        (some (MeshPrimitive.polygons [0, 1, 2, 3] [-1, 4]))).1 = 1 ∧
    (polyPositionsPrimitive (0, (MNMesh.blank Nat).faces)
        (some (MeshPrimitive.polygons [0, 1, 2, 3] [-1, 4]))).2 1 = MNFace.blank ∧
    (importPolygonMeshPositions (fun d : Nat => d)
        (FWMesh.ofPrimitives [some (MeshPrimitive.polygons [0, 1, 2, 3] [-1, 4])]) 0 1
        (MNMesh.blank Nat)).2.faces 0 = { deg := 4, vtx := [0, 1, 2, 3] } := by
  obtain ⟨h1, h2, h3⟩ := C6_polygon_runs (fun d : Nat => d)
    (FWMesh.ofPrimitives [some (MeshPrimitive.polygons [0, 1, 2, 3] [-1, 4])]) 0 1
    (MNMesh.blank Nat) [] [] (MeshPrimitive.polygons [0, 1, 2, 3] [-1, 4]) rfl rfl
  refine ⟨h1, h2 1 (by decide), ?_⟩
  have := h3 0 4 (by decide)
  simpa [readFrom, rd, MeshPrimitive.polygons] using this

/-! ## The face index of the UV pass -/

/-- C5. A mesh of two `TRIANGLES` primitives: the first, `(0, 1, 2)`, has a colour list of set 2
and no UV index list; the second, `(0, 2, 3)`, has one UV index list `(7, 8, 9)` of set 0. The
position pass writes the face of the second primitive at face index 1. The engine gives the
colour list channel 2 and the UV list channel 1. The UV pass does not advance its face index
over the first primitive: it writes `(7, 8, 9)` at face index 0 of channel 1, the face of the
first primitive, leaves face index 1 of the channel unwritten and ends with face index 1. -/
theorem C5_uv_face_offset_eval :
    (importTriangleMeshPositions (fun d : Nat => d)
        (FWMesh.ofSources [⟨6, 2⟩] [⟨9, 3⟩]
          [some (MeshPrimitive.withLists [0, 1, 2] [] [⟨2, 0, [0, 1, 2]⟩]),
           some (MeshPrimitive.withLists [0, 2, 3] [⟨0, 0, [7, 8, 9]⟩] [])])
        2 [] (MaxMesh.blank Nat)).map
      (fun r => ((r.2.1.faces 0).v, (r.2.1.faces 1).v))
      = some ((0, 1, 2), (0, 2, 3)) ∧
    (importTriangleMeshUVCoordsFaces MapLimits.sdk 0
        (FWMesh.ofSources [⟨6, 2⟩] [⟨9, 3⟩]
          [some (MeshPrimitive.withLists [0, 1, 2] [] [⟨2, 0, [0, 1, 2]⟩]),
           some (MeshPrimitive.withLists [0, 2, 3] [⟨0, 0, [7, 8, 9]⟩] [])])
        (Importer.fresh 2) (fun _ _ => none)).map
      (fun r => (r.1, r.2.1.mMapChannelCount, r.2.1.mSetSourcePairMapChannelMap,
        r.2.2 1 0, r.2.2 1 1))
      = some (1, 2, [((-1, 0), 2), ((0, 0), 1)], some (7, 8, 9), none) := by
  constructor <;> rfl

/-! ## The channel assignment engine keeps the map injective -/

theorem mem_mapPlace {K V : Type} (lt : K → K → Bool) (k : K) (v : V) :
    ∀ (m : List (K × V)) (x : K × V), x ∈ mapPlace lt k v m ↔ x = (k, v) ∨ x ∈ m := by
  intro m
  induction m with
  | nil => intro x; simp [mapPlace]
  | cons e rest ih =>
    intro x
    simp only [mapPlace]
    split
    · simp
    · simp only [List.mem_cons, ih]
      tauto

theorem mem_mapInsert {K V : Type} [DecidableEq K] (lt : K → K → Bool) (k : K) (v : V)
    (m : List (K × V)) (x : K × V) (h : x ∈ mapInsert lt k v m) : x = (k, v) ∨ x ∈ m := by
  unfold mapInsert at h
  split at h
  · exact Or.inr h
  · exact (mem_mapPlace lt k v m x).mp h

theorem recordChannel_inv (lim : MapLimits) (s : ChannelState) (key : SetSourcePair) (ch : Int)
    (hs : ChannelInv lim s) (hfree : s.2 (ch + lim.NUM_HIDDENMAPS) = false) :
    ChannelInv lim (recordChannel lim s key ch) := by
  obtain ⟨hused, hinj⟩ := hs
  have hold : ∀ k v, (k, v) ∈ s.1.mSetSourcePairMapChannelMap → v ≠ ch := by
    intro k v hm hv
    have := hused k v hm
    rw [hv, hfree] at this
    exact absurd this (by simp)
  constructor
  · intro k v hm
    show Function.update s.2 (ch + lim.NUM_HIDDENMAPS) true (v + lim.NUM_HIDDENMAPS) = true
    by_cases hv : v + (lim.NUM_HIDDENMAPS : Int) = ch + lim.NUM_HIDDENMAPS
    · rw [hv, Function.update_same]
    · rw [Function.update_noteq hv]
      rcases mem_mapInsert _ _ _ _ _ hm with h | h
      · exact absurd (by rw [(Prod.mk.inj h).2]) hv
      · exact hused k v h
  · intro k1 v1 k2 v2 h1 h2 hv
    rcases mem_mapInsert _ _ _ _ _ h1 with e1 | e1 <;>
      rcases mem_mapInsert _ _ _ _ _ h2 with e2 | e2
    · rw [(Prod.mk.inj e1).1, (Prod.mk.inj e2).1]
    · exact absurd (by rw [← hv, (Prod.mk.inj e1).2]) (hold k2 v2 e2)
    · exact absurd (by rw [hv, (Prod.mk.inj e2).2]) (hold k1 v1 e1)
    · exact hinj k1 v1 k2 v2 e1 e2 hv

theorem nextUnused_free (lim : MapLimits) (used : Int → Bool) :
    ∀ (n : Nat) (i m : Int), nextUnused lim used n i = some m →
      used (m + lim.NUM_HIDDENMAPS) = false := by
  intro n
  induction n with
  | zero => intro i m h; simp [nextUnused] at h
  | succ n ih =>
    intro i m h
    simp only [nextUnused] at h
    split at h
    · rename_i hu
      simp only [Option.some.injEq] at h
      subst h
      simpa using hu
    · exact ih _ _ h

theorem assignMapChannels_inv (lim : MapLimits) (c f : Bool) (tbl : List (Nat × Nat)) :
    ∀ (lists : List IndexList) (s : ChannelState) (r : Bool × ChannelState),
      ChannelInv lim s → assignMapChannels lim c f tbl lists s = some r →
        ChannelInv lim r.2 := by
  intro lists
  induction lists with
  | nil =>
    intro s r hs h
    simp only [assignMapChannels, Option.some.injEq] at h
    subst h
    exact hs
  | cons il rest ih =>
    intro s r hs h
    simp only [assignMapChannels] at h
    split at h
    · exact absurd h (by simp)
    · split at h
      · simp only [Option.some.injEq] at h
        subst h
        exact hs
      · split at h
        · split at h
          · split at h
            · rename_i hu
              exact ih _ _ (recordChannel_inv lim s _ _ hs (by simpa using hu)) h
            · exact ih _ _ hs h
          · exact ih _ _ hs h
        · split at h
          · simp only [Option.some.injEq] at h
            subst h
            exact hs
          · rename_i m hm
            exact ih _ _ (recordChannel_inv lim s _ _ hs (nextUnused_free lim _ _ _ _ hm)) h


theorem firstTry_inv (lim : MapLimits) :
    ∀ (prims : List (Option MeshPrimitive)) (s r : ChannelState),
      ChannelInv lim s → firstTry lim prims s = some r → ChannelInv lim r := by
  intro prims
  induction prims with
  | nil =>
    intro s r hs h
    simp only [firstTry, Option.some.injEq] at h
    subst h
    exact hs
  | cons q rest ih =>
    intro s r hs h
    cases q with
    | none => simp [firstTry] at h
    | some p =>
      simp only [firstTry] at h
      split at h
      · exact absurd h (by simp)
      · rename_i r1 h1
        split at h
        · exact absurd h (by simp)
        · rename_i r2 h2
          exact ih _ _ (assignMapChannels_inv lim _ _ _ _ _ _
            (assignMapChannels_inv lim _ _ _ _ _ _ hs h1) h2) h

theorem secondTry_inv (lim : MapLimits) :
    ∀ (prims : List (Option MeshPrimitive)) (s r : ChannelState),
      ChannelInv lim s → secondTry lim prims s = some r → ChannelInv lim r := by
  intro prims
  induction prims with
  | nil =>
    intro s r hs h
    simp only [secondTry, Option.some.injEq] at h
    subst h
    exact hs
  | cons q rest ih =>
    intro s r hs h
    cases q with
    | none => simp [secondTry] at h
    | some p =>
      simp only [secondTry] at h
      split at h
      · exact absurd h (by simp)
      · rename_i s1 h1
        simp only [Option.some.injEq] at h
        subst h
        exact assignMapChannels_inv lim _ _ _ _ _ _ hs h1
      · rename_i s1 h1
        have i1 := assignMapChannels_inv lim _ _ _ _ _ _ hs h1
        split at h
        · exact absurd h (by simp)
        · rename_i s2 h2
          simp only [Option.some.injEq] at h
          subst h
          exact assignMapChannels_inv lim _ _ _ _ _ _ i1 h2
        · rename_i s2 h2
          exact ih _ _ (assignMapChannels_inv lim _ _ _ _ _ _ i1 h2) h

theorem channelInv_of_nil (lim : MapLimits) (s : ChannelState)
    (h : s.1.mSetSourcePairMapChannelMap = []) : ChannelInv lim s := by
  constructor
  · intro k v hm
    rw [h] at hm
    exact absurd hm (List.not_mem_nil _)
  · intro k1 v1 k2 v2 hm
    rw [h] at hm
    exact absurd hm (List.not_mem_nil _)

/-- C7. Start the channel assignment engine on any mesh with an importer whose key-to-channel
map is empty (the array of used channels starts all free inside the function). Whenever the
engine runs to its end, also when the second try stops early because no channel is free, the
resulting map is injective: two entries with the same channel have the same key. -/
theorem C7_channel_map_injective {F D : Type} (lim : MapLimits) (uVInitialIndex : Nat)
    (mesh : FWMesh F D) (imp imp' : Importer)
    (hfresh : imp.mSetSourcePairMapChannelMap = [])
    (hrun : createSetSourcePairMapChannelMap lim uVInitialIndex mesh imp = some imp') :
    MapInjective imp'.mSetSourcePairMapChannelMap := by
  unfold createSetSourcePairMapChannelMap at hrun
  split at hrun
  · exact absurd hrun (by simp)
  · split at hrun
    · exact absurd hrun (by simp)
    · simp only at hrun
      split at hrun
      · exact absurd hrun (by simp)
      · rename_i s1 h1
        split at hrun
        · exact absurd hrun (by simp)
        · rename_i s2 h2
          simp only [Option.some.injEq] at hrun
          subst hrun
          exact (secondTry_inv lim _ _ _
            (firstTry_inv lim _ _ _ (channelInv_of_nil lim _ hfresh) h1) h2).2

/-- An instance of C7 with two channels only: three primitives with one UV index list each, all
of set 0, from three sources. The first try gives channel 1 to the first key, the second try
gives channel 2 to the second key and stops on the third because no channel is free; the map
is injective. -/
theorem C7_channel_map_injective_witness :
    createSetSourcePairMapChannelMap { MAX_MESHMAPS := 2, NUM_HIDDENMAPS := 2 } 0
        (FWMesh.ofSources [⟨6, 2⟩, ⟨6, 2⟩, ⟨6, 2⟩] []
          [some (MeshPrimitive.withLists [0, 1, 2] [⟨0, 0, [0, 1, 2]⟩] []),
           some (MeshPrimitive.withLists [0, 1, 2] [⟨0, 3, [0, 1, 2]⟩] []),
           some (MeshPrimitive.withLists [0, 1, 2] [⟨0, 6, [0, 1, 2]⟩] [])])
        (Importer.fresh 3)
      = some { mTotalTrianglesCount := 3, mMapChannelCount := 2,
               mSetSourcePairMapChannelMap := [((0, 0), 1), ((0, 1), 2)],
               mColorInitialIndexSourceIndexMap := [],
               mColorSourceIndexInitialIndexMap := [],
               mUVInitialIndexSourceIndexMap := [(0, 0), (3, 1), (6, 2)],
               mUVSourceIndexInitialIndexMap := [(0, 0), (1, 3), (2, 6)] } ∧
    MapInjective ([((0, 0), 1), ((0, 1), 2)] : List (SetSourcePair × Int)) :=
  ⟨rfl, C7_channel_map_injective { MAX_MESHMAPS := 2, NUM_HIDDENMAPS := 2 } 0
    (FWMesh.ofSources [⟨6, 2⟩, ⟨6, 2⟩, ⟨6, 2⟩] []
      [some (MeshPrimitive.withLists [0, 1, 2] [⟨0, 0, [0, 1, 2]⟩] []),
       some (MeshPrimitive.withLists [0, 1, 2] [⟨0, 3, [0, 1, 2]⟩] []),
       some (MeshPrimitive.withLists [0, 1, 2] [⟨0, 6, [0, 1, 2]⟩] [])])
    (Importer.fresh 3)
    { mTotalTrianglesCount := 3, mMapChannelCount := 2,
      mSetSourcePairMapChannelMap := [((0, 0), 1), ((0, 1), 2)],
      mColorInitialIndexSourceIndexMap := [],
      mColorSourceIndexInitialIndexMap := [],
      mUVInitialIndexSourceIndexMap := [(0, 0), (3, 1), (6, 2)],
      mUVSourceIndexInitialIndexMap := [(0, 0), (1, 3), (2, 6)] } rfl rfl⟩

/-! ## Keys of colour sets and of UV sets -/

/-- C8. The key of the colour list of set 1 of source 0 is the key of the UV list of set 0 of
source 0, namely `(0, 0)`: `-(long)(setIndex - 1)` is `0` for set 1, and it is `1` for set 0,
which is the key of UV set 1. Only colour sets from 2 on have a negative key. -/
theorem C8_color_uv_key_collision :
    channelKey true 1 0 = channelKey false 0 0 ∧
    channelKey true 1 0 = (0, 0) ∧
    channelKey true 0 0 = channelKey false 1 0 ∧
    channelKey true 2 0 = (-1, 0) := by
  refine ⟨?_, ?_, ?_, ?_⟩ <;> decide

/-- C9. A primitive with a colour list of set 1 and a UV list of set 0, each from source 0 of
its family. The first try gives the colour list the key `(0, 0)` and its favoured channel 0;
the UV list has the same key, so it is taken as assigned. After the engine the key of the UV
list is in the map and its channel is 0. -/
theorem C9_uv_list_on_channel_zero_eval :
    (createSetSourcePairMapChannelMap MapLimits.sdk 0
        (FWMesh.ofSources [⟨6, 2⟩] [⟨9, 3⟩]
          [some (MeshPrimitive.withLists [0, 1, 2] [⟨0, 0, [0, 1, 2]⟩] [⟨1, 0, [0, 1, 2]⟩])])
        (Importer.fresh 1)).map
      (fun imp => (imp.mSetSourcePairMapChannelMap,
        mapFind (channelKey false 0 0) imp.mSetSourcePairMapChannelMap))
      = some ([((0, 0), 0)], some 0) := by
  rfl

/-- C10. One primitive with two UV lists of set 0, from source 0 and from source 1. The first
try gives channel 1 to the first key and leaves the second one for the second try. In the
second try the first list, whose key is in the map, ends the loop over the lists of the
primitive, so the second list is never looked at: after the engine its key `(0, 1)` has no
channel, with 99 channels free. -/
theorem C10_second_list_unassigned_eval :
    (createSetSourcePairMapChannelMap MapLimits.sdk 0
        (FWMesh.ofSources [⟨6, 2⟩, ⟨6, 2⟩] []
          [some (MeshPrimitive.withLists [0, 1, 2]
            [⟨0, 0, [0, 1, 2]⟩, ⟨0, 3, [0, 1, 2]⟩] [])])
        (Importer.fresh 1)).map
      (fun imp => (imp.mSetSourcePairMapChannelMap, imp.mMapChannelCount,
        mapFind (channelKey false 0 1) imp.mSetSourcePairMapChannelMap))
      = some ([((0, 0), 1)], 1, none) := by
  rfl

/-- The same two UV lists in two primitives: the second try reaches the second list and gives
it channel 2, the lowest free one. -/
theorem secondTry_places_list_of_other_primitive :
    (createSetSourcePairMapChannelMap MapLimits.sdk 0
        (FWMesh.ofSources [⟨6, 2⟩, ⟨6, 2⟩] []
          [some (MeshPrimitive.withLists [0, 1, 2] [⟨0, 0, [0, 1, 2]⟩] []),
           some (MeshPrimitive.withLists [0, 1, 2] [⟨0, 3, [0, 1, 2]⟩] [])])
        (Importer.fresh 2)).map
      (fun imp => imp.mSetSourcePairMapChannelMap)
      = some [((0, 0), 1), ((0, 1), 2)] := by
  rfl

/-! ## The channel assignment engine runs to its end on a well-formed mesh -/

theorem assignMapChannels_isSome (lim : MapLimits) (c f : Bool) (tbl : List (Nat × Nat)) :
    ∀ (lists : List IndexList) (s : ChannelState),
      (∀ il ∈ lists, (mapFind il.initialIndex tbl).isSome) →
      ∃ r, assignMapChannels lim c f tbl lists s = some r ∧
        r.2.1.mColorInitialIndexSourceIndexMap = s.1.mColorInitialIndexSourceIndexMap ∧
        r.2.1.mUVInitialIndexSourceIndexMap = s.1.mUVInitialIndexSourceIndexMap := by
  intro lists
  induction lists with
  | nil => intro s _; exact ⟨(true, s), rfl, rfl, rfl⟩
  | cons il rest ih =>
    intro s h
    have hrest : ∀ il ∈ rest, (mapFind il.initialIndex tbl).isSome :=
      fun x hx => h x (List.mem_cons_of_mem _ hx)
    obtain ⟨src, hsrc⟩ := Option.isSome_iff_exists.mp (h il (List.mem_cons_self _ _))
    simp only [assignMapChannels, hsrc]
    split
    · exact ⟨_, rfl, rfl, rfl⟩
    · split
      · split
        · split
          · obtain ⟨r, h1, h2, h3⟩ := ih (recordChannel lim s
              (channelKey c il.setIndex src) (favoredMapChannel c il.setIndex)) hrest
            exact ⟨r, h1, h2, h3⟩
          · exact ih s hrest
        · exact ih s hrest
      · split
        · exact ⟨_, rfl, rfl, rfl⟩
        · rename_i m _
          obtain ⟨r, h1, h2, h3⟩ := ih (recordChannel lim s
            (channelKey c il.setIndex src) m) hrest
          exact ⟨r, h1, h2, h3⟩

/-- The index lists of every primitive resolve in the tables of the state. -/
theorem firstTry_isSome (lim : MapLimits) (ct ut : List (Nat × Nat)) :
    ∀ (prims : List (Option MeshPrimitive)) (s : ChannelState),
      s.1.mColorInitialIndexSourceIndexMap = ct → s.1.mUVInitialIndexSourceIndexMap = ut →
      (∀ q ∈ prims, q ≠ none) →
      (∀ p, some p ∈ prims →
        (∀ il ∈ p.colorIndicesArray, (mapFind il.initialIndex ct).isSome) ∧
        (∀ il ∈ p.uvCoordIndicesArray, (mapFind il.initialIndex ut).isSome)) →
      ∃ r, firstTry lim prims s = some r ∧
        r.1.mColorInitialIndexSourceIndexMap = ct ∧ r.1.mUVInitialIndexSourceIndexMap = ut := by
  intro prims
  induction prims with
  | nil => intro s hc hu _ _; exact ⟨s, rfl, hc, hu⟩
  | cons q rest ih =>
    intro s hc hu hnull hres
    cases q with
    | none => exact absurd rfl (hnull none (List.mem_cons_self _ _))
    | some p =>
      obtain ⟨hcol, huv⟩ := hres p (List.mem_cons_self _ _)
      obtain ⟨r1, e1, c1, u1⟩ := assignMapChannels_isSome lim true true
        s.1.mColorInitialIndexSourceIndexMap p.colorIndicesArray s (by rw [hc]; exact hcol)
      obtain ⟨r2, e2, c2, u2⟩ := assignMapChannels_isSome lim false true
        r1.2.1.mUVInitialIndexSourceIndexMap p.uvCoordIndicesArray r1.2
        (by rw [u1, hu]; exact huv)
      simp only [firstTry, e1, e2]
      exact ih r2.2 (by rw [c2, c1, hc]) (by rw [u2, u1, hu])
        (fun q hq => hnull q (List.mem_cons_of_mem _ hq))
        (fun p hp => hres p (List.mem_cons_of_mem _ hp))

theorem secondTry_isSome (lim : MapLimits) (ct ut : List (Nat × Nat)) :
    ∀ (prims : List (Option MeshPrimitive)) (s : ChannelState),
      s.1.mColorInitialIndexSourceIndexMap = ct → s.1.mUVInitialIndexSourceIndexMap = ut →
      (∀ q ∈ prims, q ≠ none) →
      (∀ p, some p ∈ prims →
        (∀ il ∈ p.colorIndicesArray, (mapFind il.initialIndex ct).isSome) ∧
        (∀ il ∈ p.uvCoordIndicesArray, (mapFind il.initialIndex ut).isSome)) →
      ∃ r, secondTry lim prims s = some r := by
  intro prims
  induction prims with
  | nil => intro s _ _ _ _; exact ⟨s, rfl⟩
  | cons q rest ih =>
    intro s hc hu hnull hres
    cases q with
    | none => exact absurd rfl (hnull none (List.mem_cons_self _ _))
    | some p =>
      obtain ⟨hcol, huv⟩ := hres p (List.mem_cons_self _ _)
      obtain ⟨⟨b1, s1⟩, e1, c1, u1⟩ := assignMapChannels_isSome lim true false
        s.1.mColorInitialIndexSourceIndexMap p.colorIndicesArray s (by rw [hc]; exact hcol)
      obtain ⟨⟨b2, s2⟩, e2, c2, u2⟩ := assignMapChannels_isSome lim false false
        s1.1.mUVInitialIndexSourceIndexMap p.uvCoordIndicesArray s1
        (by rw [show s1.1.mUVInitialIndexSourceIndexMap = ut from u1.trans hu]; exact huv)
      simp only [secondTry, e1]
      cases b1 with
      | false => exact ⟨s1, rfl⟩
      | true =>
        simp only [e2]
        cases b2 with
        | false => exact ⟨s2, rfl⟩
        | true =>
          exact ih s2 (c2.trans (c1.trans hc)) (u2.trans (u1.trans hu))
            (fun q hq => hnull q (List.mem_cons_of_mem _ hq))
            (fun p hp => hres p (List.mem_cons_of_mem _ hp))

/-- The engine runs to its end when no stride is zero (the two table loops return), no
primitive is null and the initial index of every index list is in the table of its family. -/
theorem createSetSourcePairMapChannelMap_isSome {F D : Type} (lim : MapLimits)
    (uVInitialIndex : Nat) (mesh : FWMesh F D) (imp : Importer) (ct ut : TableState)
    (hct : initialIndexLoop mesh.colorInputInfos 0
      (0, imp.mColorInitialIndexSourceIndexMap, imp.mColorSourceIndexInitialIndexMap) = some ct)
    (hut : initialIndexLoop mesh.uvInputInfos 0
      (uVInitialIndex, imp.mUVInitialIndexSourceIndexMap, imp.mUVSourceIndexInitialIndexMap)
        = some ut)
    (hnull : ∀ q ∈ mesh.meshPrimitives, q ≠ none)
    (hres : ∀ p, some p ∈ mesh.meshPrimitives →
      (∀ il ∈ p.colorIndicesArray, (mapFind il.initialIndex ct.2.1).isSome) ∧
      (∀ il ∈ p.uvCoordIndicesArray, (mapFind il.initialIndex ut.2.1).isSome)) :
    ∃ imp', createSetSourcePairMapChannelMap lim uVInitialIndex mesh imp = some imp' := by
  obtain ⟨s1, e1, c1, u1⟩ := firstTry_isSome lim ct.2.1 ut.2.1 mesh.meshPrimitives
    ({ imp with
        mColorInitialIndexSourceIndexMap := ct.2.1,
        mColorSourceIndexInitialIndexMap := ct.2.2,
        mUVInitialIndexSourceIndexMap := ut.2.1,
        mUVSourceIndexInitialIndexMap := ut.2.2 }, fun _ => false) rfl rfl hnull hres
  obtain ⟨s2, e2⟩ := secondTry_isSome lim ct.2.1 ut.2.1 mesh.meshPrimitives s1 c1 u1 hnull hres
  exact ⟨s2.1, by simp only [createSetSourcePairMapChannelMap, hct, hut, e1, e2]⟩

/-! ## One call of assignMapChannels -/

theorem mapFind_mapPlace {K V : Type} [DecidableEq K] (lt : K → K → Bool) (k : K) (v : V) :
    ∀ (m : List (K × V)), mapFind k m = none →
      ∀ k', mapFind k' (mapPlace lt k v m) = if k' = k then some v else mapFind k' m := by
  intro m
  induction m with
  | nil =>
    intro _ k'
    by_cases h : k' = k
    · simp [mapPlace, mapFind, h]
    · have h' : ¬ k = k' := fun e => h e.symm
      simp [mapPlace, mapFind, h, h']
  | cons e rest ih =>
    intro hk k'
    simp only [mapFind] at hk
    split at hk
    · exact absurd hk (by simp)
    · rename_i hne
      simp only [mapPlace]
      split
      · by_cases h : k' = k
        · simp [mapFind, h]
        · have h' : ¬ k = k' := fun e => h e.symm
          simp [mapFind, h, h']
      · simp only [mapFind, ih hk k']
        by_cases h : k' = k
        · have : ¬ e.1 = k' := by rw [h]; exact hne
          simp [h, this, hne]
        · simp [h]

theorem mapFind_mapInsert_new {K V : Type} [DecidableEq K] (lt : K → K → Bool) (k : K) (v : V)
    (m : List (K × V)) (h : mapFind k m = none) (k' : K) :
    mapFind k' (mapInsert lt k v m) = if k' = k then some v else mapFind k' m := by
  unfold mapInsert
  simp only [h, Option.isSome_none, Bool.false_eq_true, if_false]
  exact mapFind_mapPlace lt k v m h k'

theorem mapFind_mapInsert_keeps {K V : Type} [DecidableEq K] (lt : K → K → Bool) (k : K) (v : V)
    (m : List (K × V)) (k' : K) (v' : V) (h : mapFind k' m = some v') :
    mapFind k' (mapInsert lt k v m) = some v' := by
  cases hk : mapFind k m with
  | some w => simp [mapInsert, hk, h]
  | none =>
    rw [mapFind_mapInsert_new lt k v m hk k']
    have : k' ≠ k := by
      intro e
      rw [e, hk] at h
      exact absurd h (by simp)
    simp [this, h]

theorem mem_mapInsert_of_mem {K V : Type} [DecidableEq K] (lt : K → K → Bool) (k : K) (v : V)
    (m : List (K × V)) (x : K × V) (h : x ∈ m) : x ∈ mapInsert lt k v m := by
  unfold mapInsert
  split
  · exact h
  · exact (mem_mapPlace lt k v m x).mpr (Or.inr h)

/-- The scan of the second try returns the least unused channel of the `n` channels from `i`
on, and fails exactly when all of them are used. -/
theorem nextUnused_spec (lim : MapLimits) (used : Int → Bool) :
    ∀ (n : Nat) (i : Int),
      (∃ m, nextUnused lim used n i = some m ∧ i ≤ m ∧ m < i + n ∧
        used (m + lim.NUM_HIDDENMAPS) = false ∧
        ∀ j, i ≤ j → j < m → used (j + lim.NUM_HIDDENMAPS) = true) ∨
      (nextUnused lim used n i = none ∧
        ∀ j, i ≤ j → j < i + n → used (j + lim.NUM_HIDDENMAPS) = true) := by
  intro n
  induction n with
  | zero =>
    intro i
    right
    refine ⟨rfl, fun j h1 h2 => ?_⟩
    simp at h2
    omega
  | succ n ih =>
    intro i
    simp only [nextUnused]
    cases hu : used (i + lim.NUM_HIDDENMAPS) with
    | false =>
      left
      refine ⟨i, by simp, le_refl _, by push_cast; omega, hu, fun j h1 h2 => ?_⟩
      omega
    | true =>
      have hstep : ∀ j : Int, i ≤ j → j < i + 1 → used (j + lim.NUM_HIDDENMAPS) = true := by
        intro j h1 h2
        have : j = i := by omega
        rw [this, hu]
      rcases ih (i + 1) with ⟨m, h1, h2, h3, h4, h5⟩ | ⟨h1, h2⟩
      · left
        refine ⟨m, by simpa using h1, by omega, by push_cast; omega, h4, fun j g1 g2 => ?_⟩
        by_cases hj : j = i
        · rw [hj, hu]
        · exact h5 j (by omega) g2
      · right
        refine ⟨by simpa using h1, fun j g1 g2 => ?_⟩
        by_cases hj : j = i
        · rw [hj, hu]
        · exact h2 j (by omega) (by push_cast at g2; omega)

/-- C11. In the second try (`isFirstTry = false`), take an index list whose initial index
resolves and whose key is not in the map. Either there is a least channel `m` in
`[1, MAX_MESHMAPS]` that is not marked used (every channel from 1 below `m` is marked used):
then the call goes on with the remaining lists from the state in which the key has channel `m`
and `m` is marked used. Or every channel in `[1, MAX_MESHMAPS]` is marked used: then the call
returns `false` with the state unchanged, so the key is not added. -/
theorem C11_second_try_least_free (lim : MapLimits) (c : Bool) (tbl : List (Nat × Nat))
    (il : IndexList) (rest : List IndexList) (s : ChannelState) (src : Nat)
    (hsrc : mapFind il.initialIndex tbl = some src)
    (hnew : mapFind (channelKey c il.setIndex src) s.1.mSetSourcePairMapChannelMap = none) :
    (∃ m : Int, 1 ≤ m ∧ m ≤ lim.MAX_MESHMAPS ∧ s.2 (m + lim.NUM_HIDDENMAPS) = false ∧
      (∀ j : Int, 1 ≤ j → j < m → s.2 (j + lim.NUM_HIDDENMAPS) = true) ∧
      assignMapChannels lim c false tbl (il :: rest) s
        = assignMapChannels lim c false tbl rest
            (recordChannel lim s (channelKey c il.setIndex src) m) ∧
      mapFind (channelKey c il.setIndex src)
        (recordChannel lim s (channelKey c il.setIndex src) m).1.mSetSourcePairMapChannelMap
        = some m ∧
      (recordChannel lim s (channelKey c il.setIndex src) m).2 (m + lim.NUM_HIDDENMAPS) = true) ∨
    ((∀ j : Int, 1 ≤ j → j ≤ lim.MAX_MESHMAPS → s.2 (j + lim.NUM_HIDDENMAPS) = true) ∧
      assignMapChannels lim c false tbl (il :: rest) s = some (false, s)) := by
  rcases nextUnused_spec lim s.2 lim.MAX_MESHMAPS 1 with ⟨m, h1, h2, h3, h4, h5⟩ | ⟨h1, h2⟩
  · left
    refine ⟨m, h2, by omega, h4, h5, ?_, ?_, ?_⟩
    · simp [assignMapChannels, hsrc, hnew, h1]
    · simp [recordChannel, mapFind_mapInsert_new pairLt _ m _ hnew]
    · simp [recordChannel]
  · right
    refine ⟨fun j g1 g2 => h2 j g1 (by omega), ?_⟩
    simp [assignMapChannels, hsrc, hnew, h1]

/-- An instance of C11 with two channels: with channel 1 used and channel 2 free the key of a
UV list of set 0 gets channel 2; with both used the call returns `false` and the map stays
empty. -/
theorem C11_second_try_least_free_witness :
    (assignMapChannels { MAX_MESHMAPS := 2, NUM_HIDDENMAPS := 2 } false false [(0, 0)]
        [⟨0, 0, []⟩] (Importer.fresh 0, fun i => decide (i = 3))).map
      (fun r => (r.1, r.2.1.mSetSourcePairMapChannelMap, r.2.2 4))
      = some (true, [((0, 0), 2)], true) ∧
    (assignMapChannels { MAX_MESHMAPS := 2, NUM_HIDDENMAPS := 2 } false false [(0, 0)]
        [⟨0, 0, []⟩] (Importer.fresh 0, fun i => decide (i = 3 ∨ i = 4))).map
      (fun r => (r.1, r.2.1.mSetSourcePairMapChannelMap))
      = some (false, []) := by
  constructor
  · rcases C11_second_try_least_free { MAX_MESHMAPS := 2, NUM_HIDDENMAPS := 2 } false [(0, 0)]
      ⟨0, 0, []⟩ [] (Importer.fresh 0, fun i => decide (i = 3)) 0 rfl rfl with
      ⟨m, h1, h2, h3, _, h, _, _⟩ | ⟨h0, _⟩
    · simp at h2 h3
      have hm : m = 2 := by omega
      subst hm
      rw [h]; rfl
    · have := h0 2 (by decide) (by decide)
      simp at this
  · rcases C11_second_try_least_free { MAX_MESHMAPS := 2, NUM_HIDDENMAPS := 2 } false [(0, 0)]
      ⟨0, 0, []⟩ [] (Importer.fresh 0, fun i => decide (i = 3 ∨ i = 4)) 0 rfl rfl with
      ⟨m, h1, h2, h3, _, _, _, _⟩ | ⟨_, h⟩
    · simp at h2 h3
      omega
    · rw [h]; rfl

theorem toInt_of_lt (n : Nat) (h : n < 2 ^ 31) : toInt n = (n : Int) := by
  unfold toInt Int.bmod
  have h1 : ((n : Int) % ((2 ^ 32 : Nat) : Int)) = (n : Int) := by
    apply Int.emod_eq_of_lt
    · exact Int.ofNat_nonneg n
    · push_cast; omega
  rw [h1]
  have h2 : (n : Int) < (((2 ^ 32 : Nat) : Int) + 1) / 2 := by
    push_cast; omega
  simp only [h2, if_true]

/-- The cast `(int)` of a set index from `2^31` to `2^32 - 1` is the set index less `2^32`. -/
theorem toInt_of_ge (n : Nat) (h1 : 2 ^ 31 ≤ n) (h2 : n < 2 ^ 32) :
    toInt n = (n : Int) - 2 ^ 32 := by
  unfold toInt Int.bmod
  have e : ((n : Int) % ((2 ^ 32 : Nat) : Int)) = (n : Int) := by
    apply Int.emod_eq_of_lt
    · omega
    · push_cast; omega
  rw [e]
  have h3 : ¬ ((n : Int) < (((2 ^ 32 : Nat) : Int) + 1) / 2) := by
    push_cast; omega
  simp only [h3, if_false]
  push_cast
  rfl

/-- C12 (as the code has it). In the first try (`isFirstTry = true`), take an index list whose
initial index resolves and whose key is not in the map. Its favoured channel is 0 for set 1
and `(int)setIndex` otherwise for a colour list, 1 for set 0 and `(int)setIndex` otherwise for
a UV list, where `(int)setIndex` is the set index when it is below `2^31` and the set index
less `2^32`, a negative number, when it is from `2^31` to `2^32 - 1`. When the favoured channel
is at most `MAX_MESHMAPS` and not marked used, the call goes on from the state in which the
key has exactly that channel; otherwise it goes on from the unchanged state (same map, same
array, same count). -/
theorem C12_first_try_favoured (lim : MapLimits) (c : Bool) (tbl : List (Nat × Nat))
    (il : IndexList) (rest : List IndexList) (s : ChannelState) (src : Nat)
    (hsrc : mapFind il.initialIndex tbl = some src)
    (hnew : mapFind (channelKey c il.setIndex src) s.1.mSetSourcePairMapChannelMap = none) :
    favoredMapChannel c il.setIndex
      = (if c then (if il.setIndex = 1 then (0 : Int) else toInt il.setIndex)
         else (if il.setIndex = 0 then (1 : Int) else toInt il.setIndex)) ∧
    (il.setIndex < 2 ^ 31 → toInt il.setIndex = (il.setIndex : Int)) ∧
    (2 ^ 31 ≤ il.setIndex → il.setIndex < 2 ^ 32 →
      toInt il.setIndex = (il.setIndex : Int) - 2 ^ 32) ∧
    ((favoredMapChannel c il.setIndex ≤ lim.MAX_MESHMAPS ∧
        s.2 (favoredMapChannel c il.setIndex + lim.NUM_HIDDENMAPS) = false) →
      assignMapChannels lim c true tbl (il :: rest) s
        = assignMapChannels lim c true tbl rest
            (recordChannel lim s (channelKey c il.setIndex src)
              (favoredMapChannel c il.setIndex)) ∧
      mapFind (channelKey c il.setIndex src)
        (recordChannel lim s (channelKey c il.setIndex src)
          (favoredMapChannel c il.setIndex)).1.mSetSourcePairMapChannelMap
        = some (favoredMapChannel c il.setIndex)) ∧
    (¬ (favoredMapChannel c il.setIndex ≤ lim.MAX_MESHMAPS ∧
        s.2 (favoredMapChannel c il.setIndex + lim.NUM_HIDDENMAPS) = false) →
      assignMapChannels lim c true tbl (il :: rest) s
        = assignMapChannels lim c true tbl rest s) := by
  refine ⟨rfl, toInt_of_lt _, toInt_of_ge _, ?_, ?_⟩
  · rintro ⟨h1, h2⟩
    constructor
    · simp [assignMapChannels, hsrc, hnew, h1, h2]
    · simp [recordChannel, mapFind_mapInsert_new pairLt _ _ _ hnew]
  · intro h
    by_cases h1 : favoredMapChannel c il.setIndex ≤ lim.MAX_MESHMAPS
    · have h2 : s.2 (favoredMapChannel c il.setIndex + lim.NUM_HIDDENMAPS) = true := by
        cases hb : s.2 (favoredMapChannel c il.setIndex + lim.NUM_HIDDENMAPS) with
        | false => exact absurd ⟨h1, hb⟩ h
        | true => rfl
      simp [assignMapChannels, hsrc, hnew, h1, h2]
    · simp [assignMapChannels, hsrc, hnew, h1]

/-- C12, the claim as stated fails: for a UV list of set index `2^32 - 1` the favoured channel
is `-1`, not the set index, and the first try gives the key the channel `-1`. -/
theorem C12_favoured_channel_not_set_index :
    favoredMapChannel false 4294967295 = -1 ∧
    favoredMapChannel false 4294967295 ≠ ((4294967295 : Nat) : Int) ∧
    ∃ r, assignMapChannels MapLimits.sdk false true [(0, 0)] [⟨4294967295, 0, []⟩]
        (Importer.fresh 0, fun _ => false) = some r ∧
      mapFind (channelKey false 4294967295 0) r.2.1.mSetSourcePairMapChannelMap = some (-1) :=
  ⟨rfl, by decide, _, rfl, rfl⟩

/-- An instance of C12: on a fresh state the UV list of set 0 gets channel 1 and the colour
list of set 1 gets channel 0; a UV list of set 3 with only two channels is left alone. -/
theorem C12_first_try_favoured_witness :
    (assignMapChannels MapLimits.sdk false true [(0, 0)] [⟨0, 0, []⟩]
        (Importer.fresh 0, fun _ => false)).map
      (fun r => (r.2.1.mSetSourcePairMapChannelMap, r.2.1.mMapChannelCount, r.2.2 3))
      = some ([((0, 0), 1)], 1, true) ∧
    (assignMapChannels { MAX_MESHMAPS := 2, NUM_HIDDENMAPS := 2 } false true [(0, 0)]
        [⟨3, 0, []⟩] (Importer.fresh 0, fun _ => false)).map
      (fun r => (r.2.1.mSetSourcePairMapChannelMap, r.2.1.mMapChannelCount, r.2.2 5))
      = some ([], 0, false) := by
  constructor
  · rw [((C12_first_try_favoured MapLimits.sdk false [(0, 0)] ⟨0, 0, []⟩ []
      (Importer.fresh 0, fun _ => false) 0 rfl rfl).2.2.2.1 ⟨by decide, rfl⟩).1]
    rfl
  · rw [(C12_first_try_favoured { MAX_MESHMAPS := 2, NUM_HIDDENMAPS := 2 } false [(0, 0)]
      ⟨3, 0, []⟩ [] (Importer.fresh 0, fun _ => false) 0 rfl rfl).2.2.2.2 (by decide)]
    rfl

/-- The state `r` keeps what the state `s` assigned: every entry and every lookup of the map,
and a count that is not smaller. -/
theorem recordChannel_keeps (lim : MapLimits) (s : ChannelState) (key : SetSourcePair)
    (ch : Int) :
    (∀ k v, mapFind k s.1.mSetSourcePairMapChannelMap = some v →
      mapFind k (recordChannel lim s key ch).1.mSetSourcePairMapChannelMap = some v) ∧
    (∀ x, x ∈ s.1.mSetSourcePairMapChannelMap →
      x ∈ (recordChannel lim s key ch).1.mSetSourcePairMapChannelMap) ∧
    s.1.mMapChannelCount ≤ (recordChannel lim s key ch).1.mMapChannelCount := by
  refine ⟨fun k v h => mapFind_mapInsert_keeps pairLt key ch _ k v h,
    fun x h => mem_mapInsert_of_mem pairLt key ch _ x h, ?_⟩
  show s.1.mMapChannelCount ≤ if ch > s.1.mMapChannelCount then ch else s.1.mMapChannelCount
  split
  · omega
  · exact le_refl _

/-- C13. Every call of `assignMapChannels` that returns (either try, whatever flag it returns)
keeps every key with its channel: a lookup that gave a channel before the call gives the same
channel after it, every entry of the map is still an entry, and `mMapChannelCount` after the
call is at least what it was before. -/
theorem C13_assign_keeps_map (lim : MapLimits) (c f : Bool) (tbl : List (Nat × Nat)) :
    ∀ (lists : List IndexList) (s : ChannelState) (r : Bool × ChannelState),
      assignMapChannels lim c f tbl lists s = some r →
        (∀ k v, mapFind k s.1.mSetSourcePairMapChannelMap = some v →
          mapFind k r.2.1.mSetSourcePairMapChannelMap = some v) ∧
        (∀ x, x ∈ s.1.mSetSourcePairMapChannelMap → x ∈ r.2.1.mSetSourcePairMapChannelMap) ∧
        s.1.mMapChannelCount ≤ r.2.1.mMapChannelCount := by
  intro lists
  induction lists with
  | nil =>
    intro s r h
    simp only [assignMapChannels, Option.some.injEq] at h
    subst h
    exact ⟨fun _ _ h => h, fun _ h => h, le_refl _⟩
  | cons il rest ih =>
    intro s r h
    have step : ∀ key ch, assignMapChannels lim c f tbl rest (recordChannel lim s key ch) = some r →
        (∀ k v, mapFind k s.1.mSetSourcePairMapChannelMap = some v →
          mapFind k r.2.1.mSetSourcePairMapChannelMap = some v) ∧
        (∀ x, x ∈ s.1.mSetSourcePairMapChannelMap → x ∈ r.2.1.mSetSourcePairMapChannelMap) ∧
        s.1.mMapChannelCount ≤ r.2.1.mMapChannelCount := by
      intro key ch h'
      obtain ⟨a1, a2, a3⟩ := recordChannel_keeps lim s key ch
      obtain ⟨b1, b2, b3⟩ := ih _ _ h'
      exact ⟨fun k v hk => b1 k v (a1 k v hk), fun x hx => b2 x (a2 x hx), le_trans a3 b3⟩
    simp only [assignMapChannels] at h
    split at h
    · exact absurd h (by simp)
    · split at h
      · simp only [Option.some.injEq] at h
        subst h
        exact ⟨fun _ _ h => h, fun _ h => h, le_refl _⟩
      · split at h
        · split at h
          · split at h
            · exact step _ _ h
            · exact ih _ _ h
          · exact ih _ _ h
        · split at h
          · simp only [Option.some.injEq] at h
            subst h
            exact ⟨fun _ _ h => h, fun _ h => h, le_refl _⟩
          · exact step _ _ h

/-- An instance of C13: a second-try call on two UV lists with channel 1 assigned and only two
channels gives the first new key channel 2, fails on the next one, and keeps the entry
`(0, 0) ↦ 1` and a count of at least 1. -/
theorem C13_assign_keeps_map_witness :
    mapFind ((0, 0) : SetSourcePair) [(((0, 0) : SetSourcePair), (1 : Int)), ((0, 1), 2)]
      = some 1 ∧ (1 : Int) ≤ 2 :=
  have h := C13_assign_keeps_map { MAX_MESHMAPS := 2, NUM_HIDDENMAPS := 2 } false false
    [(0, 0), (3, 1), (6, 2)] [⟨0, 3, []⟩, ⟨0, 6, []⟩]
    ({ Importer.fresh 0 with
        mSetSourcePairMapChannelMap := [((0, 0), 1)], mMapChannelCount := 1 },
      fun i => decide (i = 3))
    (false, { Importer.fresh 0 with
        mSetSourcePairMapChannelMap := [((0, 0), 1), ((0, 1), 2)], mMapChannelCount := 2 },
      Function.update (fun i => decide (i = 3)) 4 true) rfl
  ⟨h.1 (0, 0) 1 rfl, h.2.2⟩

/-! ## A UV list without a channel -/

/-- C14. One `TRIANGLES` primitive with a colour list of set 2 and two UV lists of set 0, from
source 0 with the indices `(7, 8, 9)` and from source 1 with the indices `(4, 5, 6)`. The engine
assigns channel 2 to the colour key and channel 1 to the first UV key and leaves the second UV
key `(0, 1)` without channel. The UV pass looks the key up with `operator[]`: it adds the entry
`(0, 1) ↦ 0` to the map and writes `(4, 5, 6)` at face 0 of channel 0. -/
theorem C14_unassigned_uv_list_eval :
    (createSetSourcePairMapChannelMap MapLimits.sdk 0
        (FWMesh.ofSources [⟨6, 2⟩, ⟨6, 2⟩] [⟨9, 3⟩]
          [some (MeshPrimitive.withLists [0, 1, 2]
            [⟨0, 0, [7, 8, 9]⟩, ⟨0, 3, [4, 5, 6]⟩] [⟨2, 0, [0, 1, 2]⟩])])
        (Importer.fresh 1)).map
      (fun imp => imp.mSetSourcePairMapChannelMap)
      = some [((-1, 0), 2), ((0, 0), 1)] ∧
    (importTriangleMeshUVCoordsFaces MapLimits.sdk 0
        (FWMesh.ofSources [⟨6, 2⟩, ⟨6, 2⟩] [⟨9, 3⟩]
          [some (MeshPrimitive.withLists [0, 1, 2]
            [⟨0, 0, [7, 8, 9]⟩, ⟨0, 3, [4, 5, 6]⟩] [⟨2, 0, [0, 1, 2]⟩])])
        (Importer.fresh 1) (fun _ _ => none)).map
      (fun r => (r.2.1.mSetSourcePairMapChannelMap, r.2.2 0 0, r.2.2 1 0))
      = some ([((-1, 0), 2), ((0, 0), 1), ((0, 1), 0)], some (4, 5, 6), some (7, 8, 9)) := by
  constructor <;> rfl

/-- The same with channel exhaustion, for two channels only: three primitives with one UV list
of set 0 each, from three sources. The engine assigns the channels 1 and 2 and stops on the
third key; the UV pass adds the third key with channel 0 and writes its indices at face 2 of
channel 0. -/
theorem uv_pass_after_exhaustion :
    (importTriangleMeshUVCoordsFaces { MAX_MESHMAPS := 2, NUM_HIDDENMAPS := 2 } 0
        (FWMesh.ofSources [⟨6, 2⟩, ⟨6, 2⟩, ⟨6, 2⟩] []
          [some (MeshPrimitive.withLists [0, 1, 2] [⟨0, 0, [1, 1, 1]⟩] []),
           some (MeshPrimitive.withLists [0, 1, 2] [⟨0, 3, [2, 2, 2]⟩] []),
           some (MeshPrimitive.withLists [0, 1, 2] [⟨0, 6, [3, 3, 3]⟩] [])])
        (Importer.fresh 3) (fun _ _ => none)).map
      (fun r => (r.2.1.mSetSourcePairMapChannelMap, r.2.2 0 2))
      = some ([((0, 0), 1), ((0, 1), 2), ((0, 2), 0)], some (3, 3, 3)) := by
  rfl

/-! ## Edge visibility -/

/-- A strip iteration leaves the edge visibility of the face as it was. -/
theorem tristripFace_edgeVis (m : Nat) (idx : List Nat) (sw : Bool) (j : Nat) (old : Face) :
    (tristripFace m idx sw j old).edgeVis = old.edgeVis := by
  unfold tristripFace
  cases sw <;> by_cases h : m = 0 <;> simp [h, Face.setVerts, Face.setMatID]

/-- C17. The `TRIANGLE_STRIPS` case of the position pass never calls `setEdgeVisFlags`. On a
target whose faces have no visible edge, the strip `[0, 1, 2, 3]` gives two faces without any
visible edge, while the same indices as a fan and the list `[0, 1, 2]` give faces with all three
edges visible. -/
theorem C17_strip_edge_visibility_eval :
    (importTriangleMeshPositions (fun d : Nat => d)
        (FWMesh.ofPrimitives [some (MeshPrimitive.simple PrimitiveType.TRIANGLE_STRIPS
          [0, 1, 2, 3] [4])]) 2 [] (MaxMesh.blank Nat)).map
      (fun r => (r.2.1.faces 0, r.2.1.faces 1))
      = some ({ v := (0, 1, 2), matID := 0, edgeVis := (false, false, false) },
              { v := (2, 1, 3), matID := 0, edgeVis := (false, false, false) }) ∧
    (importTriangleMeshPositions (fun d : Nat => d)
        (FWMesh.ofPrimitives [some (MeshPrimitive.simple PrimitiveType.TRIANGLE_FANS
          [0, 1, 2, 3] [4])]) 2 [] (MaxMesh.blank Nat)).map
      (fun r => (r.2.1.faces 0, r.2.1.faces 1))
      = some ({ v := (0, 1, 2), matID := 0, edgeVis := (true, true, true) },
              { v := (0, 2, 3), matID := 0, edgeVis := (true, true, true) }) ∧
    (importTriangleMeshPositions (fun d : Nat => d)
        (FWMesh.ofPrimitives [some (MeshPrimitive.simple PrimitiveType.TRIANGLES
          [0, 1, 2] [])]) 1 [] (MaxMesh.blank Nat)).map
      (fun r => r.2.1.faces 0)
      = some { v := (0, 1, 2), matID := 0, edgeVis := (true, true, true) } := by
  refine ⟨?_, ?_, ?_⟩ <;> rfl

/-! ## The start position of a UV source -/

/-- The start position the loop computes is `sourceIndex` times the length of the source
`sourceIndex` itself. -/
theorem uvStartPosition_eq (inputInfos : List InputInfos) (sourceIndex : Nat) :
    uvStartPosition inputInfos sourceIndex
      = sourceIndex * (inputInfos.getD sourceIndex ⟨0, 0⟩).mLength := by
  have h : ∀ (n i acc : Nat),
      forRange (fun _ startPosition =>
        startPosition + (inputInfos.getD sourceIndex ⟨0, 0⟩).mLength) n i acc
        = acc + n * (inputInfos.getD sourceIndex ⟨0, 0⟩).mLength := by
    intro n
    induction n with
    | zero => intro i acc; simp [forRange]
    | succ n ih =>
      intro i acc
      simp only [forRange, ih]
      rw [Nat.succ_mul]
      omega
  unfold uvStartPosition
  rw [h]
  omega

/-- C20. With the UV sources of lengths 6 and 8, the start position computed for source 1 is 8
(once the length of source 1), not 6 (the length of source 0); with the lengths 6, 8 and 4 the
start position of source 2 is 8, not 14. -/
theorem C20_uv_start_position_eval :
    uvStartPosition [⟨6, 2⟩, ⟨8, 2⟩] 1 = 8 ∧
    (([⟨6, 2⟩, ⟨8, 2⟩] : List InputInfos).take 1).foldl (fun a x => a + x.mLength) 0 = 6 ∧
    uvStartPosition [⟨6, 2⟩, ⟨8, 2⟩, ⟨4, 2⟩] 2 = 8 ∧
    (([⟨6, 2⟩, ⟨8, 2⟩, ⟨4, 2⟩] : List InputInfos).take 2).foldl (fun a x => a + x.mLength) 0
      = 14 := by
  refine ⟨?_, ?_, ?_, ?_⟩ <;> rfl

/-! ## createFWMaterialIdMaxMtlIdMap -/

theorem mem_firstSeen : ∀ (l seen : List Nat) (x : Nat),
    x ∈ firstSeen seen l ↔ x ∈ seen ∨ x ∈ l := by
  intro l
  induction l with
  | nil => intro seen x; simp [firstSeen]
  | cons t rest ih =>
    intro seen x
    simp only [firstSeen]
    split
    · rename_i ht
      rw [ih]
      constructor
      · rintro (h | h)
        · exact Or.inl h
        · exact Or.inr (List.mem_cons_of_mem _ h)
      · rintro (h | h)
        · exact Or.inl h
        · rcases List.mem_cons.mp h with e | e
          · exact Or.inl (e ▸ ht)
          · exact Or.inr e
    · rw [ih]
      simp only [List.mem_append, List.mem_singleton, List.mem_cons]
      tauto

theorem length_le_firstSeen : ∀ (l seen : List Nat), seen.length ≤ (firstSeen seen l).length := by
  intro l
  induction l with
  | nil => intro seen; simp [firstSeen]
  | cons t rest ih =>
    intro seen
    simp only [firstSeen]
    split
    · exact ih seen
    · have := ih (seen ++ [t])
      simp only [List.length_append, List.length_singleton] at this
      omega

theorem numbersInOrder_isSome (seen : List Nat) (m : List (Nat × Nat))
    (h : NumbersInOrder seen m) (tag : Nat) : (mapFind tag m).isSome ↔ tag ∈ seen := by
  rw [List.mem_iff_getElem?, Option.isSome_iff_exists]
  constructor
  · rintro ⟨v, hv⟩
    obtain ⟨k, hk, _⟩ := (h tag v).mp hv
    exact ⟨k, hk⟩
  · rintro ⟨k, hk⟩
    exact ⟨k + 1, (h tag (k + 1)).mpr ⟨k, hk, rfl⟩⟩

theorem numbersInOrder_append (seen : List Nat) (m : List (Nat × Nat)) (t : Nat)
    (h : NumbersInOrder seen m) (ht : t ∉ seen) :
    NumbersInOrder (seen ++ [t]) (mapPlace natLt t (seen.length + 1) m) := by
  have hnone : mapFind t m = none := by
    cases hf : mapFind t m with
    | none => rfl
    | some v =>
      have := (numbersInOrder_isSome seen m h t).mp (by simp [hf])
      exact absurd this ht
  intro tag v
  rw [mapFind_mapPlace natLt t (seen.length + 1) m hnone tag]
  by_cases htag : tag = t
  · subst htag
    simp only [if_true, Option.some.injEq]
    constructor
    · intro hv
      exact ⟨seen.length, by simp, hv.symm⟩
    · rintro ⟨k, hk, hv⟩
      by_cases hlt : k < seen.length
      · rw [List.getElem?_append_left hlt] at hk
        exact absurd (List.mem_iff_getElem?.mpr ⟨k, hk⟩) ht
      · have hk2 : k = seen.length := by
          by_contra hne
          have hgt : (seen ++ [tag]).length ≤ k := by
            simp only [List.length_append, List.length_singleton]; omega
          rw [List.getElem?_eq_none hgt] at hk
          exact absurd hk (by simp)
        omega
  · simp only [htag, if_false]
    rw [h tag v]
    constructor
    · rintro ⟨k, hk, hv⟩
      have hlt : k < seen.length := by
        by_contra hge
        rw [List.getElem?_eq_none (not_lt.mp hge)] at hk
        exact absurd hk (by simp)
      exact ⟨k, by rw [List.getElem?_append_left hlt]; exact hk, hv⟩
    · rintro ⟨k, hk, hv⟩
      by_cases hlt : k < seen.length
      · rw [List.getElem?_append_left hlt] at hk
        exact ⟨k, hk, hv⟩
      · by_cases hk2 : k = seen.length
        · subst hk2
          simp at hk
          exact absurd hk.symm htag
        · have hgt : (seen ++ [t]).length ≤ k := by
            simp only [List.length_append, List.length_singleton]; omega
          rw [List.getElem?_eq_none hgt] at hk
          exact absurd hk (by simp)

/-- The loop of createFWMaterialIdMaxMtlIdMap on non-null primitives: from a state that numbers
the tags seen so far in order it reaches the state that numbers all tags in order, as long as
the counter does not wrap. -/
theorem createFWMaterialIdMaxMtlIdMapLoop_spec :
    ∀ (ps : List MeshPrimitive) (seen : List Nat) (mm : List (Nat × Nat)),
      NumbersInOrder seen mm →
      (firstSeen seen (ps.map (·.materialId))).length < 65536 →
      ∃ mm', createFWMaterialIdMaxMtlIdMapLoop (ps.map some) (toMtlID (seen.length + 1)) mm
          = some mm' ∧
        NumbersInOrder (firstSeen seen (ps.map (·.materialId))) mm' := by
  intro ps
  induction ps with
  | nil => intro seen mm h _; exact ⟨mm, rfl, h⟩
  | cons p rest ih =>
    intro seen mm h hlen
    simp only [List.map_cons, createFWMaterialIdMaxMtlIdMapLoop, firstSeen] at hlen ⊢
    by_cases hp : p.materialId ∈ seen
    · have hs : (mapFind p.materialId mm).isNone = false := by
        have := (numbersInOrder_isSome seen mm h p.materialId).mpr hp
        cases hf : mapFind p.materialId mm with
        | none => rw [hf] at this; exact absurd this (by simp)
        | some v => rfl
      simp only [hp, if_true] at hlen ⊢
      simp only [hs, Bool.false_eq_true, if_false]
      exact ih seen mm h hlen
    · have hs : (mapFind p.materialId mm).isNone = true := by
        cases hf : mapFind p.materialId mm with
        | none => rfl
        | some v =>
          exact absurd ((numbersInOrder_isSome seen mm h p.materialId).mp (by simp [hf])) hp
      simp only [hp, if_false] at hlen ⊢
      simp only [hs, if_true]
      have hle := length_le_firstSeen (rest.map (·.materialId)) (seen ++ [p.materialId])
      simp only [List.length_append, List.length_singleton] at hle
      have hnext : toMtlID (seen.length + 1) = seen.length + 1 := by
        unfold toMtlID; omega
      rw [hnext]
      have := ih (seen ++ [p.materialId])
        (mapPlace natLt p.materialId (seen.length + 1) mm)
        (numbersInOrder_append seen mm p.materialId h hp) hlen
      simpa only [List.length_append, List.length_singleton] using this

/-- C19. On an array of non-null primitives with fewer than 65536 distinct material tags (the
counter is a 16-bit `MtlID`), `createFWMaterialIdMaxMtlIdMap` from the empty map returns a map
whose keys are exactly the material tags of the array, that sends the tag at position `k`
(from 0) of the distinct tags in first-encounter order to `k + 1`, that is injective and whose
values are all at least 1. -/
theorem C19_material_map_numbers (ps : List MeshPrimitive)
    (hcount : (firstSeen [] (ps.map (·.materialId))).length < 65536) :
    ∃ mm, createFWMaterialIdMaxMtlIdMap (ps.map some) [] = some mm ∧
      (∀ tag, (mapFind tag mm).isSome ↔ tag ∈ ps.map (·.materialId)) ∧
      (∀ k tag, (firstSeen [] (ps.map (·.materialId)))[k]? = some tag →
        mapFind tag mm = some (k + 1)) ∧
      (∀ t1 t2 v, mapFind t1 mm = some v → mapFind t2 mm = some v → t1 = t2) ∧
      (∀ tag v, mapFind tag mm = some v → 1 ≤ v) := by
  have h0 : NumbersInOrder [] [] := by
    intro tag v
    simp [mapFind]
  obtain ⟨mm, hmm, hin⟩ := createFWMaterialIdMaxMtlIdMapLoop_spec ps [] [] h0 hcount
  refine ⟨mm, hmm, ?_, ?_, ?_, ?_⟩
  · intro tag
    rw [numbersInOrder_isSome _ _ hin, mem_firstSeen]
    simp
  · intro k tag hk
    exact (hin tag (k + 1)).mpr ⟨k, hk, rfl⟩
  · intro t1 t2 v h1 h2
    obtain ⟨k1, e1, v1⟩ := (hin t1 v).mp h1
    obtain ⟨k2, e2, v2⟩ := (hin t2 v).mp h2
    have : k1 = k2 := by omega
    subst this
    rw [e1] at e2
    exact Option.some.inj e2
  · intro tag v h
    obtain ⟨k, _, hv⟩ := (hin tag v).mp h
    omega

/-! ## Which faces a loop writes -/

theorem Cursor.within_refl {α : Type} (s : Cursor α) : Cursor.Within s s :=
  ⟨le_refl _, fun _ _ => rfl⟩

theorem Cursor.within_trans {α : Type} {a b c : Cursor α} (h1 : Cursor.Within a b)
    (h2 : Cursor.Within b c) : Cursor.Within a c := by
  refine ⟨le_trans h1.1 h2.1, fun i hi => ?_⟩
  have g1 := h1.1
  have g2 := h2.1
  rw [h2.2 i (by omega), h1.2 i (by omega)]

theorem update_within {α : Type} (s : Cursor α) (x : α) :
    Cursor.Within s (s.1 + 1, Function.update s.2 s.1 x) := by
  refine ⟨Nat.le_succ _, fun i hi => ?_⟩
  show Function.update s.2 s.1 x i = s.2 i
  have : i ≠ s.1 := by
    rcases hi with h | h
    · omega
    · have : s.1 + 1 ≤ i := h
      omega
  rw [Function.update_noteq this]

theorem forRange_within_proj {σ α : Type} (proj : σ → Cursor α) (body : Nat → σ → σ)
    (hb : ∀ i s, Cursor.Within (proj s) (proj (body i s))) :
    ∀ (n i : Nat) (s : σ), Cursor.Within (proj s) (proj (forRange body n i s)) := by
  intro n
  induction n with
  | zero => intro i s; exact Cursor.within_refl _
  | succ n ih =>
    intro i s
    simp only [forRange]
    exact Cursor.within_trans (hb i s) (ih (i + 1) (body i s))

theorem forStep_within {α : Type} (step stop : Nat) (body : Nat → Cursor α → Cursor α)
    (hb : ∀ i s, Cursor.Within s (body i s)) :
    ∀ (fuel i : Nat) (s : Cursor α), Cursor.Within s (forStep step stop body fuel i s) := by
  intro fuel
  induction fuel with
  | zero => intro i s; exact Cursor.within_refl s
  | succ fuel ih =>
    intro i s
    simp only [forStep]
    split
    · exact Cursor.within_trans (hb i s) (ih (i + step) (body i s))
    · exact Cursor.within_refl s

theorem tristripRun_within (m : Nat) (idx : List Nat) (s : Nat × FaceState) (L : Nat) :
    Cursor.Within s.2 (tristripRun m idx s L).2 := by
  unfold tristripRun
  refine forRange_within_proj (fun x : Bool × FaceState => x.2) _ ?_ _ _ (false, s.2)
  intro i x
  rw [tristripBody_eq]
  exact update_within _ _

theorem trifanRun_within (m : Nat) (idx : List Nat) (s : Nat × FaceState) (L : Nat) :
    Cursor.Within s.2 (trifanRun m idx s L).2 := by
  unfold trifanRun
  refine forRange_within_proj (fun x : FaceState => x) _ ?_ _ _ s.2
  intro i x
  exact update_within _ _

/-! ## The faces of a primitive in closed form -/

theorem getElem?_range_map {β : Type} (n t : Nat) (f : Nat → β) (x : β)
    (h : ((List.range n).map f)[t]? = some x) : t < n ∧ x = f t := by
  have hlt : t < n := by
    by_contra hge
    rw [List.getElem?_eq_none (by simpa using hge)] at h
    exact absurd h (by simp)
  refine ⟨hlt, ?_⟩
  rw [List.getElem?_map, List.getElem?_range hlt] at h
  simpa using h.symm

/-- Consecutive runs: when every run writes, from its face index on, the faces of its
triangles, the fold over the runs writes the faces of all the triangles, in order. -/
theorem foldl_run_closed {τ α : Type} (run : Nat × Cursor α → Nat → Nat × Cursor α)
    (one : Nat → Nat → List τ) (mk : τ → α → α)
    (hrun : ∀ (start fi : Nat) (faces : Nat → α) (L : Nat),
      (run (start, fi, faces) L).1 = start + L ∧
      (run (start, fi, faces) L).2.1 = fi + (one start L).length ∧
      Cursor.Within (fi, faces) (run (start, fi, faces) L).2 ∧
      ∀ t x, (one start L)[t]? = some x →
        (run (start, fi, faces) L).2.2 (fi + t) = mk x (faces (fi + t))) :
    ∀ (counts : List Nat) (start fi : Nat) (faces : Nat → α),
      (counts.foldl run (start, fi, faces)).2.1
        = fi + (runsTriangles one start counts).length ∧
      Cursor.Within (fi, faces) (counts.foldl run (start, fi, faces)).2 ∧
      ∀ t x, (runsTriangles one start counts)[t]? = some x →
        (counts.foldl run (start, fi, faces)).2.2 (fi + t) = mk x (faces (fi + t)) := by
  intro counts
  induction counts with
  | nil =>
    intro start fi faces
    refine ⟨by simp [runsTriangles], Cursor.within_refl _, ?_⟩
    intro t x h
    simp [runsTriangles] at h
  | cons L rest ih =>
    intro start fi faces
    obtain ⟨r1, r2, r3, r4⟩ := hrun start fi faces L
    generalize hs1 : run (start, fi, faces) L = s1 at r1 r2 r3 r4
    obtain ⟨a, b, fc⟩ := s1
    simp only at r1 r2 r3 r4
    subst r1 r2
    obtain ⟨i1, i2, i3⟩ := ih (start + L) (fi + (one start L).length) fc
    simp only [List.foldl_cons, hs1, runsTriangles, List.length_append]
    refine ⟨by rw [i1]; omega, Cursor.within_trans r3 i2, ?_⟩
    intro t x h
    by_cases ht : t < (one start L).length
    · rw [List.getElem?_append_left ht] at h
      rw [i2.2 (fi + t) (Or.inl (by show fi + t < fi + (one start L).length; omega))]
      exact r4 t x h
    · rw [List.getElem?_append_right (not_lt.mp ht)] at h
      have e : fi + t = fi + (one start L).length + (t - (one start L).length) := by omega
      rw [e, i3 _ x h]
      congr 1
      exact r3.2 _ (Or.inr (by show fi + (one start L).length ≤ _; omega))

theorem tristripRun_closed (m : Nat) (idx : List Nat) (start fi : Nat) (faces : Nat → Face)
    (L : Nat) :
    (tristripRun m idx (start, fi, faces) L).1 = start + L ∧
    (tristripRun m idx (start, fi, faces) L).2.1 = fi + (stripRunTriangles idx start L).length ∧
    Cursor.Within (fi, faces) (tristripRun m idx (start, fi, faces) L).2 ∧
    ∀ t x, (stripRunTriangles idx start L)[t]? = some x →
      (tristripRun m idx (start, fi, faces) L).2.2 (fi + t) = madeFace m false x (faces (fi + t)) := by
  obtain ⟨h1, h2, _, h4⟩ := tristripRun_spec m idx start fi faces L
  refine ⟨h1, by rw [h2]; simp [stripRunTriangles], tristripRun_within m idx (start, fi, faces) L, ?_⟩
  intro t x hx
  obtain ⟨ht, hx⟩ := getElem?_range_map _ _ _ _ hx
  rw [h4 t ht, hx]
  have e1 : start + 2 + t - 1 = start + t + 1 := by omega
  have e2 : start + 2 + t - 2 = start + t := by omega
  have e3 : start + 2 + t = start + t + 2 := by omega
  unfold tristripFace flagAt madeFace
  rw [e1, e2, e3]
  by_cases h : t % 2 = 0 <;> simp [h]

theorem trifanRun_closed (m : Nat) (idx : List Nat) (start fi : Nat) (faces : Nat → Face)
    (L : Nat) :
    (trifanRun m idx (start, fi, faces) L).1 = start + L ∧
    (trifanRun m idx (start, fi, faces) L).2.1 = fi + (fanRunTriangles idx start L).length ∧
    Cursor.Within (fi, faces) (trifanRun m idx (start, fi, faces) L).2 ∧
    ∀ t x, (fanRunTriangles idx start L)[t]? = some x →
      (trifanRun m idx (start, fi, faces) L).2.2 (fi + t) = madeFace m true x (faces (fi + t)) := by
  obtain ⟨h1, h2, _, h4⟩ := trifanRun_spec m idx start fi faces L
  refine ⟨h1, by rw [h2]; simp [fanRunTriangles], trifanRun_within m idx (start, fi, faces) L, ?_⟩
  intro t x hx
  obtain ⟨ht, hx⟩ := getElem?_range_map _ _ _ _ hx
  rw [h4 t ht, hx]
  have e1 : start + 2 + t - 1 = start + t + 1 := by omega
  have e3 : start + 2 + t = start + t + 2 := by omega
  unfold trifanFace madeFace
  rw [e1, e3]
  simp

theorem trianglesBody_eq (m : Nat) (idx : List Nat) (j : Nat) (s : FaceState) :
    trianglesBody m idx j s
      = (s.1 + 1, Function.update s.2 s.1
          (madeFace m true (rd idx j, rd idx (j + 1), rd idx (j + 2)) (s.2 s.1))) := by
  unfold trianglesBody madeFace
  simp

/-- The `TRIANGLES` loop from index `i` with enough iterations allowed: one face per three
indices, from the face index on. -/
theorem forStep_trianglesBody (m : Nat) (idx : List Nat) (stop : Nat) :
    ∀ (fuel i fi : Nat) (faces : Nat → Face), (stop - i + 2) / 3 ≤ fuel →
      (forStep 3 stop (trianglesBody m idx) fuel i (fi, faces)).1 = fi + (stop - i + 2) / 3 ∧
      ∀ t, t < (stop - i + 2) / 3 →
        (forStep 3 stop (trianglesBody m idx) fuel i (fi, faces)).2 (fi + t)
          = madeFace m true (rd idx (i + 3 * t), rd idx (i + 3 * t + 1), rd idx (i + 3 * t + 2))
              (faces (fi + t)) := by
  intro fuel
  induction fuel with
  | zero =>
    intro i fi faces h
    have h0 : (stop - i + 2) / 3 = 0 := by omega
    rw [h0]
    refine ⟨rfl, fun t ht => absurd ht (by omega)⟩
  | succ fuel ih =>
    intro i fi faces h
    simp only [forStep]
    by_cases hi : i < stop
    · simp only [hi, if_true, trianglesBody_eq]
      have hR : (stop - i + 2) / 3 = (stop - (i + 3) + 2) / 3 + 1 := by omega
      obtain ⟨h1, h2⟩ := ih (i + 3) (fi + 1)
        (Function.update faces fi
          (madeFace m true (rd idx i, rd idx (i + 1), rd idx (i + 2)) (faces fi))) (by omega)
      have hw := forStep_within 3 stop (trianglesBody m idx)
        (fun j x => by rw [trianglesBody_eq]; exact update_within _ _) fuel (i + 3)
        (fi + 1, Function.update faces fi
          (madeFace m true (rd idx i, rd idx (i + 1), rd idx (i + 2)) (faces fi)))
      refine ⟨by rw [h1, hR]; omega, ?_⟩
      intro t ht
      cases t with
      | zero =>
        simp only [Nat.add_zero, Nat.mul_zero]
        rw [hw.2 fi (Or.inl (by show fi < fi + 1; omega))]
        exact Function.update_same _ _ _
      | succ t =>
        have e : fi + (t + 1) = fi + 1 + t := by omega
        rw [e, h2 t (by omega), Function.update_noteq (by omega)]
        have e1 : i + 3 + 3 * t = i + 3 * (t + 1) := by omega
        rw [e1]
    · simp only [hi, if_false]
      have h0 : (stop - i + 2) / 3 = 0 := by omega
      rw [h0]
      refine ⟨rfl, fun t ht => absurd ht (by omega)⟩

/-- One primitive in the position pass: it advances the face index by the number of its
triangles, writes only the faces in between, and makes the face `t` of them out of the face
that was there and its triangle `t`. -/
theorem positionsPrimitive_closed (s : FaceState) (p : MeshPrimitive) :
    (positionsPrimitive s (some p)).1 = s.1 + (primitiveTriangles p).length ∧
    Cursor.Within s (positionsPrimitive s (some p)) ∧
    ∀ t x, (primitiveTriangles p)[t]? = some x →
      (positionsPrimitive s (some p)).2 (s.1 + t) = writtenFace p x (s.2 (s.1 + t)) := by
  obtain ⟨fi, faces⟩ := s
  unfold positionsPrimitive primitiveTriangles writtenFace
  cases hty : p.primitiveType
  case TRIANGLES =>
    simp only [hty]
    obtain ⟨h1, h2⟩ := forStep_trianglesBody (toMtlID p.materialId) p.positionIndices
      p.positionIndices.length p.positionIndices.length 0 fi faces (by omega)
    refine ⟨by rw [h1]; simp [listTriangles], ?_, ?_⟩
    · exact forStep_within 3 _ _
        (fun j x => by rw [trianglesBody_eq]; exact update_within _ _) _ _ _
    · intro t x hx
      obtain ⟨ht, hx⟩ := getElem?_range_map _ _ _ _ hx
      rw [h2 t (by simpa using ht), hx]
      simp
  case TRIANGLE_STRIPS =>
    simp only [hty]
    obtain ⟨h1, h2, h3⟩ := foldl_run_closed (tristripRun (toMtlID p.materialId) p.positionIndices)
      (stripRunTriangles p.positionIndices) (madeFace (toMtlID p.materialId) false)
      (tristripRun_closed _ _) p.groupedVerticesVertexCountArray 0 fi faces
    exact ⟨h1, h2, fun t x hx => by rw [h3 t x hx]; simp⟩
  case TRIANGLE_FANS =>
    simp only [hty]
    obtain ⟨h1, h2, h3⟩ := foldl_run_closed (trifanRun (toMtlID p.materialId) p.positionIndices)
      (fanRunTriangles p.positionIndices) (madeFace (toMtlID p.materialId) true)
      (trifanRun_closed _ _) p.groupedVerticesVertexCountArray 0 fi faces
    exact ⟨h1, h2, fun t x hx => by rw [h3 t x hx]; simp⟩
  all_goals
    simp only [hty]
    exact ⟨by simp, Cursor.within_refl _, fun t x hx => by simp at hx⟩

/-! ## The faces of the position pass in closed form -/

theorem foldl_positionsPrimitive_closed :
    ∀ (prims : List (Option MeshPrimitive)) (s : FaceState),
      (prims.foldl positionsPrimitive s).1 = s.1 + (prims.map primitiveFaceCount).sum ∧
      Cursor.Within s (prims.foldl positionsPrimitive s) := by
  intro prims
  induction prims with
  | nil => intro s; exact ⟨by simp, Cursor.within_refl s⟩
  | cons q rest ih =>
    intro s
    obtain ⟨h1, h2⟩ := ih (positionsPrimitive s q)
    simp only [List.foldl_cons, List.map_cons, List.sum_cons]
    cases q with
    | none =>
      refine ⟨?_, h2⟩
      rw [h1]
      simp [positionsPrimitive, primitiveFaceCount]
    | some p =>
      obtain ⟨c1, c2, _⟩ := positionsPrimitive_closed s p
      refine ⟨?_, Cursor.within_trans c2 h2⟩
      rw [h1, c1]
      simp only [primitiveFaceCount]
      omega

/-- The position pass on a mesh without null primitive: it returns, it ends with the face
index at the number of triangles of all primitives, it leaves the faces from there on alone,
and face `t` of a primitive `p`, counted from the number of triangles of the primitives before
`p`, is made of the face that `setNumFaces` handed out there and of triangle `t` of `p`. -/
theorem positionPass_closed {F D : Type} [Inhabited F] [Inhabited D] (narrow : D → F)
    (mesh : FWMesh F D) (total : Nat) (materialMap : List (Nat × Nat)) (triangleMesh : MaxMesh F)
    (hnull : ∀ q ∈ mesh.meshPrimitives, q ≠ none) :
    ∃ r, importTriangleMeshPositions narrow mesh total materialMap triangleMesh = some r ∧
      (mesh.meshPrimitives.foldl positionsPrimitive (0, triangleMesh.newFaces)).1
        = (mesh.meshPrimitives.map primitiveFaceCount).sum ∧
      (∀ i, (mesh.meshPrimitives.map primitiveFaceCount).sum ≤ i →
        r.2.1.faces i = triangleMesh.newFaces i) ∧
      ∀ pre p post, mesh.meshPrimitives = pre ++ some p :: post →
        (pre.foldl positionsPrimitive (0, triangleMesh.newFaces)).1
          = (pre.map primitiveFaceCount).sum ∧
        ∀ t x, (primitiveTriangles p)[t]? = some x →
          r.2.1.faces ((pre.map primitiveFaceCount).sum + t)
            = writtenFace p x (triangleMesh.newFaces ((pre.map primitiveFaceCount).sum + t)) := by
  obtain ⟨mm, hmm⟩ := importTriangleMeshPositions_eq narrow mesh total materialMap triangleMesh hnull
  obtain ⟨a1, a2⟩ := foldl_positionsPrimitive_closed mesh.meshPrimitives (0, triangleMesh.newFaces)
  refine ⟨_, hmm, by rw [a1]; omega, ?_, ?_⟩
  · intro i hi
    show (mesh.meshPrimitives.foldl positionsPrimitive (0, triangleMesh.newFaces)).2 i = _
    exact a2.2 i (Or.inr (by rw [a1]; omega))
  · intro pre p post hprims
    obtain ⟨b1, b2⟩ := foldl_positionsPrimitive_closed pre (0, triangleMesh.newFaces)
    have hstart : (pre.foldl positionsPrimitive (0, triangleMesh.newFaces)).1
        = (pre.map primitiveFaceCount).sum := by rw [b1]; omega
    refine ⟨hstart, ?_⟩
    intro t x hx
    have ht : t < (primitiveTriangles p).length := by
      by_contra hge
      rw [List.getElem?_eq_none (not_lt.mp hge)] at hx
      exact absurd hx (by simp)
    obtain ⟨c1, _, c3⟩ := positionsPrimitive_closed
      (pre.foldl positionsPrimitive (0, triangleMesh.newFaces)) p
    obtain ⟨_, d2⟩ := foldl_positionsPrimitive_closed post
      (positionsPrimitive (pre.foldl positionsPrimitive (0, triangleMesh.newFaces)) (some p))
    show (mesh.meshPrimitives.foldl positionsPrimitive (0, triangleMesh.newFaces)).2 _ = _
    rw [hprims, List.foldl_append, List.foldl_cons,
      d2.2 _ (Or.inl (by rw [c1, hstart]; omega)), ← hstart, c3 t x hx]
    congr 1
    exact b2.2 _ (Or.inr (le_trans (le_refl _) (Nat.le_add_right _ _)))

theorem length_runsTriangles {τ : Type} (one : Nat → Nat → List τ)
    (hone : ∀ start L, (one start L).length = L - 2) :
    ∀ (counts : List Nat) (start : Nat),
      (runsTriangles one start counts).length = (counts.map (· - 2)).sum := by
  intro counts
  induction counts with
  | nil => intro start; simp [runsTriangles]
  | cons L rest ih =>
    intro start
    simp [runsTriangles, hone, ih]

/-- The number of triangles of a primitive is its decomposed-triangle count when the index
count of a triangle list is a multiple of 3. -/
theorem length_primitiveTriangles (p : MeshPrimitive)
    (h : p.primitiveType = PrimitiveType.TRIANGLES → p.positionIndices.length % 3 = 0) :
    (primitiveTriangles p).length = decomposedTriangleCount p := by
  unfold primitiveTriangles decomposedTriangleCount
  cases hty : p.primitiveType
  case TRIANGLES =>
    have := h hty
    simp only [listTriangles, List.length_map, List.length_range]
    omega
  case TRIANGLE_STRIPS =>
    exact length_runsTriangles _ (fun s L => by simp [stripRunTriangles]) _ _
  case TRIANGLE_FANS =>
    exact length_runsTriangles _ (fun s L => by simp [fanRunTriangles]) _ _
  all_goals rfl

theorem sum_primitiveFaceCount (prims : List (Option MeshPrimitive))
    (h : ∀ p, some p ∈ prims → p.primitiveType = PrimitiveType.TRIANGLES →
      p.positionIndices.length % 3 = 0) :
    (prims.map primitiveFaceCount).sum = triangleCountSum prims := by
  unfold triangleCountSum
  induction prims with
  | nil => rfl
  | cons q rest ih =>
    simp only [List.map_cons, List.sum_cons]
    rw [ih (fun p hp => h p (List.mem_cons_of_mem _ hp))]
    cases q with
    | none => rfl
    | some p =>
      simp only [primitiveFaceCount, length_primitiveTriangles p (h p (List.mem_cons_self _ _))]

/-- C16. On a mesh without null primitive whose triangle lists have a multiple of 3 indices,
the position pass returns and writes the faces `0, 1, 2, ...` in primitive order: it ends with
the face index at the sum of the decomposed-triangle counts (a third of the indices of a list,
`L - 2` for every strip or fan run) and leaves every face from there on alone; every primitive
has as many triangles as its decomposed-triangle count, starts at the sum of the counts of the
primitives before it, and its triangle `t` gives the corners of the face at that sum plus
`t`. -/
theorem C16_position_pass_face_ranges {F D : Type} [Inhabited F] [Inhabited D] (narrow : D → F)
    (mesh : FWMesh F D) (total : Nat) (materialMap : List (Nat × Nat)) (triangleMesh : MaxMesh F)
    (hnull : ∀ q ∈ mesh.meshPrimitives, q ≠ none)
    (hlist : ∀ p, some p ∈ mesh.meshPrimitives → p.primitiveType = PrimitiveType.TRIANGLES →
      p.positionIndices.length % 3 = 0) :
    ∃ r, importTriangleMeshPositions narrow mesh total materialMap triangleMesh = some r ∧
      (mesh.meshPrimitives.foldl positionsPrimitive (0, triangleMesh.newFaces)).1
        = triangleCountSum mesh.meshPrimitives ∧
      (∀ i, triangleCountSum mesh.meshPrimitives ≤ i → r.2.1.faces i = triangleMesh.newFaces i) ∧
      ∀ pre p post, mesh.meshPrimitives = pre ++ some p :: post →
        (primitiveTriangles p).length = decomposedTriangleCount p ∧
        (pre.foldl positionsPrimitive (0, triangleMesh.newFaces)).1 = triangleCountSum pre ∧
        triangleCountSum (pre ++ [some p]) = triangleCountSum pre + decomposedTriangleCount p ∧
        ∀ t x, (primitiveTriangles p)[t]? = some x →
          (r.2.1.faces (triangleCountSum pre + t)).v = x := by
  obtain ⟨r, h1, h2, h3, h4⟩ := positionPass_closed narrow mesh total materialMap triangleMesh hnull
  have hall := sum_primitiveFaceCount mesh.meshPrimitives hlist
  refine ⟨r, h1, by rw [h2, hall], fun i hi => h3 i (by rw [hall]; exact hi), ?_⟩
  intro pre p post hprims
  have hp : some p ∈ mesh.meshPrimitives := by rw [hprims]; simp
  have hpre := sum_primitiveFaceCount pre
    (fun q hq => hlist q (by rw [hprims]; exact List.mem_append_left _ hq))
  obtain ⟨g1, g2⟩ := h4 pre p post hprims
  refine ⟨length_primitiveTriangles p (hlist p hp), by rw [g1, hpre], ?_, ?_⟩
  · simp [triangleCountSum]
  · intro t x hx
    rw [← hpre, g2 t x hx]
    rfl

/-- An instance of C16: a list of two triangles, then a strip with the runs of length 4 and 3,
then a fan with one run of length 4. The faces 0 to 6 are, in this order, the two list
triangles, the three strip triangles and the two fan triangles. -/
theorem C16_position_pass_face_ranges_witness :
    (importTriangleMeshPositions (fun d : Nat => d)
        (FWMesh.ofPrimitives
          [some (MeshPrimitive.simple PrimitiveType.TRIANGLES [0, 1, 2, 2, 1, 3] []),
           some (MeshPrimitive.simple PrimitiveType.TRIANGLE_STRIPS
             [10, 11, 12, 13, 20, 21, 22] [4, 3]),
           some (MeshPrimitive.simple PrimitiveType.TRIANGLE_FANS [30, 31, 32, 33] [4])])
        7 [] (MaxMesh.blank Nat)).map
      (fun r => ((r.2.1.faces 2).v, (r.2.1.faces 3).v, (r.2.1.faces 4).v, r.2.1.faces 7))
      = some ((10, 11, 12), (12, 11, 13), (20, 21, 22), Face.blank) := by
  obtain ⟨r, h1, _, h3, h4⟩ := C16_position_pass_face_ranges (fun d : Nat => d)
    (FWMesh.ofPrimitives
      [some (MeshPrimitive.simple PrimitiveType.TRIANGLES [0, 1, 2, 2, 1, 3] []),
       some (MeshPrimitive.simple PrimitiveType.TRIANGLE_STRIPS
         [10, 11, 12, 13, 20, 21, 22] [4, 3]),
       some (MeshPrimitive.simple PrimitiveType.TRIANGLE_FANS [30, 31, 32, 33] [4])])
    7 [] (MaxMesh.blank Nat) (by simp [FWMesh.ofPrimitives]) (by
      intro p hp hty
      simp only [FWMesh.ofPrimitives, List.mem_cons, Option.some.injEq, List.mem_singleton,
        List.not_mem_nil, or_false] at hp
      rcases hp with e | e | e <;> subst e <;> first | rfl | exact absurd hty (by decide))
  obtain ⟨_, _, _, g⟩ := h4
    [some (MeshPrimitive.simple PrimitiveType.TRIANGLES [0, 1, 2, 2, 1, 3] [])]
    (MeshPrimitive.simple PrimitiveType.TRIANGLE_STRIPS [10, 11, 12, 13, 20, 21, 22] [4, 3])
    [some (MeshPrimitive.simple PrimitiveType.TRIANGLE_FANS [30, 31, 32, 33] [4])] rfl
  have f2 := g 0 (10, 11, 12) rfl
  have f3 := g 1 (12, 11, 13) rfl
  have f4 := g 2 (20, 21, 22) rfl
  have f7 := h3 7 (by decide)
  rw [h1]
  exact congrArg some (Prod.ext f2 (Prod.ext f3 (Prod.ext f4 f7)))

theorem madeFace_matID (m : Nat) (edges : Bool) (tri : Nat × Nat × Nat) (old : Face) :
    (madeFace m edges tri old).matID = if m ≠ 0 then m else old.matID := by
  unfold madeFace
  by_cases h : m = 0 <;> cases edges <;>
    simp [h, Face.setVerts, Face.setMatID, Face.setEdgeVisFlags]

/-- C18 (as the code has it). On a mesh without null primitive, take a primitive `p` with the
material tag `m`; the pass casts the tag to the 16-bit `MtlID`, which leaves a tag below 65536
as it is. Every face that `p` produces, that is every face from the face index at which `p`
starts up to the face index at which it ends, has the material tag `(MtlID) m` when that is
not 0, and otherwise the material tag of the face as `setNumFaces` handed it out, which the
pass never sets. This holds for every primitive of the mesh with its own tag, so no face of
another primitive depends on `m`. -/
theorem C18_material_tag {F D : Type} [Inhabited F] [Inhabited D] (narrow : D → F)
    (mesh : FWMesh F D) (total : Nat) (materialMap : List (Nat × Nat)) (triangleMesh : MaxMesh F)
    (pre post : List (Option MeshPrimitive)) (p : MeshPrimitive)
    (hnull : ∀ q ∈ mesh.meshPrimitives, q ≠ none)
    (hprims : mesh.meshPrimitives = pre ++ some p :: post) :
    ∃ r, importTriangleMeshPositions narrow mesh total materialMap triangleMesh = some r ∧
      (∀ i, (pre.foldl positionsPrimitive (0, triangleMesh.newFaces)).1 ≤ i →
        i < (positionsPrimitive (pre.foldl positionsPrimitive (0, triangleMesh.newFaces))
          (some p)).1 →
        (r.2.1.faces i).matID
          = if toMtlID p.materialId ≠ 0 then toMtlID p.materialId
            else (triangleMesh.newFaces i).matID) ∧
      (p.materialId < 65536 → toMtlID p.materialId = p.materialId) := by
  obtain ⟨r, h1, _, _, h4⟩ := positionPass_closed narrow mesh total materialMap triangleMesh hnull
  obtain ⟨g1, g2⟩ := h4 pre p post hprims
  obtain ⟨c1, _, _⟩ := positionsPrimitive_closed
    (pre.foldl positionsPrimitive (0, triangleMesh.newFaces)) p
  refine ⟨r, h1, ?_, fun hm => by unfold toMtlID; omega⟩
  intro i hlo hhi
  rw [c1, g1] at hhi
  rw [g1] at hlo
  have ht : i - (pre.map primitiveFaceCount).sum < (primitiveTriangles p).length := by omega
  have hx := List.getElem?_eq_getElem ht
  have e : i = (pre.map primitiveFaceCount).sum + (i - (pre.map primitiveFaceCount).sum) := by
    omega
  rw [e, g2 _ _ hx, ← e]
  unfold writtenFace
  rw [madeFace_matID]

/-- C18, the claim as stated fails: a strip with the material tag 65541 gives its face the
tag 5, the tag cast to the 16 bits of `MtlID`, not 65541; and a strip with the tag 65536,
which is not 0, leaves the tag of its face as it was handed out. -/
theorem C18_tag_cast_to_16_bits :
    (∃ r, importTriangleMeshPositions (fun d : Nat => d)
        (FWMesh.ofPrimitives
          [some { MeshPrimitive.simple PrimitiveType.TRIANGLE_STRIPS [0, 1, 2] [3] with
                  materialId := 65541 }]) 1 [] (MaxMesh.blank Nat) = some r ∧
      (r.2.1.faces 0).matID = 5 ∧ (r.2.1.faces 0).matID ≠ 65541) ∧
    (∃ r, importTriangleMeshPositions (fun d : Nat => d)
        (FWMesh.ofPrimitives
          [some { MeshPrimitive.simple PrimitiveType.TRIANGLE_STRIPS [0, 1, 2] [3] with
                  materialId := 65536 }]) 1 []
        { MaxMesh.blank Nat with
          newFaces := fun _ => { v := (0, 0, 0), matID := 9, edgeVis := (false, false, false) } }
        = some r ∧
      (r.2.1.faces 0).matID = 9 ∧ (r.2.1.faces 0).matID ≠ 65536) :=
  ⟨⟨_, rfl, rfl, by decide⟩, ⟨_, rfl, rfl, by decide⟩⟩

/-- An instance of C18: a strip with the tag 7 followed by a fan with the tag 0, on a target
whose new faces carry the tag 0: the strip faces 0 and 1 get the tag 7, the fan face 2 keeps
the tag 0. -/
theorem C18_material_tag_witness :
    (importTriangleMeshPositions (fun d : Nat => d)
        (FWMesh.ofPrimitives
          [some { MeshPrimitive.simple PrimitiveType.TRIANGLE_STRIPS [0, 1, 2, 3] [4] with
                  materialId := 7 },
           some (MeshPrimitive.simple PrimitiveType.TRIANGLE_FANS [0, 1, 2] [3])])
        3 [] (MaxMesh.blank Nat)).map
      (fun r => ((r.2.1.faces 0).matID, (r.2.1.faces 1).matID, (r.2.1.faces 2).matID))
      = some (7, 7, 0) := by
  obtain ⟨r, h1, h2, _⟩ := C18_material_tag (fun d : Nat => d)
    (FWMesh.ofPrimitives
      [some { MeshPrimitive.simple PrimitiveType.TRIANGLE_STRIPS [0, 1, 2, 3] [4] with
              materialId := 7 },
       some (MeshPrimitive.simple PrimitiveType.TRIANGLE_FANS [0, 1, 2] [3])])
    3 [] (MaxMesh.blank Nat) []
    [some (MeshPrimitive.simple PrimitiveType.TRIANGLE_FANS [0, 1, 2] [3])]
    { MeshPrimitive.simple PrimitiveType.TRIANGLE_STRIPS [0, 1, 2, 3] [4] with materialId := 7 }
    (by simp [FWMesh.ofPrimitives]) rfl
  obtain ⟨r', h1', h2', _⟩ := C18_material_tag (fun d : Nat => d)
    (FWMesh.ofPrimitives
      [some { MeshPrimitive.simple PrimitiveType.TRIANGLE_STRIPS [0, 1, 2, 3] [4] with
              materialId := 7 },
       some (MeshPrimitive.simple PrimitiveType.TRIANGLE_FANS [0, 1, 2] [3])])
    3 [] (MaxMesh.blank Nat)
    [some { MeshPrimitive.simple PrimitiveType.TRIANGLE_STRIPS [0, 1, 2, 3] [4] with
            materialId := 7 }] []
    (MeshPrimitive.simple PrimitiveType.TRIANGLE_FANS [0, 1, 2] [3])
    (by simp [FWMesh.ofPrimitives]) rfl
  have hr : r' = r := by
    rw [h1] at h1'
    exact (Option.some.inj h1').symm
  subst hr
  have f0 := h2 0 (by decide) (by decide)
  have f1 := h2 1 (by decide) (by decide)
  have f2 := h2' 2 (by decide) (by decide)
  rw [h1]
  exact congrArg some (Prod.ext f0 (Prod.ext f1 f2))

/-- An instance of C19: the tags 5, 3, 5, 7 are numbered 5 ↦ 1, 3 ↦ 2, 7 ↦ 3. -/
theorem C19_material_map_numbers_witness :
    (createFWMaterialIdMaxMtlIdMap
        ([{ MeshPrimitive.simple PrimitiveType.TRIANGLES [] [] with materialId := 5 },
          { MeshPrimitive.simple PrimitiveType.TRIANGLES [] [] with materialId := 3 },
          { MeshPrimitive.simple PrimitiveType.TRIANGLES [] [] with materialId := 5 },
          { MeshPrimitive.simple PrimitiveType.TRIANGLES [] [] with materialId := 7 }].map some)
        []).map (fun mm => (mapFind 5 mm, mapFind 3 mm, mapFind 7 mm, mapFind 4 mm))
      = some (some 1, some 2, some 3, none) := by
  obtain ⟨mm, h, hdom, hk, _, _⟩ := C19_material_map_numbers
    [{ MeshPrimitive.simple PrimitiveType.TRIANGLES [] [] with materialId := 5 },
     { MeshPrimitive.simple PrimitiveType.TRIANGLES [] [] with materialId := 3 },
     { MeshPrimitive.simple PrimitiveType.TRIANGLES [] [] with materialId := 5 },
     { MeshPrimitive.simple PrimitiveType.TRIANGLES [] [] with materialId := 7 }] (by decide)
  have f5 := hk 0 5 rfl
  have f3 := hk 1 3 rfl
  have f7 := hk 2 7 rfl
  have f4 : mapFind 4 mm = none := by
    cases hf : mapFind 4 mm with
    | none => rfl
    | some v =>
      have := (hdom 4).mp (by simp [hf])
      exact absurd this (by decide)
  rw [h]
  exact congrArg some (Prod.ext f5 (Prod.ext f3 (Prod.ext f7 f4)))

/-! ## The passes of importTriangleMesh -/

/-- The function `importTriangleMesh` never writes a `tf` array of a map channel: the map faces
of the object it returns are the ones of the new object. -/
theorem importTriangleMesh_mapFaces {F D : Type} [Inhabited F] [Inhabited D] (narrow : D → F)
    (normalize : Point3 F → Point3 F) (checkNormals : MeshNormalSpec F → MeshNormalSpec F)
    (mesh : FWMesh F D) (total : Nat) (materialMap : List (Nat × Nat))
    (triangleObject : TriObject F) (r : Bool × TriObject F × List (Nat × Nat))
    (h : importTriangleMesh narrow normalize checkNormals mesh total materialMap triangleObject
      = some r) :
    r.2.1.mapFaces = triangleObject.mapFaces := by
  unfold importTriangleMesh at h
  split at h
  · exact absurd h (by simp)
  · simp only [Option.some.injEq] at h; subst h; rfl
  · split at h
    · exact absurd h (by simp)
    · simp only [Option.some.injEq] at h; subst h; rfl
    · simp only [Option.some.injEq] at h; subst h; rfl

/-- C15. A mesh with one `TRIANGLES` primitive `(0, 1, 2)` that carries a colour list of set 2
and a UV list `(7, 8, 9)` of set 0. `importTriangleMesh` runs the position pass and the normal
pass and returns `true` with the face `(0, 1, 2)`: it does not call
`importTriangleMeshUVCoords`, so face 0 of map channel 1 of the returned object is unwritten,
while the UV pass on the same mesh writes `(7, 8, 9)` there. -/
theorem C15_no_uv_pass_eval :
    (importTriangleMesh (fun d : Nat => d) (fun n => n) (fun s => s)
        (FWMesh.ofSources [⟨6, 2⟩] [⟨9, 3⟩]
          [some (MeshPrimitive.withLists [0, 1, 2] [⟨0, 0, [7, 8, 9]⟩] [⟨2, 0, [0, 1, 2]⟩])])
        1 [] (TriObject.blank Nat)).map
      (fun r => (r.1, (r.2.1.mesh.faces 0).v, r.2.1.mapFaces 1 0))
      = some (true, (0, 1, 2), none) ∧
    (importTriangleMeshUVCoordsFaces MapLimits.sdk 0
        (FWMesh.ofSources [⟨6, 2⟩] [⟨9, 3⟩]
          [some (MeshPrimitive.withLists [0, 1, 2] [⟨0, 0, [7, 8, 9]⟩] [⟨2, 0, [0, 1, 2]⟩])])
        (Importer.fresh 1) (TriObject.blank Nat).mapFaces).map
      (fun r => r.2.2 1 0)
      = some (some (7, 8, 9)) := by
  constructor <;> rfl

/-! ## The translation tables -/

theorem recordChannel_tables (lim : MapLimits) (s : ChannelState) (key : SetSourcePair) (ch : Int) :
    (recordChannel lim s key ch).1.mColorInitialIndexSourceIndexMap
        = s.1.mColorInitialIndexSourceIndexMap ∧
      (recordChannel lim s key ch).1.mColorSourceIndexInitialIndexMap
        = s.1.mColorSourceIndexInitialIndexMap ∧
      (recordChannel lim s key ch).1.mUVInitialIndexSourceIndexMap
        = s.1.mUVInitialIndexSourceIndexMap ∧
      (recordChannel lim s key ch).1.mUVSourceIndexInitialIndexMap
        = s.1.mUVSourceIndexInitialIndexMap :=
  ⟨rfl, rfl, rfl, rfl⟩

/-- The four translation tables of two importers are the same. -/
theorem assignMapChannels_tables (lim : MapLimits) (c f : Bool) (tbl : List (Nat × Nat)) :
    ∀ (lists : List IndexList) (s : ChannelState) (r : Bool × ChannelState),
      assignMapChannels lim c f tbl lists s = some r →
        r.2.1.mColorInitialIndexSourceIndexMap = s.1.mColorInitialIndexSourceIndexMap ∧
        r.2.1.mColorSourceIndexInitialIndexMap = s.1.mColorSourceIndexInitialIndexMap ∧
        r.2.1.mUVInitialIndexSourceIndexMap = s.1.mUVInitialIndexSourceIndexMap ∧
        r.2.1.mUVSourceIndexInitialIndexMap = s.1.mUVSourceIndexInitialIndexMap := by
  intro lists
  induction lists with
  | nil =>
    intro s r h
    simp only [assignMapChannels, Option.some.injEq] at h
    subst h
    exact ⟨rfl, rfl, rfl, rfl⟩
  | cons il rest ih =>
    intro s r h
    simp only [assignMapChannels] at h
    split at h
    · exact absurd h (by simp)
    · split at h
      · simp only [Option.some.injEq] at h
        subst h
        exact ⟨rfl, rfl, rfl, rfl⟩
      · split at h
        · split at h
          · split at h
            · have t := ih _ _ h
              exact t
            · exact ih _ _ h
          · exact ih _ _ h
        · split at h
          · simp only [Option.some.injEq] at h
            subst h
            exact ⟨rfl, rfl, rfl, rfl⟩
          · have t := ih _ _ h
            exact t

theorem firstTry_tables (lim : MapLimits) :
    ∀ (prims : List (Option MeshPrimitive)) (s r : ChannelState),
      firstTry lim prims s = some r →
        r.1.mColorInitialIndexSourceIndexMap = s.1.mColorInitialIndexSourceIndexMap ∧
        r.1.mColorSourceIndexInitialIndexMap = s.1.mColorSourceIndexInitialIndexMap ∧
        r.1.mUVInitialIndexSourceIndexMap = s.1.mUVInitialIndexSourceIndexMap ∧
        r.1.mUVSourceIndexInitialIndexMap = s.1.mUVSourceIndexInitialIndexMap := by
  intro prims
  induction prims with
  | nil =>
    intro s r h
    simp only [firstTry, Option.some.injEq] at h
    subst h
    exact ⟨rfl, rfl, rfl, rfl⟩
  | cons q rest ih =>
    intro s r h
    cases q with
    | none => simp [firstTry] at h
    | some p =>
      simp only [firstTry] at h
      split at h
      · exact absurd h (by simp)
      · rename_i r1 h1
        split at h
        · exact absurd h (by simp)
        · rename_i r2 h2
          obtain ⟨a1, a2, a3, a4⟩ := assignMapChannels_tables lim _ _ _ _ _ _ h1
          obtain ⟨b1, b2, b3, b4⟩ := assignMapChannels_tables lim _ _ _ _ _ _ h2
          obtain ⟨c1, c2, c3, c4⟩ := ih _ _ h
          exact ⟨c1.trans (b1.trans a1), c2.trans (b2.trans a2), c3.trans (b3.trans a3),
            c4.trans (b4.trans a4)⟩

theorem secondTry_tables (lim : MapLimits) :
    ∀ (prims : List (Option MeshPrimitive)) (s r : ChannelState),
      secondTry lim prims s = some r →
        r.1.mColorInitialIndexSourceIndexMap = s.1.mColorInitialIndexSourceIndexMap ∧
        r.1.mColorSourceIndexInitialIndexMap = s.1.mColorSourceIndexInitialIndexMap ∧
        r.1.mUVInitialIndexSourceIndexMap = s.1.mUVInitialIndexSourceIndexMap ∧
        r.1.mUVSourceIndexInitialIndexMap = s.1.mUVSourceIndexInitialIndexMap := by
  intro prims
  induction prims with
  | nil =>
    intro s r h
    simp only [secondTry, Option.some.injEq] at h
    subst h
    exact ⟨rfl, rfl, rfl, rfl⟩
  | cons q rest ih =>
    intro s r h
    cases q with
    | none => simp [secondTry] at h
    | some p =>
      simp only [secondTry] at h
      split at h
      · exact absurd h (by simp)
      · rename_i s1 h1
        simp only [Option.some.injEq] at h
        subst h
        exact assignMapChannels_tables lim _ _ _ _ _ _ h1
      · rename_i s1 h1
        obtain ⟨a1, a2, a3, a4⟩ := assignMapChannels_tables lim _ _ _ _ _ _ h1
        split at h
        · exact absurd h (by simp)
        · rename_i s2 h2
          simp only [Option.some.injEq] at h
          subst h
          obtain ⟨b1, b2, b3, b4⟩ := assignMapChannels_tables lim _ _ _ _ _ _ h2
          exact ⟨b1.trans a1, b2.trans a2, b3.trans a3, b4.trans a4⟩
        · rename_i s2 h2
          obtain ⟨b1, b2, b3, b4⟩ := assignMapChannels_tables lim _ _ _ _ _ _ h2
          obtain ⟨c1, c2, c3, c4⟩ := ih _ _ h
          exact ⟨c1.trans (b1.trans a1), c2.trans (b2.trans a2), c3.trans (b3.trans a3),
            c4.trans (b4.trans a4)⟩

/-- The tables of the importer after the engine are the ones the two table loops build. -/
theorem createSetSourcePairMapChannelMap_tables {F D : Type} (lim : MapLimits)
    (uVInitialIndex : Nat) (mesh : FWMesh F D) (imp imp' : Importer)
    (h : createSetSourcePairMapChannelMap lim uVInitialIndex mesh imp = some imp') :
    ∃ ct ut,
      initialIndexLoop mesh.colorInputInfos 0
        (0, imp.mColorInitialIndexSourceIndexMap, imp.mColorSourceIndexInitialIndexMap)
        = some ct ∧
      initialIndexLoop mesh.uvInputInfos 0
        (uVInitialIndex, imp.mUVInitialIndexSourceIndexMap, imp.mUVSourceIndexInitialIndexMap)
        = some ut ∧
      imp'.mColorInitialIndexSourceIndexMap = ct.2.1 ∧
      imp'.mColorSourceIndexInitialIndexMap = ct.2.2 ∧
      imp'.mUVInitialIndexSourceIndexMap = ut.2.1 ∧
      imp'.mUVSourceIndexInitialIndexMap = ut.2.2 := by
  unfold createSetSourcePairMapChannelMap at h
  split at h
  · exact absurd h (by simp)
  · rename_i ct hct
    split at h
    · exact absurd h (by simp)
    · rename_i ut hut
      simp only at h
      split at h
      · exact absurd h (by simp)
      · rename_i s1 h1
        split at h
        · exact absurd h (by simp)
        · rename_i s2 h2
          simp only [Option.some.injEq] at h
          subst h
          obtain ⟨a1, a2, a3, a4⟩ := firstTry_tables lim _ _ _ h1
          obtain ⟨b1, b2, b3, b4⟩ := secondTry_tables lim _ _ _ h2
          exact ⟨ct, ut, hct, hut, b1.trans a1, b2.trans a2, b3.trans a3, b4.trans a4⟩

/-- The table loop from source index `i`: the table from source index to initial index gets, for
the source `i + j`, the running initial index plus the element counts of the `j` sources before
it, and keeps what it had. -/
theorem initialIndexLoop_sourceTable :
    ∀ (infos : List InputInfos) (i : Nat) (s r : TableState),
      initialIndexLoop infos i s = some r →
      (∀ k, i ≤ k → mapFind k s.2.2 = none) →
      (∀ j, j < infos.length →
        mapFind (i + j) r.2.2
          = some (s.1 + ((infos.take j).map (fun x => x.mLength / x.mStride)).sum)) ∧
      (∀ k v, mapFind k s.2.2 = some v → mapFind k r.2.2 = some v) := by
  intro infos
  induction infos with
  | nil =>
    intro i s r h _
    simp only [initialIndexLoop, Option.some.injEq] at h
    subst h
    exact ⟨fun j hj => absurd hj (by simp), fun _ _ h => h⟩
  | cons ii rest ih =>
    intro i s r h hnone
    simp only [initialIndexLoop] at h
    split at h
    · exact absurd h (by simp)
    · have hi : mapFind i s.2.2 = none := hnone i (le_refl _)
      obtain ⟨h1, h2⟩ := ih (i + 1) _ r h (by
        intro k hk
        show mapFind k (mapInsert natLt i s.1 s.2.2) = none
        rw [mapFind_mapInsert_new natLt i s.1 s.2.2 hi k]
        have : k ≠ i := by omega
        simp only [this, if_false]
        exact hnone k (by omega))
      have hkeep : ∀ k v, mapFind k s.2.2 = some v → mapFind k r.2.2 = some v := by
        intro k v hk
        exact h2 k v (mapFind_mapInsert_keeps natLt i s.1 s.2.2 k v hk)
      refine ⟨?_, hkeep⟩
      intro j hj
      cases j with
      | zero =>
        simp only [Nat.add_zero, List.take_zero, List.map_nil, List.sum_nil]
        apply h2
        show mapFind i (mapInsert natLt i s.1 s.2.2) = some s.1
        rw [mapFind_mapInsert_new natLt i s.1 s.2.2 hi i]
        simp
      | succ j =>
        have := h1 j (by simpa using hj)
        have e : i + (j + 1) = i + 1 + j := by omega
        rw [e, this]
        simp only [List.take_succ_cons, List.map_cons, List.sum_cons, Nat.add_assoc]

/-- The table loop on sources that each have at least one element: the table from initial
index to source index inverts the table from source index to initial index. -/
theorem initialIndexLoop_inverse :
    ∀ (infos : List InputInfos) (i : Nat) (s r : TableState),
      initialIndexLoop infos i s = some r →
      (∀ ii ∈ infos, ii.mStride ≤ ii.mLength) →
      (∀ k v, mapFind k s.2.1 = some v → k < s.1) →
      (∀ k, i ≤ k → mapFind k s.2.2 = none) →
      (∀ j a, mapFind j s.2.2 = some a → mapFind a s.2.1 = some j) →
      (∀ j a, mapFind j r.2.2 = some a → mapFind a r.2.1 = some j) := by
  intro infos
  induction infos with
  | nil =>
    intro i s r h _ _ _ hP
    simp only [initialIndexLoop, Option.some.injEq] at h
    subst h
    exact hP
  | cons ii rest ih =>
    intro i s r h hlen hK1 hK2 hP
    simp only [initialIndexLoop] at h
    split at h
    · exact absurd h (by simp)
    · rename_i hstride
      have hq : 0 < ii.mLength / ii.mStride :=
        Nat.div_pos (hlen ii (List.mem_cons_self _ _)) (Nat.pos_of_ne_zero hstride)
      have hcur : mapFind s.1 s.2.1 = none := by
        cases hf : mapFind s.1 s.2.1 with
        | none => rfl
        | some v => exact absurd (hK1 s.1 v hf) (lt_irrefl _)
      have hi : mapFind i s.2.2 = none := hK2 i (le_refl _)
      refine ih (i + 1) _ r h (fun x hx => hlen x (List.mem_cons_of_mem _ hx)) ?_ ?_ ?_
      · intro k v hk
        show k < s.1 + ii.mLength / ii.mStride
        have hk' : mapFind k (mapInsert natLt s.1 i s.2.1) = some v := hk
        rw [mapFind_mapInsert_new natLt s.1 i s.2.1 hcur k] at hk'
        by_cases e : k = s.1
        · omega
        · simp only [e, if_false] at hk'
          have := hK1 k v hk'
          omega
      · intro k hk
        show mapFind k (mapInsert natLt i s.1 s.2.2) = none
        rw [mapFind_mapInsert_new natLt i s.1 s.2.2 hi k]
        have : k ≠ i := by omega
        simp only [this, if_false]
        exact hK2 k (by omega)
      · intro j a hj
        have hj' : mapFind j (mapInsert natLt i s.1 s.2.2) = some a := hj
        show mapFind a (mapInsert natLt s.1 i s.2.1) = some j
        rw [mapFind_mapInsert_new natLt i s.1 s.2.2 hi j] at hj'
        rw [mapFind_mapInsert_new natLt s.1 i s.2.1 hcur a]
        by_cases e : j = i
        · simp only [e, if_true, Option.some.injEq] at hj'
          simp [← hj', e]
        · simp only [e, if_false] at hj'
          have h1 := hP j a hj'
          have h2 := hK1 a j h1
          have : a ≠ s.1 := by omega
          simp only [this, if_false]
          exact h1

/-- C24 (as the code has it). Run the engine with an importer whose table from colour source
index to initial index is empty. The initial index recorded for the colour source `i` is the
sum of the element counts `mLength / mStride` of the colour sources before it. -/
theorem C24_initial_index_element_counts {F D : Type} (lim : MapLimits) (uVInitialIndex : Nat)
    (mesh : FWMesh F D) (imp imp' : Importer)
    (hc : imp.mColorSourceIndexInitialIndexMap = [])
    (hrun : createSetSourcePairMapChannelMap lim uVInitialIndex mesh imp = some imp') :
    ∀ i, i < mesh.colorInputInfos.length →
      mapFind i imp'.mColorSourceIndexInitialIndexMap
        = some (((mesh.colorInputInfos.take i).map (fun x => x.mLength / x.mStride)).sum) := by
  obtain ⟨ct, ut, h1, _, _, e2, _, _⟩ :=
    createSetSourcePairMapChannelMap_tables lim uVInitialIndex mesh imp imp' hrun
  obtain ⟨a, _⟩ := initialIndexLoop_sourceTable _ 0 _ ct h1
    (by intro k _; show mapFind k imp.mColorSourceIndexInitialIndexMap = none; rw [hc]; rfl)
  intro i hi
  have := a i hi
  simp only [Nat.zero_add] at this
  rw [e2, this]

/-- C24, the claim as stated fails: with the colour sources of lengths 6 and 8 and stride 2,
the engine returns, and the initial index it records for source 1 is 3, the element count of
source 0, not 6, the length of source 0. -/
theorem C24_initial_index_not_length_sum :
    ∃ imp, createSetSourcePairMapChannelMap MapLimits.sdk 0
        (FWMesh.ofSources [] [⟨6, 2⟩, ⟨8, 2⟩] []) (Importer.fresh 0) = some imp ∧
      mapFind 1 imp.mColorSourceIndexInitialIndexMap = some 3 ∧
      ((([⟨6, 2⟩, ⟨8, 2⟩] : List InputInfos).take 1).map (fun x => x.mLength)).sum = 6 ∧
      mapFind 1 imp.mColorSourceIndexInitialIndexMap
        ≠ some ((([⟨6, 2⟩, ⟨8, 2⟩] : List InputInfos).take 1).map (fun x => x.mLength)).sum :=
  ⟨_, rfl, rfl, rfl, by decide⟩

/-- An instance of C24: the colour sources `(6, 2), (8, 2), (9, 3)` get the initial indices
0, 3 and 7. -/
theorem C24_initial_index_element_counts_witness :
    mapFind 2 [(0, 0), (1, 3), (2, 7)] = some 7 := by
  have h := (C24_initial_index_element_counts MapLimits.sdk 0
    (FWMesh.ofSources [] [⟨6, 2⟩, ⟨8, 2⟩, ⟨9, 3⟩] []) (Importer.fresh 0)
    { Importer.fresh 0 with
      mColorInitialIndexSourceIndexMap := [(0, 0), (3, 1), (7, 2)],
      mColorSourceIndexInitialIndexMap := [(0, 0), (1, 3), (2, 7)] } rfl rfl) 2
    (by decide)
  exact h

/-- C25 (as the code has it). Run the engine with an importer whose four translation tables are
empty, on a mesh in which every colour source and every UV source has at least as many values
as its stride. For every source position `i` of either family, the table from source index to
initial index has an entry for `i`, and the table from initial index to source index sends that
initial index back to `i`. -/
theorem C25_tables_inverse {F D : Type} (lim : MapLimits) (uVInitialIndex : Nat)
    (mesh : FWMesh F D) (imp imp' : Importer)
    (hc1 : imp.mColorInitialIndexSourceIndexMap = [])
    (hc2 : imp.mColorSourceIndexInitialIndexMap = [])
    (hu1 : imp.mUVInitialIndexSourceIndexMap = [])
    (hu2 : imp.mUVSourceIndexInitialIndexMap = [])
    (hcolor : ∀ ii ∈ mesh.colorInputInfos, ii.mStride ≤ ii.mLength)
    (huv : ∀ ii ∈ mesh.uvInputInfos, ii.mStride ≤ ii.mLength)
    (hrun : createSetSourcePairMapChannelMap lim uVInitialIndex mesh imp = some imp') :
    (∀ i, i < mesh.colorInputInfos.length →
      ∃ a, mapFind i imp'.mColorSourceIndexInitialIndexMap = some a ∧
        mapFind a imp'.mColorInitialIndexSourceIndexMap = some i) ∧
    (∀ i, i < mesh.uvInputInfos.length →
      ∃ a, mapFind i imp'.mUVSourceIndexInitialIndexMap = some a ∧
        mapFind a imp'.mUVInitialIndexSourceIndexMap = some i) := by
  obtain ⟨ct, ut, h1, h2, e1, e2, e3, e4⟩ :=
    createSetSourcePairMapChannelMap_tables lim uVInitialIndex mesh imp imp' hrun
  obtain ⟨a, _⟩ := initialIndexLoop_sourceTable _ 0 _ ct h1
    (by intro k _; show mapFind k imp.mColorSourceIndexInitialIndexMap = none; rw [hc2]; rfl)
  obtain ⟨b, _⟩ := initialIndexLoop_sourceTable _ 0 _ ut h2
    (by intro k _; show mapFind k imp.mUVSourceIndexInitialIndexMap = none; rw [hu2]; rfl)
  have pa := initialIndexLoop_inverse _ 0 _ ct h1 hcolor
    (by intro k v hk
        have hk' : mapFind k imp.mColorInitialIndexSourceIndexMap = some v := hk
        rw [hc1] at hk'; exact absurd hk' (by simp [mapFind]))
    (by intro k _; show mapFind k imp.mColorSourceIndexInitialIndexMap = none; rw [hc2]; rfl)
    (by intro j x hj
        have hj' : mapFind j imp.mColorSourceIndexInitialIndexMap = some x := hj
        rw [hc2] at hj'; exact absurd hj' (by simp [mapFind]))
  have pb := initialIndexLoop_inverse _ 0 _ ut h2 huv
    (by intro k v hk
        have hk' : mapFind k imp.mUVInitialIndexSourceIndexMap = some v := hk
        rw [hu1] at hk'; exact absurd hk' (by simp [mapFind]))
    (by intro k _; show mapFind k imp.mUVSourceIndexInitialIndexMap = none; rw [hu2]; rfl)
    (by intro j x hj
        have hj' : mapFind j imp.mUVSourceIndexInitialIndexMap = some x := hj
        rw [hu2] at hj'; exact absurd hj' (by simp [mapFind]))
  constructor
  · intro i hi
    have hs := a i hi
    simp only [Nat.zero_add] at hs
    exact ⟨_, by rw [e2]; exact hs, by rw [e1]; exact pa i _ hs⟩
  · intro i hi
    have hs := b i hi
    simp only [Nat.zero_add] at hs
    exact ⟨_, by rw [e4]; exact hs, by rw [e3]; exact pb i _ hs⟩

/-- C25, the claim as stated fails: with the colour sources `(1, 2)` and `(6, 2)` the first
source has no element, both sources get the initial index 0, and the initial index of source 1
is translated back to source 0, not to source 1. -/
theorem C25_empty_source_not_inverse :
    ∃ imp, createSetSourcePairMapChannelMap MapLimits.sdk 0
        (FWMesh.ofSources [] [⟨1, 2⟩, ⟨6, 2⟩] []) (Importer.fresh 0) = some imp ∧
      mapFind 1 imp.mColorSourceIndexInitialIndexMap = some 0 ∧
      mapFind 0 imp.mColorInitialIndexSourceIndexMap = some 0 ∧
      mapFind 0 imp.mColorInitialIndexSourceIndexMap ≠ some 1 :=
  ⟨_, rfl, rfl, rfl, by decide⟩

/-- An instance of C25: for the UV sources `(6, 2), (8, 2)` with `uVInitialIndex` holding 5,
source 1 has the initial index 8 and 8 is translated back to source 1. -/
theorem C25_tables_inverse_witness :
    ∃ a, mapFind 1 [(0, 5), (1, 8)] = some a ∧ mapFind a [(5, 0), (8, 1)] = some 1 :=
  (C25_tables_inverse MapLimits.sdk 5 (FWMesh.ofSources [⟨6, 2⟩, ⟨8, 2⟩] [] [])
    (Importer.fresh 0)
    { Importer.fresh 0 with
      mUVInitialIndexSourceIndexMap := [(5, 0), (8, 1)],
      mUVSourceIndexInitialIndexMap := [(0, 5), (1, 8)] } rfl rfl rfl rfl
    (by simp [FWMesh.ofSources]) (by simp [FWMesh.ofSources]) rfl).2 1 (by decide)

/-! ## The count mMapChannelCount and the array usedMapChannels -/

theorem recordChannel_mark (lim : MapLimits) (s : ChannelState) (key : SetSourcePair) (ch : Int)
    (hnew : mapFind key s.1.mSetSourcePairMapChannelMap = none) (h : MarkInv s.1) :
    MarkInv (recordChannel lim s key ch).1 := by
  obtain ⟨h0, hle, hmax⟩ := h
  have hin : (key, ch) ∈ mapInsert pairLt key ch s.1.mSetSourcePairMapChannelMap := by
    unfold mapInsert
    simp only [hnew, Option.isSome_none, Bool.false_eq_true, if_false]
    exact (mem_mapPlace pairLt key ch _ _).mpr (Or.inl rfl)
  refine ⟨?_, ?_, ?_⟩
  · show 0 ≤ (if ch > s.1.mMapChannelCount then ch else s.1.mMapChannelCount)
    split <;> omega
  · intro k v hm
    show v ≤ (if ch > s.1.mMapChannelCount then ch else s.1.mMapChannelCount)
    have hm' : (k, v) ∈ mapInsert pairLt key ch s.1.mSetSourcePairMapChannelMap := hm
    rcases mem_mapInsert _ _ _ _ _ hm' with e | e
    · have : v = ch := (Prod.mk.inj e).2
      split <;> omega
    · have := hle k v e
      split <;> omega
  · show (if ch > s.1.mMapChannelCount then ch else s.1.mMapChannelCount) = 0 ∨
      ∃ k, (k, (if ch > s.1.mMapChannelCount then ch else s.1.mMapChannelCount))
        ∈ mapInsert pairLt key ch s.1.mSetSourcePairMapChannelMap
    split
    · exact Or.inr ⟨key, hin⟩
    · rcases hmax with e | ⟨k, hk⟩
      · exact Or.inl e
      · exact Or.inr ⟨k, mem_mapInsert_of_mem _ _ _ _ _ hk⟩

theorem assignMapChannels_mark (lim : MapLimits) (c f : Bool) (tbl : List (Nat × Nat)) :
    ∀ (lists : List IndexList) (s : ChannelState) (r : Bool × ChannelState),
      MarkInv s.1 → assignMapChannels lim c f tbl lists s = some r → MarkInv r.2.1 := by
  intro lists
  induction lists with
  | nil =>
    intro s r hs h
    simp only [assignMapChannels, Option.some.injEq] at h
    subst h
    exact hs
  | cons il rest ih =>
    intro s r hs h
    simp only [assignMapChannels] at h
    split at h
    · exact absurd h (by simp)
    · split at h
      · simp only [Option.some.injEq] at h
        subst h
        exact hs
      · rename_i hnew
        have hnew' := Option.not_isSome_iff_eq_none.mp hnew
        split at h
        · split at h
          · split at h
            · exact ih _ _ (recordChannel_mark lim s _ _ hnew' hs) h
            · exact ih _ _ hs h
          · exact ih _ _ hs h
        · split at h
          · simp only [Option.some.injEq] at h
            subst h
            exact hs
          · exact ih _ _ (recordChannel_mark lim s _ _ hnew' hs) h

theorem assignCalls_mark (lim : MapLimits) :
    ∀ (calls : List AssignCall) (s r : ChannelState),
      MarkInv s.1 → assignCalls lim calls s = some r → MarkInv r.1 := by
  intro calls
  induction calls with
  | nil =>
    intro s r hs h
    simp only [assignCalls, Option.some.injEq] at h
    subst h
    exact hs
  | cons c rest ih =>
    intro s r hs h
    simp only [assignCalls] at h
    split at h
    · exact absurd h (by simp)
    · rename_i q hq
      exact ih _ _ (assignMapChannels_mark lim _ _ _ _ _ _ hs hq) h

/-- C22 (as the code has it). Start from an importer with an empty map and the count
`mMapChannelCount` zero, with any array `usedMapChannels`, and run any sequence of calls of
`assignMapChannels` that returns. Afterwards no key has a channel above the count; the count
is zero or the channel of a key, and is zero when the map is empty; when the map is not
empty and none of its channels is negative, the count is the channel of a key, that is the
highest channel in the map; and the count is never negative. -/
theorem C22_count_is_highest_channel (lim : MapLimits) (calls : List AssignCall)
    (imp : Importer) (usedMapChannels : Int → Bool) (r : ChannelState)
    (hmap : imp.mSetSourcePairMapChannelMap = []) (hcount : imp.mMapChannelCount = 0)
    (hrun : assignCalls lim calls (imp, usedMapChannels) = some r) :
    (∀ k v, (k, v) ∈ r.1.mSetSourcePairMapChannelMap → v ≤ r.1.mMapChannelCount) ∧
    (r.1.mMapChannelCount = 0 ∨
      ∃ k, (k, r.1.mMapChannelCount) ∈ r.1.mSetSourcePairMapChannelMap) ∧
    (r.1.mSetSourcePairMapChannelMap = [] → r.1.mMapChannelCount = 0) ∧
    ((∀ k v, (k, v) ∈ r.1.mSetSourcePairMapChannelMap → 0 ≤ v) →
      r.1.mSetSourcePairMapChannelMap ≠ [] →
      ∃ k, (k, r.1.mMapChannelCount) ∈ r.1.mSetSourcePairMapChannelMap) ∧
    0 ≤ r.1.mMapChannelCount := by
  have hinit : MarkInv imp := by
    refine ⟨by rw [hcount], ?_, Or.inl hcount⟩
    intro k v hm
    rw [hmap] at hm
    exact absurd hm (List.not_mem_nil _)
  obtain ⟨hpos0, hle, hmax⟩ := assignCalls_mark lim calls (imp, usedMapChannels) r hinit hrun
  refine ⟨hle, hmax, ?_, ?_, hpos0⟩
  · intro he
    rcases hmax with e | ⟨k, hk⟩
    · exact e
    · rw [he] at hk
      exact absurd hk (List.not_mem_nil _)
  · intro hpos hne
    rcases hmax with e | h
    · cases hm : r.1.mSetSourcePairMapChannelMap with
      | nil => exact absurd hm hne
      | cons x rest =>
        have hx : (x.1, x.2) ∈ r.1.mSetSourcePairMapChannelMap := by rw [hm]; simp
        have h1 := hle _ _ hx
        have h2 := hpos _ _ hx
        have : x.2 = r.1.mMapChannelCount := by omega
        exact ⟨x.1, by rw [← this, ← hm]; exact hx⟩
    · exact h

/-- C22, the claim as stated fails: a first-try call with a UV list of set index `2^32 - 1`,
whose favoured channel `(int)setIndex` is `-1`, gives the key the channel `-1` and leaves the
count at 0: the map is not empty and the count is not the highest channel in it. -/
theorem C22_negative_channel_count_zero :
    ∃ r, assignCalls MapLimits.sdk [⟨false, true, [(0, 0)], [⟨4294967295, 0, []⟩]⟩]
        (Importer.fresh 0, fun _ => false) = some r ∧
      r.1.mSetSourcePairMapChannelMap = [((-1, 0), -1)] ∧
      r.1.mMapChannelCount = 0 ∧
      ¬ ∃ k, (k, r.1.mMapChannelCount) ∈ r.1.mSetSourcePairMapChannelMap := by
  refine ⟨_, rfl, rfl, rfl, ?_⟩
  rintro ⟨k, hk⟩
  have hk' : (k, (0 : Int)) ∈ ([((-1, 0), -1)] : List (SetSourcePair × Int)) := hk
  simp at hk'

/-- An instance of C22: a first-try call for the UV lists of sets 3 and 1, then a second-try
call for a colour list; the count ends as 3, the channel of the first key. -/
theorem C22_count_is_highest_channel_witness :
    (3 : Int) = 0 ∨
      ∃ k, (k, (3 : Int)) ∈ ([((1, 0), 1), ((3, 0), 3)] : List (SetSourcePair × Int)) :=
  (C22_count_is_highest_channel MapLimits.sdk
    [⟨false, true, [(0, 0)], [⟨3, 0, []⟩, ⟨1, 0, []⟩]⟩, ⟨false, false, [(0, 0)], [⟨1, 0, []⟩]⟩]
    (Importer.fresh 0) (fun _ => false)
    ({ Importer.fresh 0 with
        mSetSourcePairMapChannelMap := [((1, 0), 1), ((3, 0), 3)], mMapChannelCount := 3 },
      Function.update (Function.update (fun _ => false) 5 true) 3 true)
    rfl rfl rfl).2.1

/-- C26, evaluated: with the limits of the SDK the array `usedMapChannels` has 102 cells, and
the first try for a UV list of set index 100 tests and then sets the cell of index 102. -/
theorem C26_used_channel_cell_past_end_eval :
    usedMapChannelsSize MapLimits.sdk = 102 ∧
    favoredMapChannel false 100 + MapLimits.sdk.NUM_HIDDENMAPS = 102 ∧
    (assignMapChannels MapLimits.sdk false true [(0, 0)] [⟨100, 0, []⟩]
        (Importer.fresh 0, fun _ => false)).map
      (fun r => (r.2.1.mSetSourcePairMapChannelMap, r.2.2 102)) = some ([((100, 0), 100)], true) ∧
    (assignMapChannels MapLimits.sdk false true [(0, 0)] [⟨100, 0, []⟩]
        (Importer.fresh 0, fun i => decide (i = 102))).map
      (fun r => r.2.1.mSetSourcePairMapChannelMap) = some [] := by
  refine ⟨rfl, rfl, rfl, rfl⟩

/-! ## setUVVertices in closed form -/

/-- A loop whose body advances `uvIndex` by `k` and rewrites cell `i` from the value of
`uvIndex`, in closed form. -/
theorem forRange_uvBody {F : Type} (k : Nat) (g : Nat → UVVert F → UVVert F)
    (body : Nat → UVVertState F → UVVertState F)
    (hbody : ∀ i s, body i s = (s.1 + k, Function.update s.2 i (g s.1 (s.2 i)))) :
    ∀ (n i0 u : Nat) (tv : Nat → UVVert F),
      forRange body n i0 (u, tv)
        = (u + k * n,
            fun i => if i0 ≤ i ∧ i < i0 + n then g (u + k * (i - i0)) (tv i) else tv i) := by
  intro n
  induction n with
  | zero =>
    intro i0 u tv
    simp only [forRange, Nat.mul_zero, Nat.add_zero]
    refine Prod.ext rfl (funext fun i => ?_)
    have : ¬ (i0 ≤ i ∧ i < i0) := by omega
    simp only [this, if_false]
  | succ n ih =>
    intro i0 u tv
    simp only [forRange]
    rw [hbody, ih]
    refine Prod.ext ?_ (funext fun i => ?_)
    · show u + k + k * n = u + k * (n + 1)
      rw [Nat.mul_succ]; omega
    · show (if i0 + 1 ≤ i ∧ i < i0 + 1 + n then
          g (u + k + k * (i - (i0 + 1))) (Function.update tv i0 (g u (tv i0)) i)
        else Function.update tv i0 (g u (tv i0)) i)
        = if i0 ≤ i ∧ i < i0 + (n + 1) then g (u + k * (i - i0)) (tv i) else tv i
      by_cases h1 : i = i0
      · subst h1
        have a : ¬ (i + 1 ≤ i ∧ i < i + 1 + n) := by omega
        have b : i ≤ i ∧ i < i + (n + 1) := by omega
        simp only [a, b, if_false, if_true, and_self, Function.update_same, Nat.sub_self,
          Nat.mul_zero, Nat.add_zero]
      · rw [Function.update_noteq h1]
        by_cases h2 : i0 + 1 ≤ i ∧ i < i0 + 1 + n
        · have b : i0 ≤ i ∧ i < i0 + (n + 1) := by omega
          have e : u + k + k * (i - (i0 + 1)) = u + k * (i - i0) := by
            have : i - i0 = (i - (i0 + 1)) + 1 := by omega
            rw [this, Nat.mul_succ]; omega
          simp only [h2, b, and_self, if_true, e]
        · have b : ¬ (i0 ≤ i ∧ i < i0 + (n + 1)) := by omega
          simp only [h2, b, if_false]

/-- The array `setUVVertices` returns, for every order of evaluation of the arguments of
`Set`. -/
theorem setUVVertices_eq_order {E F : Type} [Inhabited E] (order : ArgOrder) (conv : E → F)
    (uvArray : List E) (tv : Nat → UVVert F) (stride startPosition vertsCount : Nat)
    (hs : 1 ≤ stride ∧ stride ≤ 4) :
    setUVVertices order conv uvArray tv stride startPosition vertsCount
      = some (fun i => if i < vertsCount then
          { x := some (conv (uvArray.getD
              (startPosition + stride * i + (if 3 ≤ stride then order.x else 0)) default)),
            y := if 2 ≤ stride then
                some (conv (uvArray.getD
                  (startPosition + stride * i + (if 3 ≤ stride then order.y else 1)) default))
              else (tv i).y,
            z := if 3 ≤ stride then
                some (conv (uvArray.getD (startPosition + stride * i + order.z) default))
              else (tv i).z }
        else tv i) := by
  obtain ⟨h1, h4⟩ := hs
  have h0 : ∀ i : Nat, (0 ≤ i ∧ i < 0 + vertsCount) ↔ i < vertsCount := by intro i; omega
  interval_cases stride
  · simp only [setUVVertices]
    rw [forRange_uvBody 1 (fun u v => { v with x := some (conv (uvArray.getD u default)) })
      (setUVVerticesBody1 conv uvArray) (fun _ _ => rfl)]
    simp [h0]
  · simp only [setUVVertices]
    rw [forRange_uvBody 2 (fun u v => ⟨some (conv (uvArray.getD u default)),
        some (conv (uvArray.getD (u + 1) default)), v.z⟩)
      (setUVVerticesBody2 conv uvArray) (fun _ _ => rfl)]
    simp [h0]
  · simp only [setUVVertices]
    rw [forRange_uvBody 3 (fun u v => v.Set (conv (uvArray.getD (u + order.x) default))
        (conv (uvArray.getD (u + order.y) default)) (conv (uvArray.getD (u + order.z) default)))
      (setUVVerticesBody3 order conv uvArray) (fun _ _ => rfl)]
    simp [h0, UVVert.Set]
  · simp only [setUVVertices]
    rw [forRange_uvBody 4 (fun u v => v.Set (conv (uvArray.getD (u + order.x) default))
        (conv (uvArray.getD (u + order.y) default)) (conv (uvArray.getD (u + order.z) default)))
      (setUVVerticesBody4 order conv uvArray) (fun _ _ => rfl)]
    simp [h0, UVVert.Set]

/-- The array `setUVVertices` returns when, for the strides 3 and 4, the arguments of `Set` are
evaluated in the order in which they are written. -/
theorem setUVVertices_eq {E F : Type} [Inhabited E] (order : ArgOrder) (conv : E → F)
    (uvArray : List E) (tv : Nat → UVVert F) (stride startPosition vertsCount : Nat)
    (hs : 1 ≤ stride ∧ stride ≤ 4) (hord : 3 ≤ stride → order = ArgOrder.leftToRight) :
    setUVVertices order conv uvArray tv stride startPosition vertsCount
      = some (fun i => if i < vertsCount then
          { x := some (conv (uvArray.getD (startPosition + stride * i) default)),
            y := if 2 ≤ stride then
                some (conv (uvArray.getD (startPosition + stride * i + 1) default))
              else (tv i).y,
            z := if 3 ≤ stride then
                some (conv (uvArray.getD (startPosition + stride * i + 2) default))
              else (tv i).z }
        else tv i) := by
  rw [setUVVertices_eq_order order conv uvArray tv stride startPosition vertsCount hs]
  by_cases h3 : 3 ≤ stride
  · rw [hord h3]
    simp [h3, ArgOrder.leftToRight]
  · simp [h3]

/-- The step of the UV pass for a UV key whose source exists and has a stride. -/
theorem uvSourceStep_eq {F D : Type} [Inhabited F] [Inhabited D] (order : ArgOrder)
    (narrow : D → F) (mesh : FWMesh F D) (t : MeshMaps F) (setSourcePair : SetSourcePair)
    (mapChannel : Int) (inputInfo : InputInfos) (hkey : 0 ≤ setSourcePair.1)
    (hinfo : mesh.uvInputInfos.get? setSourcePair.2 = some inputInfo)
    (hstride : inputInfo.mStride ≠ 0) :
    uvSourceStep order narrow mesh t (setSourcePair, mapChannel)
      = (match mesh.uvCoords with
          | .doubleValues uvArray =>
            setUVVertices order narrow uvArray (fun _ => ⟨none, none, none⟩) inputInfo.mStride
              (uvStartPosition mesh.uvInputInfos setSourcePair.2)
              (inputInfo.mLength / inputInfo.mStride)
          | .floatValues uvArray =>
            setUVVertices order id uvArray (fun _ => ⟨none, none, none⟩) inputInfo.mStride
              (uvStartPosition mesh.uvInputInfos setSourcePair.2)
              (inputInfo.mLength / inputInfo.mStride)).map (fun tv =>
          { t with maps := Function.update t.maps mapChannel (MeshMap.mk
              (t.maps mapChannel).numFaces (toInt (inputInfo.mLength / inputInfo.mStride))
              tv) }) := by
  have hneg : ¬ setSourcePair.1 < 0 := by omega
  unfold uvSourceStep
  rw [if_neg hneg]
  dsimp only
  rw [hinfo]
  dsimp only
  rw [if_neg hstride]
  cases mesh.uvCoords with
  | doubleValues a =>
    dsimp only
    cases setUVVertices order narrow a (fun _ => (⟨none, none, none⟩ : UVVert F))
      inputInfo.mStride (uvStartPosition mesh.uvInputInfos setSourcePair.2)
      (inputInfo.mLength / inputInfo.mStride) <;> rfl
  | floatValues a =>
    dsimp only
    cases setUVVertices order id a (fun _ => (⟨none, none, none⟩ : UVVert F)) inputInfo.mStride
      (uvStartPosition mesh.uvInputInfos setSourcePair.2)
      (inputInfo.mLength / inputInfo.mStride) <;> rfl

/-- What `setUVVertices` does when the arguments of `Set` are evaluated in the order in which
they are written (the strides 1 and 2 have no such call): for a stride `s` from 1 to 4 it
returns an array `tv` in which, for every `i < vertsCount`, the component `c < min s 3` of
vertex `i` is the cast of `uvArray[startPosition + s * i + c]` and the components `c ≥ s` are
the ones vertex `i` had; the vertices from `vertsCount` on are the ones the array had; and the
array depends on no other value of `uvArray`. In the UV pass, for every order of evaluation,
the step for a UV key whose source has such a stride gives the channel `mLength / mStride`
vertices and the array `setUVVertices` returns for that count. -/
theorem setUVVertices_components {F D : Type} [Inhabited F] [Inhabited D] (order : ArgOrder) :
    (∀ (E : Type) [Inhabited E] (conv : E → F) (uvArray : List E) (tv : Nat → UVVert F)
        (stride startPosition vertsCount : Nat), 1 ≤ stride → stride ≤ 4 →
        (3 ≤ stride → order = ArgOrder.leftToRight) →
      ∃ tv', setUVVertices order conv uvArray tv stride startPosition vertsCount = some tv' ∧
        (∀ i, i < vertsCount →
          (tv' i).x = some (conv (uvArray.getD (startPosition + stride * i) default)) ∧
          (2 ≤ stride →
            (tv' i).y = some (conv (uvArray.getD (startPosition + stride * i + 1) default))) ∧
          (3 ≤ stride →
            (tv' i).z = some (conv (uvArray.getD (startPosition + stride * i + 2) default))) ∧
          (stride < 2 → (tv' i).y = (tv i).y) ∧
          (stride < 3 → (tv' i).z = (tv i).z)) ∧
        (∀ i, vertsCount ≤ i → tv' i = tv i) ∧
        (∀ uvArray' : List E,
          (∀ i c, i < vertsCount → c < stride → c < 3 →
            uvArray'.getD (startPosition + stride * i + c) default
              = uvArray.getD (startPosition + stride * i + c) default) →
          setUVVertices order conv uvArray' tv stride startPosition vertsCount = some tv')) ∧
    (∀ (narrow : D → F) (mesh : FWMesh F D) (t : MeshMaps F) (setSourcePair : SetSourcePair)
        (mapChannel : Int) (inputInfo : InputInfos),
      0 ≤ setSourcePair.1 → mesh.uvInputInfos.get? setSourcePair.2 = some inputInfo →
      1 ≤ inputInfo.mStride → inputInfo.mStride ≤ 4 →
      ∃ t', uvSourceStep order narrow mesh t (setSourcePair, mapChannel) = some t' ∧
        (t'.maps mapChannel).numVerts = toInt (inputInfo.mLength / inputInfo.mStride) ∧
        (match mesh.uvCoords with
          | .doubleValues uvArray =>
            setUVVertices order narrow uvArray (fun _ => ⟨none, none, none⟩) inputInfo.mStride
              (uvStartPosition mesh.uvInputInfos setSourcePair.2)
              (inputInfo.mLength / inputInfo.mStride)
          | .floatValues uvArray =>
            setUVVertices order id uvArray (fun _ => ⟨none, none, none⟩) inputInfo.mStride
              (uvStartPosition mesh.uvInputInfos setSourcePair.2)
              (inputInfo.mLength / inputInfo.mStride)) = some (t'.maps mapChannel).tv) := by
  constructor
  · intro E _ conv uvArray tv stride startPosition vertsCount h1 h4 hord
    refine ⟨_, setUVVertices_eq order conv uvArray tv stride startPosition vertsCount ⟨h1, h4⟩
      hord, ?_, ?_, ?_⟩
    · intro i hi
      simp only [hi, if_true]
      refine ⟨trivial, ?_, ?_, ?_, ?_⟩
      · intro h; simp only [h, if_true]
      · intro h; simp only [h, if_true]
      · intro h
        have : ¬ 2 ≤ stride := by omega
        simp only [this, if_false]
      · intro h
        have : ¬ 3 ≤ stride := by omega
        simp only [this, if_false]
    · intro i hi
      have : ¬ i < vertsCount := by omega
      simp only [this, if_false]
    · intro uvArray' h
      rw [setUVVertices_eq order conv uvArray' tv stride startPosition vertsCount ⟨h1, h4⟩ hord]
      refine congrArg some (funext fun i => ?_)
      by_cases hi : i < vertsCount
      · simp only [hi, if_true]
        have e0 := h i 0 hi (by omega) (by omega)
        simp only [Nat.add_zero] at e0
        rw [e0]
        by_cases h2 : 2 ≤ stride
        · rw [h i 1 hi (by omega) (by omega)]
          by_cases h3 : 3 ≤ stride
          · rw [h i 2 hi (by omega) (by omega)]
          · simp only [h3, if_false]
        · have h3 : ¬ 3 ≤ stride := by omega
          simp only [h2, h3, if_false]
      · simp only [hi, if_false]
  · intro narrow mesh t setSourcePair mapChannel inputInfo hkey hinfo h1 h4
    rw [uvSourceStep_eq order narrow mesh t setSourcePair mapChannel inputInfo hkey hinfo
      (by omega)]
    cases mesh.uvCoords with
    | doubleValues uvArray =>
      dsimp only
      rw [setUVVertices_eq_order order narrow uvArray (fun _ => (⟨none, none, none⟩ : UVVert F))
        inputInfo.mStride (uvStartPosition mesh.uvInputInfos setSourcePair.2)
        (inputInfo.mLength / inputInfo.mStride) ⟨h1, h4⟩]
      exact ⟨_, rfl, by simp, by simp⟩
    | floatValues uvArray =>
      dsimp only
      rw [setUVVertices_eq_order order id uvArray (fun _ => (⟨none, none, none⟩ : UVVert F))
        inputInfo.mStride (uvStartPosition mesh.uvInputInfos setSourcePair.2)
        (inputInfo.mLength / inputInfo.mStride) ⟨h1, h4⟩]
      exact ⟨_, rfl, by simp, by simp⟩

/-- C21, evaluated. The array holds the values 1, 2, 3 (and 4). With stride 3 and with stride
4, code that evaluates the last argument of `Set` first gives vertex 0 the components
`(3, 2, 1)`: `x` and `z` are swapped against `uvArray[o + s * i + c]`. Only code that
evaluates the arguments in the order in which they are written gives `(1, 2, 3)`. With stride
2, where `x` and `y` are assigned in two statements, the components are `(1, 2)` in either
case. -/
theorem C21_set_argument_order_eval :
    (setUVVertices ArgOrder.rightToLeft (fun n : Nat => n) [1, 2, 3]
        (fun _ => ⟨none, none, none⟩) 3 0 1).map (fun tv => ((tv 0).x, (tv 0).y, (tv 0).z))
      = some (some 3, some 2, some 1) ∧
    (setUVVertices ArgOrder.rightToLeft (fun n : Nat => n) [1, 2, 3, 4]
        (fun _ => ⟨none, none, none⟩) 4 0 1).map (fun tv => ((tv 0).x, (tv 0).y, (tv 0).z))
      = some (some 3, some 2, some 1) ∧
    (setUVVertices ArgOrder.leftToRight (fun n : Nat => n) [1, 2, 3]
        (fun _ => ⟨none, none, none⟩) 3 0 1).map (fun tv => ((tv 0).x, (tv 0).y, (tv 0).z))
      = some (some 1, some 2, some 3) ∧
    (setUVVertices ArgOrder.rightToLeft (fun n : Nat => n) [1, 2]
        (fun _ => ⟨none, none, none⟩) 2 0 1).map (fun tv => ((tv 0).x, (tv 0).y, (tv 0).z))
      = some (some 1, some 2, none) := by
  refine ⟨rfl, rfl, rfl, rfl⟩

/-! ## The channels the UV pass sets up and the channels it addresses -/

/-- C27, evaluated: for one triangle with a UV list of set index 0 the engine gives the key
the channel 1 and the count 1; the pass calls `setNumMaps(1)` and sets up the faces of channel
0 only, then gives channel 1 three texture vertices and writes its face 0. -/
theorem C27_channel_beyond_count_eval :
    (importTriangleMeshUVCoords ArgOrder.rightToLeft id 0 MapLimits.sdk 0 FWMesh.oneUVTriangle (Importer.fresh 1)
        (MeshMaps.blank Nat)).map
      (fun r => (r.1, r.2.1.mSetSourcePairMapChannelMap, r.2.1.mMapChannelCount,
        r.2.2.numMaps, (r.2.2.maps 0).numFaces, (r.2.2.maps 1).numFaces,
        (r.2.2.maps 1).numVerts, ((r.2.2.maps 1).tv 2).y, r.2.2.mapFaces 1 0))
      = some (true, [((0, 0), 1)], 1, 1, 1, 0, 3, some 15, some (0, 1, 2)) := by
  rfl

/-! ## The read offset of the POLYGONS loops -/

/-- The loop `for (k = 0; k < faceVertexCount; ++k) SetNormalID(k, normalIndices[currentIndex + k])`
in closed form. -/
theorem forRange_SetNormalID (normalIndices : List Nat) (currentIndex : Nat) :
    ∀ (n i0 : Nat) (f : MNNormalFace),
      forRange (fun k (normalFace : MNNormalFace) =>
          normalFace.SetNormalID k (rd normalIndices (currentIndex + k))) n i0 f
        = { f with normalID := fun j =>
              if i0 ≤ j ∧ j < i0 + n then some (rd normalIndices (currentIndex + j))
              else f.normalID j } := by
  intro n
  induction n with
  | zero =>
    intro i0 f
    simp only [forRange]
    have : ∀ j, ¬ (i0 ≤ j ∧ j < i0 + 0) := by intro j; omega
    simp only [this, if_false]
  | succ n ih =>
    intro i0 f
    simp only [forRange]
    rw [ih]
    simp only [MNNormalFace.SetNormalID]
    congr 1
    funext j
    by_cases h1 : j = i0
    · subst h1
      have a : ¬ (j + 1 ≤ j ∧ j < j + 1 + n) := by omega
      have b : j ≤ j ∧ j < j + (n + 1) := by omega
      simp only [a, b, if_false, if_true, and_self, Function.update_same]
    · rw [Function.update_noteq h1]
      by_cases h2 : i0 + 1 ≤ j ∧ j < i0 + 1 + n
      · have b : i0 ≤ j ∧ j < i0 + (n + 1) := by omega
        simp only [h2, b, and_self, if_true]
      · have b : ¬ (i0 ≤ j ∧ j < i0 + (n + 1)) := by omega
        simp only [h2, b, if_false]

/-- One iteration of the `POLYGONS` loop of the normal pass for a positive vertex count. -/
theorem polyNormalsPolygonsBody_pos (idx : List Nat) (s : Nat × Cursor MNNormalFace) (c : Int)
    (hc : 0 < c) :
    polyNormalsPolygonsBody idx s c
      = (s.1 + c.toNat, s.2.1 + 1, Function.update s.2.2 s.2.1
          ({ deg := c.toNat, specified := true,
             normalID := fun j => if j < c.toNat then some (rd idx (s.1 + j)) else none }
            : MNNormalFace)) := by
  have hn : ¬ c ≤ 0 := not_le.mpr hc
  unfold polyNormalsPolygonsBody
  rw [if_neg hn]
  dsimp only
  rw [forRange_SetNormalID]
  simp only [MNNormalFace.SetDegree, MNNormalFace.SpecifyAll]
  have : ∀ j : Nat, (0 ≤ j ∧ j < 0 + c.toNat) ↔ j < c.toNat := by intro j; omega
  simp only [this]

/-- The `POLYGONS` loop of the normal pass: one face per run with a positive vertex count, in
run order, its corners read from the offset that the positive vertex counts before it add up
to. -/
theorem foldl_polyNormalsPolygonsBody (idx : List Nat) :
    ∀ (counts : List Int) (s : Nat × Cursor MNNormalFace),
      (counts.foldl (polyNormalsPolygonsBody idx) s).2.1
        = s.2.1 + (counts.filter (0 < ·)).length ∧
      (∀ i, i < s.2.1 → (counts.foldl (polyNormalsPolygonsBody idx) s).2.2 i = s.2.2 i) ∧
      (∀ i, s.2.1 + (counts.filter (0 < ·)).length ≤ i →
        (counts.foldl (polyNormalsPolygonsBody idx) s).2.2 i = s.2.2 i) ∧
      (∀ k c, (counts.filter (0 < ·))[k]? = some c →
        (counts.foldl (polyNormalsPolygonsBody idx) s).2.2 (s.2.1 + k)
          = { deg := c.toNat, specified := true,
              normalID := fun j =>
                if j < c.toNat then
                  some (rd idx
                    (s.1 + (((counts.filter (0 < ·)).take k).map Int.toNat).sum + j))
                else none }) := by
  intro counts
  induction counts with
  | nil => intro s; simp
  | cons c rest ih =>
    intro s
    by_cases hc : c ≤ 0
    · have hf : (c :: rest).filter (0 < ·) = rest.filter (0 < ·) := by
        simp [List.filter_cons, not_lt.mpr hc]
      have hb : polyNormalsPolygonsBody idx s c = s := by simp [polyNormalsPolygonsBody, hc]
      rw [hf, List.foldl_cons, hb]
      exact ih s
    · have hpos : 0 < c := not_le.mp hc
      have hf : (c :: rest).filter (0 < ·) = c :: rest.filter (0 < ·) := by
        simp [List.filter_cons, hpos]
      rw [hf, List.foldl_cons, polyNormalsPolygonsBody_pos idx s c hpos]
      obtain ⟨h1, h2, h3, h4⟩ := ih (s.1 + c.toNat, s.2.1 + 1, Function.update s.2.2 s.2.1
        ({ deg := c.toNat, specified := true,
           normalID := fun j => if j < c.toNat then some (rd idx (s.1 + j)) else none }
          : MNNormalFace))
      simp only [List.length_cons] at h1 h2 h3 h4 ⊢
      refine ⟨by rw [h1]; omega, ?_, ?_, ?_⟩
      · intro i hi
        rw [h2 i (by omega), Function.update_noteq (by omega)]
      · intro i hi
        rw [h3 i (by omega), Function.update_noteq (by omega)]
      · intro k c' hk
        cases k with
        | zero =>
          simp only [List.getElem?_cons_zero, Option.some.injEq] at hk
          subst hk
          simp only [Nat.add_zero]
          rw [h2 s.2.1 (by omega), Function.update_same]
          simp
        | succ k =>
          simp only [List.getElem?_cons_succ] at hk
          have e : s.2.1 + (k + 1) = s.2.1 + 1 + k := by omega
          rw [e, h4 k c' hk]
          simp only [List.take_succ_cons, List.map_cons, List.sum_cons, Nat.add_assoc]

/-- The positive vertex counts of a count array split at a run with a positive count. -/
theorem filter_pos_split (pre post : List Int) (c : Int) (hc : 0 < c) :
    ((pre ++ c :: post).filter (0 < ·))[(pre.filter (0 < ·)).length]? = some c ∧
    ((pre ++ c :: post).filter (0 < ·)).take (pre.filter (0 < ·)).length
      = pre.filter (0 < ·) := by
  have hf : (pre ++ c :: post).filter (0 < ·)
      = pre.filter (0 < ·) ++ c :: post.filter (0 < ·) := by
    simp [List.filter_append, List.filter_cons, hc]
  rw [hf]
  constructor
  · rw [List.getElem?_append_right (le_refl _)]
    simp
  · simp

/-- C29. Take a `POLYGONS` primitive and a run of its vertex count array with the runs `pre`
before it. A run with a vertex count `≤ 0` leaves the state of either loop as it is, the read
offset `currentIndex` included. For a run with a positive vertex count `c`, let `o` be the sum
of the positive vertex counts in `pre`: the face the position pass writes for the run, at the
starting face index plus the number of positive counts in `pre`, has the degree `c` and the
`c` position indices from offset `o`; the normal pass on the primitive returns, and the face
it writes for the run, at the same distance from its starting face index, has the degree `c`
and as normal of corner `j < c` the normal index at offset `o + j`. -/
theorem C29_polygon_read_offset (p : MeshPrimitive)
    (htype : p.primitiveType = PrimitiveType.POLYGONS) (pre post : List Int) (c : Int)
    (hruns : p.polygonsVertexCountArray = pre ++ c :: post)
    (s : Cursor MNFace) (t : Cursor MNNormalFace) :
    (c ≤ 0 →
      (∀ x : Nat × Cursor MNFace, polygonsBody p.positionIndices x c = x) ∧
      (∀ y : Nat × Cursor MNNormalFace, polyNormalsPolygonsBody p.normalIndices y c = y)) ∧
    (0 < c →
      (polyPositionsPrimitive s (some p)).2 (s.1 + (pre.filter (0 < ·)).length)
        = { deg := c.toNat,
            vtx := readFrom p.positionIndices
              (((pre.filter (0 < ·)).map Int.toNat).sum) c.toNat } ∧
      ∃ r, polyNormalsPrimitives [some p] t = some r ∧
        (r.2 (t.1 + (pre.filter (0 < ·)).length)).deg = c.toNat ∧
        ∀ j, j < c.toNat →
          (r.2 (t.1 + (pre.filter (0 < ·)).length)).normalID j
            = some (rd p.normalIndices (((pre.filter (0 < ·)).map Int.toNat).sum + j))) := by
  constructor
  · intro hc
    exact ⟨fun x => by simp [polygonsBody, hc], fun y => by simp [polyNormalsPolygonsBody, hc]⟩
  · intro hc
    obtain ⟨hk, htake⟩ := filter_pos_split pre post c hc
    rw [← hruns] at hk htake
    constructor
    · have hprim : polyPositionsPrimitive s (some p)
          = (p.polygonsVertexCountArray.foldl (polygonsBody p.positionIndices) (0, s)).2 := by
        simp only [polyPositionsPrimitive, htype]
      obtain ⟨_, _, _, h4⟩ :=
        foldl_polygonsBody p.positionIndices p.polygonsVertexCountArray (0, s)
      have := h4 _ c hk
      rw [htake] at this
      rw [hprim]
      simpa using this
    · have hprim : polyNormalsPrimitives [some p] t
          = some (p.polygonsVertexCountArray.foldl
              (polyNormalsPolygonsBody p.normalIndices) (0, t)).2 := by
        simp only [polyNormalsPrimitives, htype]
      obtain ⟨_, _, _, h4⟩ :=
        foldl_polyNormalsPolygonsBody p.normalIndices p.polygonsVertexCountArray (0, t)
      have := h4 _ c hk
      rw [htake] at this
      refine ⟨_, hprim, ?_, ?_⟩
      · have e := congrArg MNNormalFace.deg this
        simpa using e
      · intro j hj
        have e := congrFun (congrArg MNNormalFace.normalID this) j
        simpa [hj] using e

/-- An instance of C29: the vertex counts `[3, -1, 4]` over seven indices; the run of count 4
is read from offset 3 by both passes, and its face is the second one. -/
theorem C29_polygon_read_offset_witness :
    (polyPositionsPrimitive (0, fun _ => MNFace.blank)
        (some { MeshPrimitive.polygons [10, 11, 12, 13, 14, 15, 16] [3, -1, 4] with
          normalIndices := [20, 21, 22, 23, 24, 25, 26] })).2 1
      = { deg := 4, vtx := [13, 14, 15, 16] } ∧
    ∃ r, polyNormalsPrimitives
        [some { MeshPrimitive.polygons [10, 11, 12, 13, 14, 15, 16] [3, -1, 4] with
          normalIndices := [20, 21, 22, 23, 24, 25, 26] }]
        (0, fun _ => { deg := 0, specified := false, normalID := fun _ => none }) = some r ∧
      (r.2 1).deg = 4 ∧
      ∀ j, j < 4 → (r.2 1).normalID j = some (rd [20, 21, 22, 23, 24, 25, 26] (3 + j)) :=
  (C29_polygon_read_offset
    { MeshPrimitive.polygons [10, 11, 12, 13, 14, 15, 16] [3, -1, 4] with
      normalIndices := [20, 21, 22, 23, 24, 25, 26] } rfl [3, -1] [] 4 rfl
    (0, fun _ => MNFace.blank)
    (0, fun _ => { deg := 0, specified := false, normalID := fun _ => none })).2 (by decide)

/-! ## The flags the passes return -/

theorem normalsPrimitives_isSome :
    ∀ (prims : List (Option MeshPrimitive)) (s : Cursor MeshNormalFace),
      (∀ q ∈ prims, q ≠ none) → ∃ r, normalsPrimitives prims s = some r := by
  intro prims
  induction prims with
  | nil => intro s _; exact ⟨s, rfl⟩
  | cons q rest ih =>
    intro s h
    cases q with
    | none => exact absurd rfl (h none (List.mem_cons_self _ _))
    | some p =>
      have hr : ∀ q ∈ rest, q ≠ none := fun q hq => h q (List.mem_cons_of_mem _ hq)
      simp only [normalsPrimitives]
      split <;> exact ih _ hr

theorem polyNormalsPrimitives_isSome :
    ∀ (prims : List (Option MeshPrimitive)) (s : Cursor MNNormalFace),
      (∀ q ∈ prims, q ≠ none) → ∃ r, polyNormalsPrimitives prims s = some r := by
  intro prims
  induction prims with
  | nil => intro s _; exact ⟨s, rfl⟩
  | cons q rest ih =>
    intro s h
    cases q with
    | none => exact absurd rfl (h none (List.mem_cons_self _ _))
    | some p =>
      have hr : ∀ q ∈ rest, q ≠ none := fun q hq => h q (List.mem_cons_of_mem _ hq)
      simp only [polyNormalsPrimitives]
      split <;> exact ih _ hr

/-- Whenever the triangle position pass returns, it returns `true`. -/
theorem importTriangleMeshPositions_flag {F D : Type} [Inhabited F] [Inhabited D]
    (narrow : D → F) (mesh : FWMesh F D) (total : Nat) (materialMap : List (Nat × Nat))
    (triangleMesh : MaxMesh F) (r : Bool × MaxMesh F × List (Nat × Nat))
    (h : importTriangleMeshPositions narrow mesh total materialMap triangleMesh = some r) :
    r.1 = true := by
  unfold importTriangleMeshPositions at h
  dsimp only at h
  split at h
  · exact absurd h (by simp)
  · simp only [Option.some.injEq] at h
    subst h
    rfl

/-- Whenever the triangle normal pass returns, it returns `true`. -/
theorem importTriangleMeshNormals_flag {F D : Type} [Inhabited F] [Inhabited D]
    (narrow : D → F) (normalize : Point3 F → Point3 F)
    (checkNormals : MeshNormalSpec F → MeshNormalSpec F) (mesh : FWMesh F D)
    (triangleMesh : MaxMesh F) (ns : Option (MeshNormalSpec F))
    (r : Bool × Option (MeshNormalSpec F))
    (h : importTriangleMeshNormals narrow normalize checkNormals mesh triangleMesh ns = some r) :
    r.1 = true := by
  unfold importTriangleMeshNormals at h
  split at h
  · simp only [Option.some.injEq] at h
    subst h
    rfl
  · dsimp only at h
    split at h
    · exact absurd h (by simp)
    · simp only [Option.some.injEq] at h
      subst h
      rfl

/-- The triangle normal pass returns on a mesh without null primitives. -/
theorem importTriangleMeshNormals_isSome {F D : Type} [Inhabited F] [Inhabited D]
    (narrow : D → F) (normalize : Point3 F → Point3 F)
    (checkNormals : MeshNormalSpec F → MeshNormalSpec F) (mesh : FWMesh F D)
    (triangleMesh : MaxMesh F) (ns : Option (MeshNormalSpec F))
    (hnull : ∀ q ∈ mesh.meshPrimitives, q ≠ none) :
    ∃ r, importTriangleMeshNormals narrow normalize checkNormals mesh triangleMesh ns
      = some r := by
  unfold importTriangleMeshNormals
  split
  · exact ⟨_, rfl⟩
  · dsimp only
    split
    · rename_i heq
      obtain ⟨r, hr⟩ := normalsPrimitives_isSome mesh.meshPrimitives _ hnull
      rw [hr] at heq
      exact absurd heq (by simp)
    · exact ⟨_, rfl⟩

/-- Whenever the polygon normal pass returns, it returns `true`. -/
theorem importPolygonMeshNormals_flag {F D : Type} [Inhabited F] [Inhabited D]
    (narrow : D → F) (normalize : Point3 F → Point3 F)
    (checkNormals : MNNormalSpec F → MNNormalSpec F) (mesh : FWMesh F D)
    (polygonMesh : MNMesh F) (ns : Option (MNNormalSpec F))
    (r : Bool × Option (MNNormalSpec F))
    (h : importPolygonMeshNormals narrow normalize checkNormals mesh polygonMesh ns = some r) :
    r.1 = true := by
  unfold importPolygonMeshNormals at h
  split at h
  · simp only [Option.some.injEq] at h
    subst h
    rfl
  · dsimp only at h
    split at h
    · exact absurd h (by simp)
    · simp only [Option.some.injEq] at h
      subst h
      rfl

/-- The polygon normal pass returns on a mesh without null primitives. -/
theorem importPolygonMeshNormals_isSome {F D : Type} [Inhabited F] [Inhabited D]
    (narrow : D → F) (normalize : Point3 F → Point3 F)
    (checkNormals : MNNormalSpec F → MNNormalSpec F) (mesh : FWMesh F D)
    (polygonMesh : MNMesh F) (ns : Option (MNNormalSpec F))
    (hnull : ∀ q ∈ mesh.meshPrimitives, q ≠ none) :
    ∃ r, importPolygonMeshNormals narrow normalize checkNormals mesh polygonMesh ns
      = some r := by
  unfold importPolygonMeshNormals
  split
  · exact ⟨_, rfl⟩
  · dsimp only
    split
    · rename_i heq
      obtain ⟨r, hr⟩ := polyNormalsPrimitives_isSome mesh.meshPrimitives _ hnull
      rw [hr] at heq
      exact absurd heq (by simp)
    · exact ⟨_, rfl⟩

/-- Whenever `importTriangleMesh` returns, it returns `true`. -/
theorem importTriangleMesh_flag {F D : Type} [Inhabited F] [Inhabited D] (narrow : D → F)
    (normalize : Point3 F → Point3 F) (checkNormals : MeshNormalSpec F → MeshNormalSpec F)
    (mesh : FWMesh F D) (total : Nat) (materialMap : List (Nat × Nat))
    (triangleObject : TriObject F) (r : Bool × TriObject F × List (Nat × Nat))
    (h : importTriangleMesh narrow normalize checkNormals mesh total materialMap triangleObject
      = some r) :
    r.1 = true := by
  unfold importTriangleMesh at h
  split at h
  · exact absurd h (by simp)
  · rename_i heq
    exact absurd (importTriangleMeshPositions_flag _ _ _ _ _ _ heq) (by simp)
  · split at h
    · exact absurd h (by simp)
    · rename_i heq
      exact absurd (importTriangleMeshNormals_flag _ _ _ _ _ _ _ heq) (by simp)
    · simp only [Option.some.injEq] at h
      subst h
      rfl

/-- The function `importTriangleMesh` returns on a mesh without null primitives. -/
theorem importTriangleMesh_isSome {F D : Type} [Inhabited F] [Inhabited D] (narrow : D → F)
    (normalize : Point3 F → Point3 F) (checkNormals : MeshNormalSpec F → MeshNormalSpec F)
    (mesh : FWMesh F D) (total : Nat) (materialMap : List (Nat × Nat))
    (triangleObject : TriObject F) (hnull : ∀ q ∈ mesh.meshPrimitives, q ≠ none) :
    ∃ r, importTriangleMesh narrow normalize checkNormals mesh total materialMap triangleObject
      = some r := by
  obtain ⟨mm, hp⟩ := importTriangleMeshPositions_eq narrow mesh total materialMap
    triangleObject.mesh hnull
  unfold importTriangleMesh
  rw [hp]
  dsimp only
  split
  · rename_i heq
    obtain ⟨r, hr⟩ := importTriangleMeshNormals_isSome narrow normalize checkNormals mesh _
      triangleObject.normals hnull
    rw [hr] at heq
    exact absurd heq (by simp)
  · exact ⟨_, rfl⟩
  · exact ⟨_, rfl⟩

/-- Whenever `importPolygonMesh` returns, it returns `true`. -/
theorem importPolygonMesh_flag {F D : Type} [Inhabited F] [Inhabited D] (narrow : D → F)
    (normalize : Point3 F → Point3 F) (checkNormals : MNNormalSpec F → MNNormalSpec F)
    (mesh : FWMesh F D) (total : Nat) (polygonObject : PolyObject F) (r : Bool × PolyObject F)
    (h : importPolygonMesh narrow normalize checkNormals mesh total polygonObject = some r) :
    r.1 = true := by
  unfold importPolygonMesh at h
  split at h
  · rename_i heq
    have : (importPolygonMeshPositions narrow mesh total mesh.polygonsPolygonCount
      polygonObject.mesh).1 = true := rfl
    rw [heq] at this
    exact absurd this (by simp)
  · split at h
    · exact absurd h (by simp)
    · rename_i heq
      exact absurd (importPolygonMeshNormals_flag _ _ _ _ _ _ _ heq) (by simp)
    · simp only [Option.some.injEq] at h
      subst h
      rfl

/-- The function `importPolygonMesh` returns on a mesh without null primitives. -/
theorem importPolygonMesh_isSome {F D : Type} [Inhabited F] [Inhabited D] (narrow : D → F)
    (normalize : Point3 F → Point3 F) (checkNormals : MNNormalSpec F → MNNormalSpec F)
    (mesh : FWMesh F D) (total : Nat) (polygonObject : PolyObject F)
    (hnull : ∀ q ∈ mesh.meshPrimitives, q ≠ none) :
    ∃ r, importPolygonMesh narrow normalize checkNormals mesh total polygonObject = some r := by
  unfold importPolygonMesh
  split
  · exact ⟨_, rfl⟩
  · split
    · rename_i heq
      obtain ⟨r, hr⟩ := importPolygonMeshNormals_isSome narrow normalize checkNormals mesh _
        polygonObject.normals hnull
      rw [hr] at heq
      exact absurd heq (by simp)
    · exact ⟨_, rfl⟩
    · exact ⟨_, rfl⟩

/-- Whenever `importMesh` returns, it returns `true`. -/
theorem importMesh_flag {F D : Type} [Inhabited F] [Inhabited D] (narrow : D → F)
    (sdk : MaxSDK F) (mesh : FWMesh F D) (materialMap : List (Nat × Nat))
    (r : Bool × Nat × ImportedObject F) (h : importMesh narrow sdk mesh materialMap = some r) :
    r.1 = true := by
  unfold importMesh at h
  dsimp only at h
  split at h
  · split at h
    · exact absurd h (by simp)
    · rename_i q heq
      simp only [Option.some.injEq] at h
      subst h
      exact importPolygonMesh_flag _ _ _ _ _ _ _ heq
  · split at h
    · split at h
      · exact absurd h (by simp)
      · rename_i q heq
        simp only [Option.some.injEq] at h
        subst h
        exact importTriangleMesh_flag _ _ _ _ _ _ _ _ heq
    · simp only [Option.some.injEq] at h
      subst h
      rfl

/-- The function `importMesh` returns on a mesh without null primitives. -/
theorem importMesh_isSome {F D : Type} [Inhabited F] [Inhabited D] (narrow : D → F)
    (sdk : MaxSDK F) (mesh : FWMesh F D) (materialMap : List (Nat × Nat))
    (hnull : ∀ q ∈ mesh.meshPrimitives, q ≠ none) :
    ∃ r, importMesh narrow sdk mesh materialMap = some r := by
  unfold importMesh
  dsimp only
  split
  · obtain ⟨r, hr⟩ := importPolygonMesh_isSome narrow sdk.Normalize sdk.CheckNormalsMN mesh
      (mesh.trianglesTriangleCount + mesh.tristripsTriangleCount + mesh.trifansTriangleCount)
      sdk.CreateEditablePolyObject hnull
    rw [hr]
    exact ⟨_, rfl⟩
  · split
    · obtain ⟨r, hr⟩ := importTriangleMesh_isSome narrow sdk.Normalize sdk.CheckNormals mesh
        (mesh.trianglesTriangleCount + mesh.tristripsTriangleCount + mesh.trifansTriangleCount)
        materialMap sdk.CreateNewTriObject hnull
      rw [hr]
      exact ⟨_, rfl⟩
    · exact ⟨_, rfl⟩

/-- C30. Whenever one of the four passes `importTriangleMeshPositions`,
`importTriangleMeshNormals`, `importPolygonMeshPositions`, `importPolygonMeshNormals` returns,
the flag it returns is `true`, and so is the flag of `importTriangleMesh`, `importPolygonMesh`
and `importMesh`; `import()` returns `true` whatever `importMesh` returned, and `true` for a
geometry that is not a mesh. On a mesh without a null primitive pointer all of them return.
When a second-try call of `assignMapChannels` returns `false`, the loop of
`createSetSourcePairMapChannelMap` ends and the function goes on to return like after a
success, and `importTriangleMeshUVCoords`, which calls it, returns `true` whenever it
returns. -/
theorem C30_no_pass_reports_failure {F D : Type} [Inhabited F] [Inhabited D] (narrow : D → F)
    (sdk : MaxSDK F) (mesh : FWMesh F D) (materialMap : List (Nat × Nat)) :
    (∀ total triangleMesh r,
      importTriangleMeshPositions narrow mesh total materialMap triangleMesh = some r →
        r.1 = true) ∧
    (∀ triangleMesh ns r,
      importTriangleMeshNormals narrow sdk.Normalize sdk.CheckNormals mesh triangleMesh ns
        = some r → r.1 = true) ∧
    (∀ total polys polgonMesh,
      (importPolygonMeshPositions narrow mesh total polys polgonMesh).1 = true) ∧
    (∀ polygonMesh ns r,
      importPolygonMeshNormals narrow sdk.Normalize sdk.CheckNormalsMN mesh polygonMesh ns
        = some r → r.1 = true) ∧
    (∀ total triangleObject r,
      importTriangleMesh narrow sdk.Normalize sdk.CheckNormals mesh total materialMap
        triangleObject = some r → r.1 = true) ∧
    (∀ total polygonObject r,
      importPolygonMesh narrow sdk.Normalize sdk.CheckNormalsMN mesh total polygonObject
        = some r → r.1 = true) ∧
    (∀ r, importMesh narrow sdk mesh materialMap = some r →
      r.1 = true ∧
      importGeometry narrow sdk (Geometry.mesh mesh) materialMap = some (true, some r)) ∧
    importGeometry narrow sdk (Geometry.other : Geometry F D) materialMap = some (true, none) ∧
    ((∀ q ∈ mesh.meshPrimitives, q ≠ none) →
      (∀ total triangleMesh, ∃ r,
        importTriangleMeshPositions narrow mesh total materialMap triangleMesh = some r) ∧
      (∀ triangleMesh ns, ∃ r,
        importTriangleMeshNormals narrow sdk.Normalize sdk.CheckNormals mesh triangleMesh ns
          = some r) ∧
      (∀ polygonMesh ns, ∃ r,
        importPolygonMeshNormals narrow sdk.Normalize sdk.CheckNormalsMN mesh polygonMesh ns
          = some r) ∧
      (∀ total triangleObject, ∃ r,
        importTriangleMesh narrow sdk.Normalize sdk.CheckNormals mesh total materialMap
          triangleObject = some r) ∧
      (∀ total polygonObject, ∃ r,
        importPolygonMesh narrow sdk.Normalize sdk.CheckNormalsMN mesh total polygonObject
          = some r) ∧
      ∃ r, importMesh narrow sdk mesh materialMap = some r ∧
        importGeometry narrow sdk (Geometry.mesh mesh) materialMap = some (true, some r)) ∧
    (∀ (lim : MapLimits) (p : MeshPrimitive) (rest : List (Option MeshPrimitive))
        (s s1 : ChannelState),
      (assignMapChannels lim true false s.1.mColorInitialIndexSourceIndexMap
          p.colorIndicesArray s = some (false, s1) →
        secondTry lim (some p :: rest) s = some s1) ∧
      (∀ s2, assignMapChannels lim true false s.1.mColorInitialIndexSourceIndexMap
          p.colorIndicesArray s = some (true, s1) →
        assignMapChannels lim false false s1.1.mUVInitialIndexSourceIndexMap
          p.uvCoordIndicesArray s1 = some (false, s2) →
        secondTry lim (some p :: rest) s = some s2)) ∧
    (∀ (order : ArgOrder) (zero : F) (lim : MapLimits) (uVInitialIndex : Nat) (imp : Importer)
        (t : MeshMaps F) r,
      importTriangleMeshUVCoords order narrow zero lim uVInitialIndex mesh imp t = some r →
        r.1 = true) := by
  have himp : ∀ r, importMesh narrow sdk mesh materialMap = some r →
      importGeometry narrow sdk (Geometry.mesh mesh) materialMap = some (true, some r) := by
    intro r h
    simp only [importGeometry, h]
  refine ⟨?_, ?_, ?_, ?_, ?_, ?_, ?_, rfl, ?_, ?_, ?_⟩
  · intro total triangleMesh r h
    exact importTriangleMeshPositions_flag _ _ _ _ _ _ h
  · intro triangleMesh ns r h
    exact importTriangleMeshNormals_flag _ _ _ _ _ _ _ h
  · intro total polys polgonMesh
    rfl
  · intro polygonMesh ns r h
    exact importPolygonMeshNormals_flag _ _ _ _ _ _ _ h
  · intro total triangleObject r h
    exact importTriangleMesh_flag _ _ _ _ _ _ _ _ h
  · intro total polygonObject r h
    exact importPolygonMesh_flag _ _ _ _ _ _ _ h
  · intro r h
    exact ⟨importMesh_flag _ _ _ _ _ h, himp r h⟩
  · intro hnull
    refine ⟨?_, ?_, ?_, ?_, ?_, ?_⟩
    · intro total triangleMesh
      obtain ⟨mm, h⟩ :=
        importTriangleMeshPositions_eq narrow mesh total materialMap triangleMesh hnull
      exact ⟨_, h⟩
    · intro triangleMesh ns
      exact importTriangleMeshNormals_isSome _ _ _ _ _ _ hnull
    · intro polygonMesh ns
      exact importPolygonMeshNormals_isSome _ _ _ _ _ _ hnull
    · intro total triangleObject
      exact importTriangleMesh_isSome _ _ _ _ _ _ _ hnull
    · intro total polygonObject
      exact importPolygonMesh_isSome _ _ _ _ _ _ hnull
    · obtain ⟨r, h⟩ := importMesh_isSome narrow sdk mesh materialMap hnull
      exact ⟨r, h, himp r h⟩
  · intro lim p rest s s1
    constructor
    · intro h
      simp only [secondTry, h]
    · intro s2 h1 h2
      simp only [secondTry, h1, h2]
  · intro order zero lim uVInitialIndex imp t r h
    unfold importTriangleMeshUVCoords at h
    split at h
    · exact absurd h (by simp)
    · dsimp only at h
      split at h
      · exact absurd h (by simp)
      · simp only [Option.some.injEq] at h
        subst h
        rfl

/-- An instance of C30: a mesh of one triangle with normals has no null primitive, and
`importMesh` and `import()` return on it, `import()` with the flag `true`. -/
theorem C30_no_pass_reports_failure_witness :
    (∀ q ∈ FWMesh.oneTriangle.meshPrimitives, q ≠ none) ∧
    ∃ r, importMesh (fun d : Nat => d) MaxSDK.plain FWMesh.oneTriangle [] = some r ∧
      importGeometry (fun d : Nat => d) MaxSDK.plain (Geometry.mesh FWMesh.oneTriangle) []
        = some (true, some r) :=
  ⟨by simp [FWMesh.oneTriangle],
    ((C30_no_pass_reports_failure (fun d : Nat => d) MaxSDK.plain FWMesh.oneTriangle
      []).2.2.2.2.2.2.2.2.1 (by simp [FWMesh.oneTriangle])).2.2.2.2.2⟩

/-! ## The face loops in the form the passes share -/

/-- A loop whose body writes the cell at the cursor from a triple that depends on the loop
index. -/
theorem forRange_cell {α τ : Type} (body : Nat → Cursor α → Cursor α) (tri : Nat → τ)
    (mk : τ → α → α)
    (hbody : ∀ j s, body j s = (s.1 + 1, Function.update s.2 s.1 (mk (tri j) (s.2 s.1)))) :
    ∀ (n j fi : Nat) (arr : Nat → α),
      (forRange body n j (fi, arr)).1 = fi + n ∧
      Cursor.Within (fi, arr) (forRange body n j (fi, arr)) ∧
      ∀ t, t < n → (forRange body n j (fi, arr)).2 (fi + t) = mk (tri (j + t)) (arr (fi + t)) := by
  intro n
  induction n with
  | zero =>
    intro j fi arr
    exact ⟨rfl, Cursor.within_refl _, fun t ht => absurd ht (by omega)⟩
  | succ n ih =>
    intro j fi arr
    simp only [forRange]
    rw [hbody]
    dsimp only
    obtain ⟨h1, h2, h3⟩ := ih (j + 1) (fi + 1) (Function.update arr fi (mk (tri j) (arr fi)))
    refine ⟨by rw [h1]; omega, Cursor.within_trans (update_within (fi, arr) _) h2, ?_⟩
    intro t ht
    cases t with
    | zero =>
      simp only [Nat.add_zero]
      rw [h2.2 fi (Or.inl (by show fi < fi + 1; omega))]
      exact Function.update_same _ _ _
    | succ t =>
      have e : fi + (t + 1) = fi + 1 + t := by omega
      have e2 : j + 1 + t = j + (t + 1) := by omega
      rw [e, h3 t (by omega), Function.update_noteq (by omega), e2]

/-- A loop whose body flips a flag and writes the cell at the cursor from a triple that
depends on the flag and the loop index. -/
theorem forRange_flagCell {α τ : Type} (body : Nat → Bool × Cursor α → Bool × Cursor α)
    (tri : Bool → Nat → τ) (mk : τ → α → α) (lo : Nat)
    (hbody : ∀ j s, lo ≤ j → body j s
      = (!s.1, s.2.1 + 1, Function.update s.2.2 s.2.1 (mk (tri s.1 j) (s.2.2 s.2.1)))) :
    ∀ (n j : Nat) (sw : Bool) (fi : Nat) (arr : Nat → α), lo ≤ j →
      (forRange body n j (sw, fi, arr)).2.1 = fi + n ∧
      Cursor.Within (fi, arr) (forRange body n j (sw, fi, arr)).2 ∧
      ∀ t, t < n → (forRange body n j (sw, fi, arr)).2.2 (fi + t)
        = mk (tri (flagAt sw t) (j + t)) (arr (fi + t)) := by
  intro n
  induction n with
  | zero =>
    intro j sw fi arr _
    exact ⟨rfl, Cursor.within_refl _, fun t ht => absurd ht (by omega)⟩
  | succ n ih =>
    intro j sw fi arr hj
    simp only [forRange]
    rw [hbody j _ hj]
    dsimp only
    obtain ⟨h1, h2, h3⟩ := ih (j + 1) (!sw) (fi + 1)
      (Function.update arr fi (mk (tri sw j) (arr fi))) (by omega)
    refine ⟨by rw [h1]; omega, Cursor.within_trans (update_within (fi, arr) _) h2, ?_⟩
    intro t ht
    cases t with
    | zero =>
      simp only [Nat.add_zero]
      rw [h2.2 fi (Or.inl (by show fi < fi + 1; omega))]
      have : flagAt sw 0 = sw := by simp [flagAt]
      rw [this]
      exact Function.update_same _ _ _
    | succ t =>
      have e : fi + (t + 1) = fi + 1 + t := by omega
      have e2 : j + 1 + t = j + (t + 1) := by omega
      rw [e, h3 t (by omega), Function.update_noteq (by omega), e2, flagAt_succ]

/-- The loop `for (j = i; j < stop; j += 3)` whose body writes the cell at the cursor. -/
theorem forStep_cell {α τ : Type} (body : Nat → Cursor α → Cursor α) (tri : Nat → τ)
    (mk : τ → α → α)
    (hbody : ∀ j s, body j s = (s.1 + 1, Function.update s.2 s.1 (mk (tri j) (s.2 s.1))))
    (stop : Nat) :
    ∀ (fuel i fi : Nat) (arr : Nat → α), (stop - i + 2) / 3 ≤ fuel →
      (forStep 3 stop body fuel i (fi, arr)).1 = fi + (stop - i + 2) / 3 ∧
      Cursor.Within (fi, arr) (forStep 3 stop body fuel i (fi, arr)) ∧
      ∀ t, t < (stop - i + 2) / 3 →
        (forStep 3 stop body fuel i (fi, arr)).2 (fi + t)
          = mk (tri (i + 3 * t)) (arr (fi + t)) := by
  intro fuel
  induction fuel with
  | zero =>
    intro i fi arr h
    have h0 : (stop - i + 2) / 3 = 0 := by omega
    rw [h0]
    exact ⟨rfl, Cursor.within_refl _, fun t ht => absurd ht (by omega)⟩
  | succ fuel ih =>
    intro i fi arr h
    simp only [forStep]
    by_cases hi : i < stop
    · simp only [hi, if_true]
      rw [hbody]
      dsimp only
      have hR : (stop - i + 2) / 3 = (stop - (i + 3) + 2) / 3 + 1 := by omega
      obtain ⟨h1, h2, h3⟩ := ih (i + 3) (fi + 1)
        (Function.update arr fi (mk (tri i) (arr fi))) (by omega)
      refine ⟨by rw [h1, hR]; omega, Cursor.within_trans (update_within (fi, arr) _) h2, ?_⟩
      intro t ht
      cases t with
      | zero =>
        simp only [Nat.add_zero, Nat.mul_zero]
        rw [h2.2 fi (Or.inl (by show fi < fi + 1; omega))]
        exact Function.update_same _ _ _
      | succ t =>
        have e : fi + (t + 1) = fi + 1 + t := by omega
        have e1 : i + 3 + 3 * t = i + 3 * (t + 1) := by omega
        rw [e, h3 t (by omega), Function.update_noteq (by omega), e1]
    · simp only [hi, if_false]
      have h0 : (stop - i + 2) / 3 = 0 := by omega
      rw [h0]
      exact ⟨rfl, Cursor.within_refl _, fun t ht => absurd ht (by omega)⟩

/-- A triangle-list loop that steps through the index array by three decomposes it. -/
theorem listLoop_decomposes {α : Type} (idx : List Nat) (mk : Nat × Nat × Nat → α → α)
    (body : Nat → Cursor α → Cursor α)
    (hbody : ∀ j s, body j s = (s.1 + 1, Function.update s.2 s.1
      (mk (rd idx j, rd idx (j + 1), rd idx (j + 2)) (s.2 s.1))))
    (s : Cursor α) :
    Decomposes mk (listTriangles idx) s (forStep 3 idx.length body idx.length 0 s) := by
  obtain ⟨fi, arr⟩ := s
  obtain ⟨h1, h2, h3⟩ := forStep_cell body (fun j => (rd idx j, rd idx (j + 1), rd idx (j + 2)))
    mk hbody idx.length idx.length 0 fi arr (by omega)
  refine ⟨by rw [h1]; simp [listTriangles], h2, ?_⟩
  intro t x hx
  obtain ⟨ht, hx⟩ := getElem?_range_map _ _ _ _ hx
  show (forStep 3 idx.length body idx.length 0 (fi, arr)).2 (fi + t) = mk x (arr (fi + t))
  rw [h3 t (by simpa using ht), hx]
  simp

/-- A triangle-list loop that counts the faces decomposes the index array when the array has
three indices per face. -/
theorem countLoop_decomposes {α : Type} (idx : List Nat) (mk : Nat × Nat × Nat → α → α)
    (body : Nat → Cursor α → Cursor α)
    (hbody : ∀ j s, body j s = (s.1 + 1, Function.update s.2 s.1
      (mk (rd idx (3 * j), rd idx (3 * j + 1), rd idx (3 * j + 2)) (s.2 s.1))))
    (n : Nat) (hn : idx.length = 3 * n) (s : Cursor α) :
    Decomposes mk (listTriangles idx) s (forRange body n 0 s) := by
  obtain ⟨fi, arr⟩ := s
  obtain ⟨h1, h2, h3⟩ := forRange_cell body
    (fun j => (rd idx (3 * j), rd idx (3 * j + 1), rd idx (3 * j + 2))) mk hbody n 0 fi arr
  have hlen : (idx.length + 2) / 3 = n := by omega
  refine ⟨by rw [h1]; simp [listTriangles, hlen], h2, ?_⟩
  intro t x hx
  obtain ⟨ht, hx⟩ := getElem?_range_map _ _ _ _ hx
  show (forRange body n 0 (fi, arr)).2 (fi + t) = mk x (arr (fi + t))
  rw [h3 t (by omega), hx]
  simp

/-- Strip runs decompose the index array, whatever the cell type. -/
theorem stripRuns_decomposes {α : Type} (idx : List Nat) (mk : Nat × Nat × Nat → α → α)
    (body : Nat → Bool × Cursor α → Bool × Cursor α)
    (run : Nat × Cursor α → Nat → Nat × Cursor α)
    (hbody : ∀ j s, 2 ≤ j → body j s = (!s.1, s.2.1 + 1, Function.update s.2.2 s.2.1
      (mk (if s.1 then (rd idx (j - 1), rd idx (j - 2), rd idx j)
        else (rd idx (j - 2), rd idx (j - 1), rd idx j)) (s.2.2 s.2.1))))
    (hrun : ∀ s L, run s L
      = (s.1 + L, (forRange body (s.1 + L - (s.1 + 2)) (s.1 + 2) (false, s.2)).2))
    (counts : List Nat) (s : Cursor α) :
    Decomposes mk (stripTriangles idx 0 counts) s (counts.foldl run (0, s)).2 := by
  obtain ⟨fi, arr⟩ := s
  refine foldl_run_closed run (stripRunTriangles idx) mk ?_ counts 0 fi arr
  intro start fi arr L
  have e : start + L - (start + 2) = L - 2 := by omega
  obtain ⟨h1, h2, h3⟩ := forRange_flagCell body
    (fun sw j => if sw then (rd idx (j - 1), rd idx (j - 2), rd idx j)
      else (rd idx (j - 2), rd idx (j - 1), rd idx j)) mk 2 hbody (L - 2) (start + 2) false fi
    arr (by omega)
  rw [hrun]
  simp only [e]
  refine ⟨trivial, by rw [h1]; simp [stripRunTriangles], h2, ?_⟩
  intro t x hx
  obtain ⟨ht, hx⟩ := getElem?_range_map _ _ _ _ hx
  rw [h3 t ht, hx]
  have e1 : start + 2 + t - 1 = start + t + 1 := by omega
  have e2 : start + 2 + t - 2 = start + t := by omega
  have e3 : start + 2 + t = start + t + 2 := by omega
  unfold flagAt
  rw [e1, e2, e3]
  by_cases h : t % 2 = 0 <;> simp [h]

/-- Fan runs decompose the index array, whatever the cell type. -/
theorem fanRuns_decomposes {α : Type} (idx : List Nat) (mk : Nat × Nat × Nat → α → α)
    (body : Nat → Nat → Cursor α → Cursor α)
    (run : Nat × Cursor α → Nat → Nat × Cursor α)
    (hbody : ∀ c j s, body c j s = (s.1 + 1, Function.update s.2 s.1
      (mk (c, rd idx (j - 1), rd idx j) (s.2 s.1))))
    (hrun : ∀ s L, run s L
      = (s.1 + L, forRange (body (rd idx s.1)) (s.1 + L - (s.1 + 2)) (s.1 + 2) s.2))
    (counts : List Nat) (s : Cursor α) :
    Decomposes mk (fanTriangles idx 0 counts) s (counts.foldl run (0, s)).2 := by
  obtain ⟨fi, arr⟩ := s
  refine foldl_run_closed run (fanRunTriangles idx) mk ?_ counts 0 fi arr
  intro start fi arr L
  have e : start + L - (start + 2) = L - 2 := by omega
  obtain ⟨h1, h2, h3⟩ := forRange_cell (body (rd idx start))
    (fun j => (rd idx start, rd idx (j - 1), rd idx j)) mk (hbody (rd idx start))
    (L - 2) (start + 2) fi arr
  rw [hrun]
  simp only [e]
  refine ⟨trivial, by rw [h1]; simp [fanRunTriangles], h2, ?_⟩
  intro t x hx
  obtain ⟨ht, hx⟩ := getElem?_range_map _ _ _ _ hx
  rw [h3 t ht, hx]
  have e1 : start + 2 + t - 1 = start + t + 1 := by omega
  have e3 : start + 2 + t = start + t + 2 := by omega
  rw [e1, e3]

/-! ## Every pass decomposes its index array in the same way -/

theorem primitiveTriangles_eq (p : MeshPrimitive) :
    primitiveTriangles p
      = decomposition p.primitiveType p.positionIndices p.groupedVerticesVertexCountArray := by
  unfold primitiveTriangles decomposition
  cases p.primitiveType <;> rfl

/-- The normal pass of the triangle mesh on one primitive. -/
theorem normalsPrimitives_decomposes (p : MeshPrimitive)
    (hcount : p.primitiveType = PrimitiveType.TRIANGLES →
      p.normalIndices.length = 3 * p.faceCount)
    (s : Cursor MeshNormalFace) :
    ∃ r, normalsPrimitives [some p] s = some r ∧
      Decomposes normalFaceOf
        (decomposition p.primitiveType p.normalIndices p.groupedVerticesVertexCountArray)
        s r := by
  cases hty : p.primitiveType
  case TRIANGLES =>
    refine ⟨_, by simp only [normalsPrimitives, hty]; rfl, ?_⟩
    exact countLoop_decomposes p.normalIndices normalFaceOf
      (normalsTrianglesBody p.normalIndices) (fun _ _ => rfl) p.faceCount (hcount hty) s
  case TRIANGLE_STRIPS =>
    refine ⟨_, by simp only [normalsPrimitives, hty]; rfl, ?_⟩
    exact stripRuns_decomposes p.normalIndices normalFaceOf
      (normalsTristripBody p.normalIndices) (normalsTristripRun p.normalIndices)
      (fun j s _ => by
        obtain ⟨sw, c⟩ := s
        cases sw <;> rfl)
      (fun _ _ => rfl) p.groupedVerticesVertexCountArray s
  case TRIANGLE_FANS =>
    refine ⟨_, by simp only [normalsPrimitives, hty]; rfl, ?_⟩
    exact fanRuns_decomposes p.normalIndices normalFaceOf
      (normalsTrifanBody p.normalIndices) (normalsTrifanRun p.normalIndices)
      (fun _ _ _ => rfl) (fun _ _ => rfl) p.groupedVerticesVertexCountArray s
  all_goals
    exact ⟨s, by simp only [normalsPrimitives, hty],
      by simp [decomposition, Decomposes, Cursor.within_refl]⟩

/-- The normal pass of the polygon mesh on one primitive of triangles, strips or fans. -/
theorem polyNormalsPrimitives_decomposes (p : MeshPrimitive)
    (htype : p.primitiveType = PrimitiveType.TRIANGLES ∨
      p.primitiveType = PrimitiveType.TRIANGLE_STRIPS ∨
      p.primitiveType = PrimitiveType.TRIANGLE_FANS)
    (hcount : p.primitiveType = PrimitiveType.TRIANGLES →
      p.normalIndices.length = 3 * p.faceCount)
    (s : Cursor MNNormalFace) :
    ∃ r, polyNormalsPrimitives [some p] s = some r ∧
      Decomposes polyNormalFaceOf
        (decomposition p.primitiveType p.normalIndices p.groupedVerticesVertexCountArray)
        s r := by
  rcases htype with hty | hty | hty
  · rw [hty]
    refine ⟨_, by simp only [polyNormalsPrimitives, hty]; rfl, ?_⟩
    exact countLoop_decomposes p.normalIndices polyNormalFaceOf
      (polyNormalsTrianglesBody p.normalIndices) (fun _ _ => rfl) p.faceCount (hcount hty) s
  · rw [hty]
    refine ⟨_, by simp only [polyNormalsPrimitives, hty]; rfl, ?_⟩
    exact stripRuns_decomposes p.normalIndices polyNormalFaceOf
      (polyNormalsTristripBody p.normalIndices) (polyNormalsTristripRun p.normalIndices)
      (fun j s _ => by
        obtain ⟨sw, c⟩ := s
        cases sw <;> rfl)
      (fun _ _ => rfl) p.groupedVerticesVertexCountArray s
  · rw [hty]
    refine ⟨_, by simp only [polyNormalsPrimitives, hty]; rfl, ?_⟩
    exact fanRuns_decomposes p.normalIndices polyNormalFaceOf
      (polyNormalsTrifanBody p.normalIndices) (polyNormalsTrifanRun p.normalIndices)
      (fun _ _ _ => rfl) (fun _ _ => rfl) p.groupedVerticesVertexCountArray s

/-- The position pass of the polygon mesh on one primitive of triangles, strips or fans. -/
theorem polyPositionsPrimitive_decomposes (p : MeshPrimitive)
    (htype : p.primitiveType = PrimitiveType.TRIANGLES ∨
      p.primitiveType = PrimitiveType.TRIANGLE_STRIPS ∨
      p.primitiveType = PrimitiveType.TRIANGLE_FANS)
    (s : Cursor MNFace) :
    Decomposes polyFaceOf
      (decomposition p.primitiveType p.positionIndices p.groupedVerticesVertexCountArray)
      s (polyPositionsPrimitive s (some p)) := by
  rcases htype with hty | hty | hty
  · have e : polyPositionsPrimitive s (some p)
        = forStep 3 p.positionIndices.length (polyTrianglesBody p.positionIndices)
            p.positionIndices.length 0 s := by
      simp only [polyPositionsPrimitive, hty]
    rw [hty, e]
    exact listLoop_decomposes p.positionIndices polyFaceOf
      (polyTrianglesBody p.positionIndices)
      (fun j s => by simp [polyTrianglesBody, polyFaceOf, readFrom, List.range_succ]) s
  · have e : polyPositionsPrimitive s (some p)
        = (p.groupedVerticesVertexCountArray.foldl
            (polyTristripRun p.positionIndices) (0, s)).2 := by
      simp only [polyPositionsPrimitive, hty]
    rw [hty, e]
    exact stripRuns_decomposes p.positionIndices polyFaceOf
      (polyTristripBody p.positionIndices) (polyTristripRun p.positionIndices)
      (fun j s hj => by
        obtain ⟨sw, c⟩ := s
        have e1 : j - 2 + 1 = j - 1 := by omega
        have e2 : j - 2 + 2 = j := by omega
        cases sw <;>
          simp [polyTristripBody, polyFaceOf, readFrom, List.range_succ, e1, e2])
      (fun _ _ => rfl) p.groupedVerticesVertexCountArray s
  · have e : polyPositionsPrimitive s (some p)
        = (p.groupedVerticesVertexCountArray.foldl
            (polyTrifanRun p.positionIndices) (0, s)).2 := by
      simp only [polyPositionsPrimitive, hty]
    rw [hty, e]
    exact fanRuns_decomposes p.positionIndices polyFaceOf
      (polyTrifanBody p.positionIndices) (polyTrifanRun p.positionIndices)
      (fun _ _ _ => rfl) (fun _ _ => rfl) p.groupedVerticesVertexCountArray s

/-- The loop of the UV pass for one UV index list of a primitive: the faces of the channel the
list resolves to. -/
theorem uvIndexListStep_decomposes (p : MeshPrimitive) (faceIndex : Nat) (st : UVState)
    (uvIndexList : IndexList) :
    Decomposes (fun x _ => some x)
      (decomposition p.primitiveType uvIndexList.indices p.groupedVerticesVertexCountArray)
      (faceIndex, st.2.2
        (mapIndex pairLt
          (toLong uvIndexList.setIndex,
            (mapIndex natLt uvIndexList.initialIndex st.2.1.mUVInitialIndexSourceIndexMap).1)
          st.2.1.mSetSourcePairMapChannelMap).1)
      ((uvIndexListStep p faceIndex st uvIndexList).1,
        (uvIndexListStep p faceIndex st uvIndexList).2.2
          (mapIndex pairLt
            (toLong uvIndexList.setIndex,
              (mapIndex natLt uvIndexList.initialIndex st.2.1.mUVInitialIndexSourceIndexMap).1)
            st.2.1.mSetSourcePairMapChannelMap).1) := by
  cases hty : p.primitiveType
  case TRIANGLES =>
    simp only [uvIndexListStep, hty, Function.update_same]
    exact listLoop_decomposes uvIndexList.indices (fun x _ => some x)
      (uvTrianglesBody uvIndexList.indices) (fun _ _ => rfl) _
  case TRIANGLE_STRIPS =>
    simp only [uvIndexListStep, hty, Function.update_same]
    exact stripRuns_decomposes uvIndexList.indices (fun x _ => some x)
      (uvTristripBody uvIndexList.indices) (uvTristripRun uvIndexList.indices)
      (fun j s _ => by
        obtain ⟨sw, c⟩ := s
        cases sw <;> rfl)
      (fun _ _ => rfl) p.groupedVerticesVertexCountArray _
  case TRIANGLE_FANS =>
    simp only [uvIndexListStep, hty, Function.update_same]
    exact fanRuns_decomposes uvIndexList.indices (fun x _ => some x)
      (uvTrifanBody uvIndexList.indices) (uvTrifanRun uvIndexList.indices)
      (fun _ _ _ => rfl) (fun _ _ => rfl) p.groupedVerticesVertexCountArray _
  all_goals
    simp only [uvIndexListStep, hty]
    simp [decomposition, Decomposes, Cursor.within_refl]

/-- C23. Take a primitive of triangles, strips or fans whose normal index array, when it is a
triangle list, has three indices per face. Each of the five copies of the decomposition writes,
from the face index it starts with, one face per corner triple of
`decomposition type indices counts` applied to the index array it is given, in the same order,
and no other face: the position pass and the normal pass of the triangle mesh, the loop of the
UV pass for a UV index list, and the position pass and the normal pass of the polygon mesh.
The face each of them makes of a triple holds the three corners of the triple. So on the same
index array all five produce the same sequence of corner triples. -/
theorem C23_same_decomposition (p : MeshPrimitive)
    (htype : p.primitiveType = PrimitiveType.TRIANGLES ∨
      p.primitiveType = PrimitiveType.TRIANGLE_STRIPS ∨
      p.primitiveType = PrimitiveType.TRIANGLE_FANS)
    (hcount : p.primitiveType = PrimitiveType.TRIANGLES →
      p.normalIndices.length = 3 * p.faceCount)
    (uvIndexList : IndexList) (faceIndex : Nat) (st : UVState) (s1 : FaceState)
    (s2 : Cursor MeshNormalFace) (s4 : Cursor MNFace) (s5 : Cursor MNNormalFace) :
    Decomposes (writtenFace p)
      (decomposition p.primitiveType p.positionIndices p.groupedVerticesVertexCountArray)
      s1 (positionsPrimitive s1 (some p)) ∧
    (∃ r, normalsPrimitives [some p] s2 = some r ∧
      Decomposes normalFaceOf
        (decomposition p.primitiveType p.normalIndices p.groupedVerticesVertexCountArray)
        s2 r) ∧
    Decomposes (fun x _ => some x)
      (decomposition p.primitiveType uvIndexList.indices p.groupedVerticesVertexCountArray)
      (faceIndex, st.2.2
        (mapIndex pairLt
          (toLong uvIndexList.setIndex,
            (mapIndex natLt uvIndexList.initialIndex st.2.1.mUVInitialIndexSourceIndexMap).1)
          st.2.1.mSetSourcePairMapChannelMap).1)
      ((uvIndexListStep p faceIndex st uvIndexList).1,
        (uvIndexListStep p faceIndex st uvIndexList).2.2
          (mapIndex pairLt
            (toLong uvIndexList.setIndex,
              (mapIndex natLt uvIndexList.initialIndex st.2.1.mUVInitialIndexSourceIndexMap).1)
            st.2.1.mSetSourcePairMapChannelMap).1) ∧
    Decomposes polyFaceOf
      (decomposition p.primitiveType p.positionIndices p.groupedVerticesVertexCountArray)
      s4 (polyPositionsPrimitive s4 (some p)) ∧
    (∃ r, polyNormalsPrimitives [some p] s5 = some r ∧
      Decomposes polyNormalFaceOf
        (decomposition p.primitiveType p.normalIndices p.groupedVerticesVertexCountArray)
        s5 r) ∧
    (∀ x old, (writtenFace p x old).v = x) ∧
    (∀ x old, (normalFaceOf x old).normalID = (some x.1, some x.2.1, some x.2.2)) ∧
    (∀ x old, polyFaceOf x old = { deg := 3, vtx := [x.1, x.2.1, x.2.2] }) ∧
    (∀ x old, (polyNormalFaceOf x old).deg = 3 ∧
      (polyNormalFaceOf x old).normalID 0 = some x.1 ∧
      (polyNormalFaceOf x old).normalID 1 = some x.2.1 ∧
      (polyNormalFaceOf x old).normalID 2 = some x.2.2) := by
  refine ⟨?_, normalsPrimitives_decomposes p hcount s2, uvIndexListStep_decomposes p faceIndex st
    uvIndexList, polyPositionsPrimitive_decomposes p htype s4,
    polyNormalsPrimitives_decomposes p htype hcount s5, ?_, ?_, ?_, ?_⟩
  · rw [← primitiveTriangles_eq]
    exact positionsPrimitive_closed s1 p
  · intro x old
    rfl
  · intro x old
    rfl
  · intro x old
    rfl
  · intro x old
    exact ⟨rfl, rfl, rfl, rfl⟩

/-- An instance of C23: a strip of five indices over the same array for positions and normals;
its second triangle is `(12, 11, 13)` in the position pass of the triangle mesh and in the
normal pass of the polygon mesh. -/
theorem C23_same_decomposition_witness :
    ((positionsPrimitive (0, fun _ => Face.blank)
        (some { MeshPrimitive.simple PrimitiveType.TRIANGLE_STRIPS [10, 11, 12, 13, 14] [5]
          with normalIndices := [10, 11, 12, 13, 14] })).2 1).v = (12, 11, 13) ∧
    ∃ r, polyNormalsPrimitives
        [some { MeshPrimitive.simple PrimitiveType.TRIANGLE_STRIPS [10, 11, 12, 13, 14] [5]
          with normalIndices := [10, 11, 12, 13, 14] }]
        (0, fun _ => { deg := 0, specified := false, normalID := fun _ => none }) = some r ∧
      ((r.2 1).normalID 0, (r.2 1).normalID 1, (r.2 1).normalID 2)
        = (some 12, some 11, some 13) := by
  obtain ⟨h1, _, _, _, ⟨r, hr, h5⟩, c1, _, _, c5⟩ := C23_same_decomposition
    { MeshPrimitive.simple PrimitiveType.TRIANGLE_STRIPS [10, 11, 12, 13, 14] [5]
      with normalIndices := [10, 11, 12, 13, 14] }
    (Or.inr (Or.inl rfl)) (fun h => absurd h (by decide)) ⟨0, 0, []⟩ 0
    (0, Importer.fresh 0, fun _ _ => none) (0, fun _ => Face.blank)
    (0, fun _ => { specified := false, normalID := (none, none, none) })
    (0, fun _ => MNFace.blank)
    (0, fun _ => { deg := 0, specified := false, normalID := fun _ => none })
  constructor
  · have := h1.2.2 1 (12, 11, 13) (by decide)
    rw [this]
    exact c1 _ _
  · refine ⟨r, hr, ?_⟩
    have := h5.2.2 1 (12, 11, 13) (by decide)
    rw [this]
    rw [(c5 _ _).2.1, (c5 _ _).2.2.1, (c5 _ _).2.2.2]

/-! ## The reads of the strip and fan loops stay inside the index array -/

theorem forRange_tristripReadsBody (bound : Nat) :
    ∀ (n j : Nat) (st : Bool × List Nat), (∀ i ∈ st.2, i < bound) →
      (∀ t, t < n → j + t < bound) →
      ∀ i ∈ (forRange tristripReadsBody n j st).2, i < bound := by
  intro n
  induction n with
  | zero => intro j st h _; exact h
  | succ n ih =>
    intro j st h hj
    simp only [forRange]
    have hj0 : j < bound := by have := hj 0 (by omega); omega
    refine ih (j + 1) _ ?_ (fun t ht => by have := hj (t + 1) (by omega); omega)
    intro i hi
    unfold tristripReadsBody at hi
    split at hi
    · simp only [List.mem_append, List.mem_cons, List.mem_singleton, List.not_mem_nil,
        or_false] at hi
      rcases hi with hi | hi | hi | hi
      · exact h i hi
      all_goals omega
    · simp only [List.mem_append, List.mem_cons, List.mem_singleton, List.not_mem_nil,
        or_false] at hi
      rcases hi with hi | hi | hi | hi
      · exact h i hi
      all_goals omega

theorem forRange_trifanReadsBody (bound : Nat) :
    ∀ (n j : Nat) (log : List Nat), (∀ i ∈ log, i < bound) →
      (∀ t, t < n → j + t < bound) →
      ∀ i ∈ forRange trifanReadsBody n j log, i < bound := by
  intro n
  induction n with
  | zero => intro j log h _; exact h
  | succ n ih =>
    intro j log h hj
    simp only [forRange]
    have hj0 : j < bound := by have := hj 0 (by omega); omega
    refine ih (j + 1) _ ?_ (fun t ht => by have := hj (t + 1) (by omega); omega)
    intro i hi
    unfold trifanReadsBody at hi
    simp only [List.mem_append, List.mem_cons, List.mem_singleton, List.not_mem_nil,
      or_false] at hi
    rcases hi with hi | hi | hi
    · exact h i hi
    all_goals omega

theorem foldl_tristripReadsRun (bound : Nat) :
    ∀ (counts : List Nat) (s : Nat × List Nat), (∀ i ∈ s.2, i < bound) →
      s.1 + counts.sum ≤ bound →
      ∀ i ∈ (counts.foldl tristripReadsRun s).2, i < bound := by
  intro counts
  induction counts with
  | nil => intro s h _; exact h
  | cons L rest ih =>
    intro s h hsum
    simp only [List.sum_cons] at hsum
    simp only [List.foldl_cons]
    refine ih _ ?_ (by show s.1 + L + rest.sum ≤ bound; omega)
    exact forRange_tristripReadsBody bound _ _ _ h (fun t ht => by omega)

theorem foldl_trifanReadsRun (bound : Nat) :
    ∀ (counts : List Nat) (s : Nat × List Nat), (∀ i ∈ s.2, i < bound) →
      (∀ L ∈ counts, 3 ≤ L) → s.1 + counts.sum ≤ bound →
      ∀ i ∈ (counts.foldl trifanReadsRun s).2, i < bound := by
  intro counts
  induction counts with
  | nil => intro s h _ _; exact h
  | cons L rest ih =>
    intro s h hL hsum
    simp only [List.sum_cons] at hsum
    have h3 := hL L (List.mem_cons_self _ _)
    simp only [List.foldl_cons]
    refine ih _ ?_ (fun x hx => hL x (List.mem_cons_of_mem _ hx))
      (by show s.1 + L + rest.sum ≤ bound; omega)
    refine forRange_trifanReadsBody bound _ _ _ ?_ (fun t ht => by omega)
    intro i hi
    simp only [List.mem_append, List.mem_singleton] at hi
    rcases hi with hi | hi
    · exact h i hi
    · omega

/-- C28. Take a strip or fan primitive whose run lengths are each at least 3 and sum to the
length of an index array. Every position of the array that the decomposition reads, the common
vertex at the start of each fan run included, is below that length. A strip run of length less
than 3 reads nothing and makes no face: the log of reads, the face index and the faces are the
ones it started with, in the position pass and in the normal pass. -/
theorem C28_strip_fan_reads_in_bounds (p : MeshPrimitive) (idx : List Nat)
    (htype : p.primitiveType = PrimitiveType.TRIANGLE_STRIPS ∨
      p.primitiveType = PrimitiveType.TRIANGLE_FANS)
    (hruns : ∀ L ∈ p.groupedVerticesVertexCountArray, 3 ≤ L)
    (hsum : p.groupedVerticesVertexCountArray.sum = idx.length) :
    (∀ i ∈ stripFanReads p, i < idx.length) ∧
    (∀ L, L < 3 →
      (∀ start log, tristripReadsRun (start, log) L = (start + L, log)) ∧
      (∀ m (a : List Nat) (s : Nat × FaceState), tristripRun m a s L = (s.1 + L, s.2)) ∧
      (∀ (a : List Nat) (s : Nat × Cursor MeshNormalFace),
        normalsTristripRun a s L = (s.1 + L, s.2))) := by
  constructor
  · unfold stripFanReads
    rcases htype with hty | hty
    · simp only [hty]
      exact foldl_tristripReadsRun idx.length _ (0, []) (fun i hi => absurd hi (by simp))
        (by simp only [Nat.zero_add]; omega)
    · simp only [hty]
      exact foldl_trifanReadsRun idx.length _ (0, []) (fun i hi => absurd hi (by simp)) hruns
        (by simp only [Nat.zero_add]; omega)
  · intro L hL
    refine ⟨?_, ?_, ?_⟩
    · intro start log
      have e : start + L - (start + 2) = 0 := by omega
      simp only [tristripReadsRun, e, forRange]
    · intro m a s
      have e : s.1 + L - (s.1 + 2) = 0 := by omega
      simp only [tristripRun, e, forRange]
    · intro a s
      have e : s.1 + L - (s.1 + 2) = 0 := by omega
      simp only [normalsTristripRun, e, forRange]

/-- An instance of C28: a fan primitive with the runs 3 and 4 over seven indices reads the
positions 0 to 6 only. -/
theorem C28_strip_fan_reads_in_bounds_witness :
    stripFanReads (MeshPrimitive.simple PrimitiveType.TRIANGLE_FANS [5, 6, 7, 8, 9, 10, 11] [3, 4])
      = [0, 1, 2, 3, 4, 5, 5, 6] ∧
    ∀ i ∈ stripFanReads
        (MeshPrimitive.simple PrimitiveType.TRIANGLE_FANS [5, 6, 7, 8, 9, 10, 11] [3, 4]),
      i < 7 :=
  ⟨rfl, (C28_strip_fan_reads_in_bounds
    (MeshPrimitive.simple PrimitiveType.TRIANGLE_FANS [5, 6, 7, 8, 9, 10, 11] [3, 4])
    [5, 6, 7, 8, 9, 10, 11] (Or.inr rfl) (by decide) rfl).1⟩

/-! The logged positions are all the positions a run depends on. -/

theorem tristripReadsBody_eq (j : Nat) (sw : Bool) (log : List Nat) :
    tristripReadsBody j (sw, log)
      = (!sw, log ++ (if sw then [j - 1, j - 2, j] else [j - 2, j - 1, j])) := by
  cases sw <;> rfl

theorem forRange_tristripReadsBody_mono :
    ∀ (n j : Nat) (st : Bool × List Nat) (i : Nat), i ∈ st.2 →
      i ∈ (forRange tristripReadsBody n j st).2 := by
  intro n
  induction n with
  | zero => intro j st i h; exact h
  | succ n ih =>
    intro j st i h
    simp only [forRange]
    refine ih (j + 1) _ i ?_
    obtain ⟨sw, log⟩ := st
    rw [tristripReadsBody_eq]
    exact List.mem_append_left _ h

/-- The inner strip loop of the position pass gives the same faces on two index arrays that
agree at the logged positions. -/
theorem forRange_tristripBody_reads (m : Nat) (idx idx' : List Nat) :
    ∀ (n j : Nat) (sw : Bool) (c : FaceState) (log : List Nat),
      (∀ i ∈ (forRange tristripReadsBody n j (sw, log)).2, rd idx i = rd idx' i) →
      forRange (tristripBody m idx) n j (sw, c) = forRange (tristripBody m idx') n j (sw, c) := by
  intro n
  induction n with
  | zero => intro j sw c log _; rfl
  | succ n ih =>
    intro j sw c log h
    simp only [forRange] at h ⊢
    rw [tristripReadsBody_eq] at h
    have hin : ∀ i, i ∈ (if sw then [j - 1, j - 2, j] else [j - 2, j - 1, j]) →
        rd idx i = rd idx' i := by
      intro i hi
      exact h i (forRange_tristripReadsBody_mono n (j + 1) _ i (List.mem_append_right _ hi))
    have hb : tristripBody m idx j (sw, c) = tristripBody m idx' j (sw, c) := by
      rw [tristripBody_eq, tristripBody_eq]
      unfold tristripFace
      cases sw
      · have a := hin (j - 2) (by simp)
        have b := hin (j - 1) (by simp)
        have d := hin j (by simp)
        simp only [a, b, d]
      · have a := hin (j - 2) (by simp)
        have b := hin (j - 1) (by simp)
        have d := hin j (by simp)
        simp only [a, b, d]
    rw [hb, tristripBody_eq]
    exact ih (j + 1) (!sw) _ _ h

/-- One strip run of the position pass gives the same faces on two index arrays that agree at
the positions logged for the run. -/
theorem tristripRun_reads (m : Nat) (idx idx' : List Nat) (start : Nat) (c : FaceState)
    (log : List Nat) (L : Nat)
    (h : ∀ i ∈ (tristripReadsRun (start, log) L).2, rd idx i = rd idx' i) :
    tristripRun m idx (start, c) L = tristripRun m idx' (start, c) L := by
  unfold tristripRun
  unfold tristripReadsRun at h
  dsimp only at h ⊢
  rw [forRange_tristripBody_reads m idx idx' _ _ false c log h]

theorem forRange_trifanReadsBody_mono :
    ∀ (n j : Nat) (log : List Nat) (i : Nat), i ∈ log →
      i ∈ forRange trifanReadsBody n j log := by
  intro n
  induction n with
  | zero => intro j log i h; exact h
  | succ n ih =>
    intro j log i h
    simp only [forRange]
    exact ih (j + 1) _ i (List.mem_append_left _ h)

/-- The inner fan loop of the position pass gives the same faces on two index arrays that
agree at the logged positions. -/
theorem forRange_trifanBody_reads (m : Nat) (idx idx' : List Nat) (common : Nat) :
    ∀ (n j : Nat) (c : FaceState) (log : List Nat),
      (∀ i ∈ forRange trifanReadsBody n j log, rd idx i = rd idx' i) →
      forRange (trifanBody m idx common) n j c = forRange (trifanBody m idx' common) n j c := by
  intro n
  induction n with
  | zero => intro j c log _; rfl
  | succ n ih =>
    intro j c log h
    simp only [forRange] at h ⊢
    have hin : ∀ i, i ∈ [j - 1, j] → rd idx i = rd idx' i := by
      intro i hi
      exact h i (forRange_trifanReadsBody_mono n (j + 1) _ i (List.mem_append_right _ hi))
    have hb : trifanBody m idx common j c = trifanBody m idx' common j c := by
      unfold trifanBody
      have a := hin (j - 1) (by simp)
      have b := hin j (by simp)
      simp only [a, b]
    rw [hb]
    exact ih (j + 1) _ _ h

/-- One fan run of the position pass gives the same faces on two index arrays that agree at
the positions logged for the run. -/
theorem trifanRun_reads (m : Nat) (idx idx' : List Nat) (start : Nat) (c : FaceState)
    (log : List Nat) (L : Nat)
    (h : ∀ i ∈ (trifanReadsRun (start, log) L).2, rd idx i = rd idx' i) :
    trifanRun m idx (start, c) L = trifanRun m idx' (start, c) L := by
  unfold trifanRun
  unfold trifanReadsRun at h
  dsimp only at h ⊢
  have hc : rd idx start = rd idx' start :=
    h start (forRange_trifanReadsBody_mono _ _ _ start (List.mem_append_right _ (by simp)))
  rw [hc, forRange_trifanBody_reads m idx idx' (rd idx' start) _ _ c _ h]

/-! ## The 16-bit counter of createFWMaterialIdMaxMtlIdMap -/

theorem firstSeen_nodup : ∀ (l seen : List Nat), l.Nodup → (∀ x ∈ l, x ∉ seen) →
    firstSeen seen l = seen ++ l := by
  intro l
  induction l with
  | nil => intro seen _ _; simp [firstSeen]
  | cons t rest ih =>
    intro seen hnd hdis
    have ht : t ∉ seen := hdis t (List.mem_cons_self _ _)
    simp only [firstSeen, ht, if_false]
    rw [List.nodup_cons] at hnd
    rw [ih (seen ++ [t]) hnd.2 (by
      intro x hx
      simp only [List.mem_append, List.mem_singleton, not_or]
      refine ⟨hdis x (List.mem_cons_of_mem _ hx), ?_⟩
      intro e
      exact hnd.1 (e ▸ hx))]
    simp

/-- The loop of createFWMaterialIdMaxMtlIdMap on non-null primitives followed by further
primitives: as long as the counter does not wrap, it reaches the further primitives with the
map that numbers the tags seen so far in order and with the counter one above their number. -/
theorem createFWMaterialIdMaxMtlIdMapLoop_prefix (rest : List (Option MeshPrimitive)) :
    ∀ (ps : List MeshPrimitive) (seen : List Nat) (mm : List (Nat × Nat)),
      NumbersInOrder seen mm →
      (firstSeen seen (ps.map (·.materialId))).length < 65536 →
      ∃ mm', createFWMaterialIdMaxMtlIdMapLoop (ps.map some ++ rest)
            (toMtlID (seen.length + 1)) mm
          = createFWMaterialIdMaxMtlIdMapLoop rest
              (toMtlID ((firstSeen seen (ps.map (·.materialId))).length + 1)) mm' ∧
        NumbersInOrder (firstSeen seen (ps.map (·.materialId))) mm' := by
  intro ps
  induction ps with
  | nil => intro seen mm h _; exact ⟨mm, rfl, h⟩
  | cons p ps ih =>
    intro seen mm h hlen
    simp only [List.map_cons, List.cons_append, createFWMaterialIdMaxMtlIdMapLoop,
      firstSeen] at hlen ⊢
    by_cases hp : p.materialId ∈ seen
    · have hs : (mapFind p.materialId mm).isNone = false := by
        have := (numbersInOrder_isSome seen mm h p.materialId).mpr hp
        cases hf : mapFind p.materialId mm with
        | none => rw [hf] at this; exact absurd this (by simp)
        | some v => rfl
      simp only [hp, if_true] at hlen ⊢
      simp only [hs, Bool.false_eq_true, if_false]
      exact ih seen mm h hlen
    · have hs : (mapFind p.materialId mm).isNone = true := by
        cases hf : mapFind p.materialId mm with
        | none => rfl
        | some v =>
          exact absurd ((numbersInOrder_isSome seen mm h p.materialId).mp (by simp [hf])) hp
      simp only [hp, if_false] at hlen ⊢
      simp only [hs, if_true]
      have hle := length_le_firstSeen (ps.map (·.materialId)) (seen ++ [p.materialId])
      simp only [List.length_append, List.length_singleton] at hle
      have hnext : toMtlID (seen.length + 1) = seen.length + 1 := by
        unfold toMtlID; omega
      rw [hnext]
      have := ih (seen ++ [p.materialId])
        (mapPlace natLt p.materialId (seen.length + 1) mm)
        (numbersInOrder_append seen mm p.materialId h hp) hlen
      simpa only [List.length_append, List.length_singleton] using this

/-- C19, the claim as stated fails: on the array of 65536 primitives with the material tags
0, 1, ..., 65535 the function returns a map that sends the tag 65535, the 65536th distinct
tag, to 0: the 16-bit counter `nextMaxMaterialId` has wrapped. -/
theorem C19_counter_wraps :
    ∃ mm, createFWMaterialIdMaxMtlIdMap
        ((List.range 65536).map (fun i =>
          some { MeshPrimitive.simple PrimitiveType.TRIANGLES [] [] with materialId := i }))
        [] = some mm ∧
      mapFind 65535 mm = some 0 ∧ mapFind 65535 mm ≠ some 65536 ∧
      ¬ (∀ tag v, mapFind tag mm = some v → 1 ≤ v) := by
  have h0 : NumbersInOrder [] [] := by
    intro tag v
    simp [mapFind]
  have htags : ((List.range 65535).map (fun i =>
      ({ MeshPrimitive.simple PrimitiveType.TRIANGLES [] [] with materialId := i }
        : MeshPrimitive))).map (·.materialId) = List.range 65535 := by
    rw [List.map_map]
    exact List.map_id'' (fun _ => rfl) _
  have hseen : firstSeen [] (List.range 65535) = List.range 65535 := by
    rw [firstSeen_nodup _ _ (List.nodup_range _) (fun _ _ => List.not_mem_nil _)]
    exact List.nil_append _
  obtain ⟨mm', hrun, hin⟩ := createFWMaterialIdMaxMtlIdMapLoop_prefix
    [some { MeshPrimitive.simple PrimitiveType.TRIANGLES [] [] with materialId := 65535 }]
    ((List.range 65535).map (fun i =>
      ({ MeshPrimitive.simple PrimitiveType.TRIANGLES [] [] with materialId := i }
        : MeshPrimitive))) [] [] h0
    (by rw [htags, hseen, List.length_range]; decide)
  rw [htags, hseen] at hin
  rw [htags, hseen, List.length_range] at hrun
  have hnone : mapFind 65535 mm' = none := by
    cases hf : mapFind 65535 mm' with
    | none => rfl
    | some v =>
      have := (numbersInOrder_isSome _ _ hin 65535).mp (by simp [hf])
      rw [List.mem_range] at this
      exact absurd this (by decide)
  have hinput : (List.range 65536).map (fun i =>
      some ({ MeshPrimitive.simple PrimitiveType.TRIANGLES [] [] with materialId := i }
        : MeshPrimitive))
      = ((List.range 65535).map (fun i =>
          ({ MeshPrimitive.simple PrimitiveType.TRIANGLES [] [] with materialId := i }
            : MeshPrimitive))).map some
        ++ [some { MeshPrimitive.simple PrimitiveType.TRIANGLES [] [] with
              materialId := 65535 }] := by
    rw [show (65536 : Nat) = 65535 + 1 from rfl, List.range_succ, List.map_append,
      List.map_map]
    rfl
  have hwrap : toMtlID (65535 + 1) = 0 := by decide
  have hfind : mapFind 65535 (mapPlace natLt 65535 0 mm') = some 0 := by
    rw [mapFind_mapPlace natLt 65535 0 mm' hnone 65535]
    simp
  refine ⟨mapPlace natLt 65535 0 mm', ?_, hfind, ?_, ?_⟩
  · unfold createFWMaterialIdMaxMtlIdMap
    rw [hinput]
    have e : createFWMaterialIdMaxMtlIdMapLoop
        [some { MeshPrimitive.simple PrimitiveType.TRIANGLES [] [] with materialId := 65535 }]
        (toMtlID (65535 + 1)) mm' = some (mapPlace natLt 65535 0 mm') := by
      rw [hwrap]
      simp only [createFWMaterialIdMaxMtlIdMapLoop]
      have hs : (mapFind 65535 mm').isNone = true := by rw [hnone]; rfl
      have hid : ({ MeshPrimitive.simple PrimitiveType.TRIANGLES [] [] with
          materialId := 65535 } : MeshPrimitive).materialId = 65535 := rfl
      simp only [hid, hs, if_true]
    rw [← e, ← hrun]
    rfl
  · rw [hfind]
    decide
  · intro h
    exact absurd (h 65535 0 hfind) (by decide)

end COLLADAMax
